import Mathlib

/-!
# StackIT front-end: verification development

A shallow embedding of the logic of the StackIT view components
(`CreateUser.jsx`, `CreateTicketForm.jsx`, `ViewUsers.jsx`, `Header.jsx`)
and theorems about it.

* JavaScript strings are sequences of UTF-16 code units (`JSString`).
* Values whose type the source does not fix (fields of backend records,
  response fields) are `JSValue`s.
* An expression that would raise a `TypeError` evaluates to `none`.
* Event handlers are functions from the component state and the environment
  (local storage, the answer of `window.confirm`, the outcome of each HTTP
  request) to the final component state and the list of effects issued.
-/

namespace StackIT

/-! ## JavaScript strings and values -/

/-- A JavaScript string: its UTF-16 code units. -/
abbrev JSString := List Nat

/-- The code units of a string literal of the source (literals of the source
are all in the Basic Multilingual Plane, one code unit per character). -/
def js (s : String) : JSString := s.toList.map Char.toNat

/-- Primitive JavaScript values (the values a JSON scalar or a missing
property can take; numbers are restricted to integers). -/
inductive JSValue where
  | undefined
  | null
  | bool (b : Bool)
  | num (n : Int)
  | str (s : JSString)
  deriving DecidableEq, Repr

/-- ToBoolean. -/
def JSValue.truthy : JSValue → Bool
  | .undefined => false
  | .null => false
  | .bool b => b
  | .num n => decide (n ≠ 0)
  | .str s => !s.isEmpty

/-- The operator `a || b` on values. -/
def JSValue.or (a b : JSValue) : JSValue := if a.truthy then a else b

/-- Strict equality `v === "literal"` of a value with a string. -/
def JSValue.strictEqStr (v : JSValue) (s : JSString) : Bool :=
  match v with
  | .str t => decide (t = s)
  | _ => false

/-- Code units matched by `\s` and stripped by `String.prototype.trim`:
the WhiteSpace and LineTerminator productions of ECMAScript. -/
def isWhiteSpace (c : Nat) : Bool :=
  c == 0x0009 || c == 0x000A || c == 0x000B || c == 0x000C || c == 0x000D ||
  c == 0x0020 || c == 0x00A0 || c == 0x1680 || (0x2000 ≤ c && c ≤ 0x200A) ||
  c == 0x2028 || c == 0x2029 || c == 0x202F || c == 0x205F || c == 0x3000 ||
  c == 0xFEFF

/-- The class escape `\S`. -/
def isNonSpace (c : Nat) : Bool := !isWhiteSpace c

/-- String.prototype.trim: strips leading and trailing white space. -/
def trim (s : JSString) : JSString :=
  ((s.dropWhile isWhiteSpace).reverse.dropWhile isWhiteSpace).reverse

/-! ## Regular expressions (the fragment used by the source) -/

/-- A single-code-unit matcher: the class escape `\S` or a literal. -/
inductive RegexAtom where
  | nonSpace
  | lit (c : Nat)
  deriving DecidableEq, Repr

/-- A term of a pattern: an atom, or an atom under the greedy quantifier `+`. -/
inductive RegexTerm where
  | one (a : RegexAtom)
  | plus (a : RegexAtom)
  deriving DecidableEq, Repr

/-- A pattern: a sequence of terms. -/
abbrev Regex := List RegexTerm

/-- Whether an atom accepts a code unit. -/
def RegexAtom.accepts : RegexAtom → Nat → Bool
  | .nonSpace, c => isNonSpace c
  | .lit d, c => c == d

/-- Greedy `a+` followed by the continuation `k` (backtracking matcher):
consume one accepted code unit, then try to consume more before falling
back to the continuation. -/
def matchPlus (a : RegexAtom) (k : JSString → Bool) : JSString → Bool
  | [] => false
  | c :: cs => a.accepts c && (matchPlus a k cs || k cs)

/-- Match a pattern at the start of the input. -/
def matchHere : Regex → JSString → Bool
  | [] => fun _ => true
  | .one a :: rest => fun s =>
      match s with
      | [] => false
      | c :: cs => a.accepts c && matchHere rest cs
  | .plus a :: rest => matchPlus a (matchHere rest)

/-- RegExp.prototype.test for a pattern without flags: try every start
index from 0 to the length of the input. -/
def Regex.test (re : Regex) : JSString → Bool
  | [] => matchHere re []
  | c :: cs => matchHere re (c :: cs) || Regex.test re cs

/-- The pattern `/\S+@\S+\.\S+/` of `validateForm`. -/
def emailRegex : Regex :=
  [.plus .nonSpace, .one (.lit 0x40), .plus .nonSpace, .one (.lit 0x2E), .plus .nonSpace]

/-! ## CreateUser.jsx -/

/-- The `formData` state of `CreateUser`. -/
structure FormData where
  username : JSString := []
  email : JSString := []
  phone : JSString := []
  password : JSString := []
  confirmPassword : JSString := []
  role : JSString := []
  department : JSString := []
  deriving DecidableEq, Repr

/-- The `errors` state of `CreateUser`: one entry per key the component
reads or writes; `undefined` is an absent entry. -/
structure FormErrors where
  username : JSValue := .undefined
  email : JSValue := .undefined
  phone : JSValue := .undefined
  password : JSValue := .undefined
  confirmPassword : JSValue := .undefined
  role : JSValue := .undefined
  department : JSValue := .undefined
  submit : JSValue := .undefined
  deriving DecidableEq, Repr

/-- The function `validateForm` of `CreateUser`: the error object passed to
`setErrors` and the returned flag. -/
def validateForm (formData : FormData) : FormErrors × Bool :=
  let tempErrors : FormErrors := {}
  let isValid := true
  let (tempErrors, isValid) :=
    if (trim formData.username).isEmpty then
      ({ tempErrors with username := .str (js "Username is required") }, false)
    else (tempErrors, isValid)
  let (tempErrors, isValid) :=
    if (trim formData.email).isEmpty then
      ({ tempErrors with email := .str (js "Email is required") }, false)
    else if !emailRegex.test formData.email then
      ({ tempErrors with email := .str (js "Email is invalid") }, false)
    else (tempErrors, isValid)
  let (tempErrors, isValid) :=
    if formData.password.isEmpty then
      ({ tempErrors with password := .str (js "Password is required") }, false)
    else if formData.password.length < 8 then
      ({ tempErrors with password := .str (js "Password must be at least 8 characters") }, false)
    else (tempErrors, isValid)
  let (tempErrors, isValid) :=
    if formData.password ≠ formData.confirmPassword then
      ({ tempErrors with confirmPassword := .str (js "Passwords do not match") }, false)
    else (tempErrors, isValid)
  (tempErrors, isValid)

/-! ## Environment and effects -/

/-- HTTP method of a request. -/
inductive HttpMethod where
  | get
  | post
  deriving DecidableEq, Repr

/-- Body of a request issued by the components. -/
inductive RequestBody where
  | absent
  | emptyObject
  | ticket (subject issue category priority : JSString)
  | user (username email password department role : JSString)
  deriving DecidableEq, Repr

/-- A request handed to axios: method, endpoint (a build-time constant of
the deployment), the optional id appended as `/${id}`, the body and the token
of the `Authorization: Bearer ...` header. -/
structure HttpRequest where
  method : HttpMethod
  url : JSString
  pathId : Option JSValue := none
  body : RequestBody
  bearer : JSString
  deriving DecidableEq, Repr

/-- A user record as returned by the list endpoint. -/
structure BackendUser where
  user_id : JSValue := .undefined
  username : JSValue := .undefined
  email : JSValue := .undefined
  role : JSValue := .undefined
  created_at : JSValue := .undefined
  status : JSValue := .undefined
  isverified : JSValue := .undefined
  department : JSValue := .undefined
  deriving DecidableEq, Repr

/-- The properties of a response body the components read. -/
structure ResponseData where
  success : JSValue := .undefined
  message : JSValue := .undefined
  users : Option (List BackendUser) := none
  deriving DecidableEq, Repr

/-- Outcome of an axios call.  `resolved d`: the promise resolves and
`response.data` is `d` (`none` when it is null or undefined).  `rejected d`:
the promise rejects and `err.response?.data` is `d` (`none` when there is no
response or no body). -/
inductive HttpOutcome where
  | resolved (data : Option ResponseData)
  | rejected (data : Option ResponseData)
  deriving DecidableEq, Repr

/-- What a handler reads from its surroundings. -/
structure Env where
  /-- Value of `localStorage.getItem("userToken")`; `none` is `null`. -/
  userToken : Option JSString
  /-- Answer given to `window.confirm`. -/
  confirm : Bool := true
  /-- The outcome of each request. -/
  http : HttpRequest → HttpOutcome

/-- Callbacks registered with `setTimeout`. -/
inductive TimerAction where
  | clearSuccess
  | announceUserCreated
  deriving DecidableEq, Repr

/-- Effects of a handler, in program order. -/
inductive Effect where
  | request (r : HttpRequest)
  | alert (msg : JSValue)
  | timer (ms : Nat) (action : TimerAction)
  | setIsSubmitting (b : Bool)
  deriving DecidableEq, Repr

/-- Whether an effect is an HTTP request. -/
def Effect.isRequest : Effect → Bool
  | .request _ => true
  | _ => false

/-- The requests among the effects. -/
def requestsOf (effects : List Effect) : List HttpRequest :=
  effects.filterMap fun e => match e with
    | .request r => some r
    | _ => none

/-- The messages shown with `alert`. -/
def alertsOf (effects : List Effect) : List JSValue :=
  effects.filterMap fun e => match e with
    | .alert m => some m
    | _ => none

/-- The test `!token` on the value read from local storage. -/
def tokenMissing (token : Option JSString) : Bool :=
  match token with
  | none => true
  | some t => t.isEmpty

/-- The string read from local storage (only used when `!token` is false). -/
def tokenString (token : Option JSString) : JSString := token.getD []

/-! ## CreateUser.jsx: submission -/

/-- State of the `CreateUser` component. -/
structure CreateUserState where
  formData : FormData := {}
  errors : FormErrors := {}
  isSubmitting : Bool := false
  deriving DecidableEq, Repr

/-- The `catch` block of `handleSubmit`; `data` is `error.response.data`
when `error.response && error.response.data` is truthy. -/
def submitCatch (data : Option ResponseData) : FormErrors :=
  match data with
  | some d =>
      { submit := d.message.or (.str (js "Failed to create user. Please try again.")) }
  | none => { submit := .str (js "Failed to create user. Please try again.") }

/-- The handler `handleSubmit` of `CreateUser`; `api` is `API_CREATE_USER`. -/
def handleSubmit (api : JSString) (env : Env) (st : CreateUserState) :
    CreateUserState × List Effect :=
  let (tempErrors, isValid) := validateForm st.formData
  let st := { st with errors := tempErrors }
  if isValid then
    let st := { st with isSubmitting := true }
    let (st, effects) : CreateUserState × List Effect :=
      if tokenMissing env.userToken then
        -- throw new Error("Authentication token not found"): no `response`
        ({ st with errors := submitCatch none }, [])
      else
        let userData := RequestBody.user st.formData.username st.formData.email
          st.formData.password st.formData.department st.formData.role
        let req : HttpRequest :=
          { method := .post, url := api, body := userData, bearer := tokenString env.userToken }
        match env.http req with
        | .resolved (some data) =>
            if data.success.truthy then
              ({ st with errors := {} }, [.request req, .timer 500 .announceUserCreated])
            else
              -- throw new Error(message || "Failed to create user"): no `response`
              ({ st with errors := submitCatch none }, [.request req])
        | .resolved none =>
            -- TypeError on `response.data.success`: no `response`
            ({ st with errors := submitCatch none }, [.request req])
        | .rejected data =>
            ({ st with errors := submitCatch data }, [.request req])
    ({ st with isSubmitting := false },
      [.setIsSubmitting true] ++ effects ++ [.setIsSubmitting false])
  else
    (st, [])

/-- The `name` of a change event: a key of `formData` (the rendered inputs
use six of them; there is no input for `phone`). -/
inductive FieldName where
  | username
  | email
  | phone
  | password
  | confirmPassword
  | role
  | department
  deriving DecidableEq, Repr

/-- The property `formData[name]`. -/
def FormData.get (formData : FormData) : FieldName → JSString
  | .username => formData.username
  | .email => formData.email
  | .phone => formData.phone
  | .password => formData.password
  | .confirmPassword => formData.confirmPassword
  | .role => formData.role
  | .department => formData.department

/-- The object `{...formData, [name]: value}`. -/
def FormData.set (formData : FormData) (name : FieldName) (value : JSString) : FormData :=
  match name with
  | .username => { formData with username := value }
  | .email => { formData with email := value }
  | .phone => { formData with phone := value }
  | .password => { formData with password := value }
  | .confirmPassword => { formData with confirmPassword := value }
  | .role => { formData with role := value }
  | .department => { formData with department := value }

/-- The property `errors[name]`. -/
def FormErrors.get (errors : FormErrors) : FieldName → JSValue
  | .username => errors.username
  | .email => errors.email
  | .phone => errors.phone
  | .password => errors.password
  | .confirmPassword => errors.confirmPassword
  | .role => errors.role
  | .department => errors.department

/-- The object `{...errors, [name]: value}`. -/
def FormErrors.set (errors : FormErrors) (name : FieldName) (value : JSValue) : FormErrors :=
  match name with
  | .username => { errors with username := value }
  | .email => { errors with email := value }
  | .phone => { errors with phone := value }
  | .password => { errors with password := value }
  | .confirmPassword => { errors with confirmPassword := value }
  | .role => { errors with role := value }
  | .department => { errors with department := value }

/-- The handler `handleChange` of `CreateUser`, for the event target
`{ name, value }`. -/
def handleChange (name : FieldName) (value : JSString) (st : CreateUserState) :
    CreateUserState :=
  let next := { st with formData := st.formData.set name value }
  if (st.errors.get name).truthy then
    { next with errors := st.errors.set name .null }
  else next

/-! ## CreateTicketForm.jsx -/

/-- State of the `CreateTicketForm` component. -/
structure TicketState where
  subject : JSString := []
  issue : JSString := []
  category : JSString := []
  priority : JSString := []
  error : JSValue := .str []
  success : JSString := []
  deriving DecidableEq, Repr

/-- The handler `handleCreateTicket`; `api` is `API_CREATE_TICKET`. -/
def handleCreateTicket (api : JSString) (env : Env) (st : TicketState) :
    TicketState × List Effect :=
  let st0 := st
  let st := { st with error := .str [], success := [] }
  if st0.subject.isEmpty || st0.issue.isEmpty || st0.category.isEmpty || st0.priority.isEmpty then
    ({ st with error := .str (js "All fields are required.") }, [])
  else if tokenMissing env.userToken then
    ({ st with error := .str (js "Unauthorized! Please log in.") }, [])
  else
    let req : HttpRequest :=
      { method := .post, url := api,
        body := .ticket st0.subject st0.issue st0.category st0.priority,
        bearer := tokenString env.userToken }
    match env.http req with
    | .resolved _ =>
        ({ st with success := js "Ticket created successfully!",
                   subject := [], issue := [], category := [], priority := [] },
          [.request req, .timer 5000 .clearSuccess])
    | .rejected data =>
        let message := match data with
          | some d => d.message
          | none => .undefined
        ({ st with error := message.or (.str (js "Error creating ticket.")) }, [.request req])

/-! ## Built-in functions of the platform -/

/-- The built-in functions the user list relies on whose results depend on
Unicode tables, the locale or the host: they are parameters of the model. -/
structure Builtins where
  /-- String.prototype.toLowerCase. -/
  toLowerCase : JSString → JSString
  /-- String.prototype.toUpperCase. -/
  toUpperCase : JSString → JSString
  /-- String.prototype.localeCompare (receiver, argument). -/
  localeCompare : JSString → JSString → Int
  /-- Time value in milliseconds of `new Date(v)`; `none` is an invalid date. -/
  dateValue : JSValue → Option Int

/-- Decimal digits of a natural number, as code units. -/
def decimal (n : Nat) : JSString := (Nat.toDigits 10 n).map Char.toNat

/-- ToString on primitive values. -/
def JSValue.toJSString : JSValue → JSString
  | .undefined => js "undefined"
  | .null => js "null"
  | .bool true => js "true"
  | .bool false => js "false"
  | .num n => if n < 0 then 0x2D :: decimal n.natAbs else decimal n.natAbs
  | .str s => s

/-- The receiver of a string method: a `TypeError` unless the value is a string. -/
def JSValue.asString : JSValue → Option JSString
  | .str s => some s
  | _ => none

/-- String.prototype.includes. -/
def includes (s t : JSString) : Bool :=
  match s with
  | [] => t.isEmpty
  | c :: cs => t.isPrefixOf (c :: cs) || includes cs t

/-- Array.prototype.map with a callback that may throw. -/
def mapThrowing {α β : Type} (f : α → Option β) : List α → Option (List β)
  | [] => some []
  | a :: as =>
      match f a with
      | none => none
      | some b =>
          match mapThrowing f as with
          | none => none
          | some bs => some (b :: bs)

/-- Array.prototype.filter with a callback that may throw. -/
def filterThrowing {α : Type} (p : α → Option Bool) : List α → Option (List α)
  | [] => some []
  | a :: as =>
      match p a with
      | none => none
      | some keep =>
          match filterThrowing p as with
          | none => none
          | some rest => some (if keep then a :: rest else rest)

/-- A number returned by a comparator: NaN or an integer.  The sort only
uses the sign of the result; the difference of two time values is an integer
whose sign the floating-point subtraction preserves. -/
inductive JSNum where
  | nan
  | int (v : Int)
  deriving DecidableEq, Repr

/-- Unary minus. -/
def JSNum.neg : JSNum → JSNum
  | .nan => .nan
  | .int v => .int (-v)

/-- The value the sort uses for a comparator result: NaN counts as 0. -/
def JSNum.sortValue : JSNum → Int
  | .nan => 0
  | .int v => v

/-- Insertion of `x` into a sorted list, before the first element it does
not follow (`none` when the comparator throws). -/
def sortInsert {α : Type} (cmp : α → α → Option JSNum) (x : α) : List α → Option (List α)
  | [] => some [x]
  | y :: ys =>
      match cmp x y with
      | none => none
      | some v =>
          if v.sortValue ≤ 0 then some (x :: y :: ys)
          else
            match sortInsert cmp x ys with
            | none => none
            | some r => some (y :: r)

/-- Array.prototype.sort with a consistent comparator, on a copy of the
list: the stable sort, computed by insertion; `none` when a call of the
comparator throws.  ECMAScript fixes the result of `sort` only for a
consistent comparator, for which a stable sort gives the same list whatever
algorithm the engine uses (`arrayTimSort_eq_arraySort` shows it for the
algorithm of V8).  For an inconsistent comparator (one that returns NaN for
some pairs) the order is implementation-defined, and which pairs are compared
depends on the engine, so that a comparator that throws for some pairs only
may throw in one engine and not in another: there this definition is not an
authority, see `arrayTimSort`. -/
def arraySort {α : Type} (cmp : α → α → Option JSNum) : List α → Option (List α)
  | [] => some []
  | x :: xs =>
      match arraySort cmp xs with
      | none => none
      | some sorted => sortInsert cmp x sorted

/-! ## The sort of the V8 engine

`Array.prototype.sort` as V8 (Chrome, Node.js) computes it for an array of
fewer than 64 elements, after `third_party/v8/builtins/array-sort.tq`: the
minimum run length of its TimSort is then the length of the array, so the
sort is `CountAndMakeRun` on the whole array followed by one
`BinaryInsertionSort`, and nothing is merged. -/

/-- The method `Compare` of the sort state: the comparator is called and a
NaN result counts as 0 (`none` when the comparator throws). -/
def sortCompare {α : Type} (cmp : α → α → Option JSNum) (a b : α) : Option Int :=
  match cmp a b with
  | none => none
  | some v => some v.sortValue

/-- The loop of `CountAndMakeRun`: how many of the elements that follow
`previousElement` continue the run. -/
def countRun {α : Type} (cmp : α → α → Option JSNum) (isDescending : Bool)
    (previousElement : α) : List α → Option Nat
  | [] => some 0
  | currentElement :: rest =>
      match sortCompare cmp currentElement previousElement with
      | none => none
      | some order =>
          if (if isDescending then decide (0 ≤ order) else decide (order < 0)) then some 0
          else
            match countRun cmp isDescending currentElement rest with
            | none => none
            | some k => some (k + 1)

/-- The function `CountAndMakeRun` on an array of at least two elements: the
run at the start of the array, reversed when it is strictly descending, and
the elements after it. -/
def countAndMakeRun {α : Type} (cmp : α → α → Option JSNum) (elementHigh elementLow : α)
    (rest : List α) : Option (List α × List α) :=
  match sortCompare cmp elementLow elementHigh with
  | none => none
  | some order =>
      let isDescending := decide (order < 0)
      match countRun cmp isDescending elementLow rest with
      | none => none
      | some k =>
          let run := elementHigh :: elementLow :: rest.take k
          some (if isDescending then run.reverse else run, rest.drop k)

/-- The binary search of `BinaryInsertionSort` for the place of `pivot` in
`workArray[left, right)`; `steps` bounds the iterations of the loop, which
are at most `right - left` (`binarySearch_steps`). -/
def binarySearch {α : Type} (cmp : α → α → Option JSNum) (pivot : α) (workArray : List α) :
    Nat → Nat → Nat → Option Nat
  | 0, left, _ => some left
  | steps + 1, left, right =>
      if left < right then
        let mid := left + (right - left) / 2
        match sortCompare cmp pivot (workArray.getD mid pivot) with
        | none => none
        | some order =>
            if order < 0 then binarySearch cmp pivot workArray steps left mid
            else binarySearch cmp pivot workArray steps (mid + 1) right
      else some left

/-- The function `BinaryInsertionSort`: each element after the sorted start
of the array is inserted into it at the place the binary search finds. -/
def binaryInsertionSort {α : Type} (cmp : α → α → Option JSNum) :
    List α → List α → Option (List α)
  | sortedStart, [] => some sortedStart
  | sortedStart, pivot :: rest =>
      match binarySearch cmp pivot sortedStart sortedStart.length 0 sortedStart.length with
      | none => none
      | some left =>
          binaryInsertionSort cmp (sortedStart.take left ++ pivot :: sortedStart.drop left) rest

/-- The function `ArrayTimSort` for an array of fewer than 64 elements, on a
copy of the list; `none` when the comparator throws. -/
def arrayTimSort {α : Type} (cmp : α → α → Option JSNum) : List α → Option (List α)
  | [] => some []
  | [a] => some [a]
  | elementHigh :: elementLow :: rest =>
      match countAndMakeRun cmp elementHigh elementLow rest with
      | none => none
      | some (run, remaining) => binaryInsertionSort cmp run remaining

/-! ## ViewUsers.jsx -/

/-- A row of the user table, as built by `fetchUsers`.  The transformation
never sets `department`; the filter and the comparator read it. -/
structure UserRow where
  id : JSValue := .undefined
  name : JSValue := .undefined
  email : JSValue := .undefined
  role : JSValue := .undefined
  created_at : JSValue := .undefined
  status : JSValue := .undefined
  displayStatus : JSString := []
  isVerified : Bool := false
  department : JSValue := .undefined
  deriving DecidableEq, Repr

/-- State of the `ViewUsers` component. -/
structure ViewUsersState where
  searchTerm : JSString := []
  filterRole : JSString := js "all"
  filterStatus : JSString := js "all"
  sortBy : JSString := js "name"
  sortOrder : JSString := js "asc"
  users : List UserRow := []
  loading : Bool := true
  error : JSValue := .null
  actionInProgress : Bool := false
  deriving DecidableEq, Repr

/-- The callback of `response.data.users.map` in `fetchUsers`: `none` when
`status.charAt` raises a `TypeError` (a truthy status that is not a string). -/
def transformUser (B : Builtins) (user : BackendUser) : Option UserRow :=
  let status := user.status.or (.str (js "unknown"))
  match status.asString with
  | none => none
  | some s =>
      some
        { id := user.user_id
          name := user.username.or (.str (js "Unknown"))
          email := user.email
          role := user.role.or (.str (js "user"))
          created_at := user.created_at
          status := status
          displayStatus := B.toUpperCase (s.take 1) ++ s.drop 1
          isVerified :=
            decide (user.isverified = .str (js "true")) || decide (user.isverified = .bool true) ||
              false }

/-- The `catch` block of `fetchUsers`; `data` is `err.response?.data`. -/
def fetchCatch (data : Option ResponseData) : JSValue :=
  let message := match data with
    | some d => d.message
    | none => .undefined
  message.or (.str (js "Failed to fetch users"))

/-- The function `fetchUsers`; `api` is `API_GET_USER`. -/
def fetchUsers (B : Builtins) (api : JSString) (env : Env) (st : ViewUsersState) :
    ViewUsersState × List Effect :=
  let st := { st with loading := true }
  if tokenMissing env.userToken then
    ({ st with error := .str (js "Authentication token is missing. Please log in again."),
               loading := false }, [])
  else
    let req : HttpRequest :=
      { method := .get, url := api, body := .absent, bearer := tokenString env.userToken }
    match env.http req with
    | .resolved (some data) =>
        if data.success.truthy then
          match data.users with
          | none =>
              -- TypeError on `response.data.users.map`
              ({ st with error := fetchCatch none, loading := false }, [.request req])
          | some records =>
              match mapThrowing (transformUser B) records with
              | none => ({ st with error := fetchCatch none, loading := false }, [.request req])
              | some transformedUsers =>
                  ({ st with users := transformedUsers, error := .null, loading := false },
                    [.request req])
        else
          ({ st with
              error := .str (js "Failed to fetch users: " ++
                (data.message.or (.str (js "Unknown error"))).toJSString),
              loading := false }, [.request req])
    | .resolved none =>
        -- TypeError on `response.data.success`
        ({ st with error := fetchCatch none, loading := false }, [.request req])
    | .rejected data =>
        ({ st with error := fetchCatch data, loading := false }, [.request req])

/-- The `matchesSearch` expression of the filter callback. -/
def matchesSearch (B : Builtins) (searchTerm : JSString) (user : UserRow) : Option Bool :=
  match user.name.asString with
  | none => none
  | some name =>
      if includes (B.toLowerCase name) (B.toLowerCase searchTerm) then some true
      else
        match user.email.asString with
        | none => none
        | some email =>
            if includes (B.toLowerCase email) (B.toLowerCase searchTerm) then some true
            else if !user.department.truthy then some false
            else
              match user.department.asString with
              | none => none
              | some department =>
                  some (includes (B.toLowerCase department) (B.toLowerCase searchTerm))

/-- The `matchesRole` expression of the filter callback. -/
def matchesRole (filterRole : JSString) (user : UserRow) : Bool :=
  decide (filterRole = js "all") || user.role.strictEqStr filterRole

/-- The `matchesStatus` expression of the filter callback. -/
def matchesStatus (filterStatus : JSString) (user : UserRow) : Bool :=
  decide (filterStatus = js "all") ||
    (decide (filterStatus = js "Active") && user.status.strictEqStr (js "active")) ||
    (decide (filterStatus = js "Restricted") && user.status.strictEqStr (js "restricted"))

/-- The callback passed to `users.filter`. -/
def filterCallback (B : Builtins) (searchTerm filterRole filterStatus : JSString)
    (user : UserRow) : Option Bool :=
  match matchesSearch B searchTerm user with
  | none => none
  | some found => some (found && matchesRole filterRole user && matchesStatus filterStatus user)

/-- The constant `filteredUsers` of the component. -/
def filteredUsers (B : Builtins) (users : List UserRow)
    (searchTerm filterRole filterStatus : JSString) : Option (List UserRow) :=
  filterThrowing (filterCallback B searchTerm filterRole filterStatus) users

/-- The comparator passed to `sort`. -/
def compareUsers (B : Builtins) (sortBy sortOrder : JSString) (a b : UserRow) :
    Option JSNum :=
  let finish (comparison : JSNum) : JSNum :=
    if sortOrder = js "asc" then comparison else comparison.neg
  if sortBy = js "name" then
    match a.name.asString with
    | none => none
    | some s => some (finish (.int (B.localeCompare s b.name.toJSString)))
  else if sortBy = js "email" then
    match a.email.asString with
    | none => none
    | some s => some (finish (.int (B.localeCompare s b.email.toJSString)))
  else if sortBy = js "department" then
    match (a.department.or (.str [])).asString with
    | none => none
    | some s => some (finish (.int (B.localeCompare s (b.department.or (.str [])).toJSString)))
  else if sortBy = js "created_at" then
    match B.dateValue a.created_at, B.dateValue b.created_at with
    | some x, some y => some (finish (.int (x - y)))
    | _, _ => some (finish .nan)
  else if sortBy = js "status" then
    match a.status.asString with
    | none => none
    | some s => some (finish (.int (B.localeCompare s b.status.toJSString)))
  else if sortBy = js "isVerified" then
    some
      (if sortOrder = js "asc" then
        (if a.isVerified = b.isVerified then .int 0 else if a.isVerified then .int (-1) else .int 1)
      else
        (if a.isVerified = b.isVerified then .int 0 else if a.isVerified then .int 1 else .int (-1)))
  else some (finish (.int 0))

/-- The constant `sortedUsers` of the component, as a function of
`filteredUsers`: the list every engine returns when the comparator is
consistent on the rows (see `arraySort`). -/
def sortedUsers (B : Builtins) (sortBy sortOrder : JSString) (filtered : List UserRow) :
    Option (List UserRow) :=
  arraySort (compareUsers B sortBy sortOrder) filtered

/-- The constant `sortedUsers` of the component as V8 computes it, for fewer
than 64 rows, whether the comparator is consistent or not. -/
def sortedUsersV8 (B : Builtins) (sortBy sortOrder : JSString) (filtered : List UserRow) :
    Option (List UserRow) :=
  arrayTimSort (compareUsers B sortBy sortOrder) filtered

/-- The body shared by `handleRestrictUser` and `handleUnrestrictUser`, which
differ in the endpoint and in the texts. -/
def restrictionAction (B : Builtins) (apiGet apiAction : JSString)
    (doneText failedPrefix failedText : JSString)
    (env : Env) (userId : JSValue) (st : ViewUsersState) : ViewUsersState × List Effect :=
  if env.confirm then
    let st := { st with actionInProgress := true }
    if tokenMissing env.userToken then
      ({ st with actionInProgress := false },
        [.alert (.str (js "Authentication token is missing. Please log in again."))])
    else
      let req : HttpRequest :=
        { method := .post, url := apiAction, pathId := some userId, body := .emptyObject,
          bearer := tokenString env.userToken }
      match env.http req with
      | .resolved (some data) =>
          if data.success.truthy then
            let (st, effects) := fetchUsers B apiGet env st
            ({ st with actionInProgress := false },
              [.request req] ++ effects ++ [.alert (.str doneText)])
          else
            ({ st with actionInProgress := false },
              [.request req,
               .alert (.str (failedPrefix ++
                 (data.message.or (.str (js "Unknown error"))).toJSString))])
      | .resolved none =>
          ({ st with actionInProgress := false }, [.request req, .alert (.str failedText)])
      | .rejected data =>
          let message := match data with
            | some d => d.message
            | none => .undefined
          ({ st with actionInProgress := false },
            [.request req, .alert (message.or (.str failedText))])
  else
    (st, [])

/-- The handler `handleRestrictUser`. -/
def handleRestrictUser (B : Builtins) (apiGet apiRestrict : JSString)
    (env : Env) (userId : JSValue) (st : ViewUsersState) : ViewUsersState × List Effect :=
  restrictionAction B apiGet apiRestrict (js "User has been restricted successfully.")
    (js "Failed to restrict user: ") (js "Failed to restrict user") env userId st

/-- The handler `handleUnrestrictUser`. -/
def handleUnrestrictUser (B : Builtins) (apiGet apiUnrestrict : JSString)
    (env : Env) (userId : JSValue) (st : ViewUsersState) : ViewUsersState × List Effect :=
  restrictionAction B apiGet apiUnrestrict (js "User has been unrestricted successfully.")
    (js "Failed to unrestrict user: ") (js "Failed to unrestrict user") env userId st

/-- The handler `handleSort` of `ViewUsers`. -/
def handleSort (column : JSString) (st : ViewUsersState) : ViewUsersState :=
  if st.sortBy = column then
    { st with sortOrder := if st.sortOrder = js "asc" then js "desc" else js "asc" }
  else
    { st with sortBy := column, sortOrder := js "asc" }

/-- The buttons of the actions cell of a table row; each carries the id its
click handler passes to `handleRestrictUser` or `handleUnrestrictUser`. -/
inductive ActionButton where
  | restrict (userId : JSValue)
  | unrestrict (userId : JSValue)
  deriving DecidableEq, Repr

/-- The actions cell rendered for a row of `sortedUsers`:
`user.status === "active" && <Restrict>` followed by
`user.status === "restricted" && <Unrestrict>`. -/
def actionButtons (user : UserRow) : List ActionButton :=
  (if user.status.strictEqStr (js "active") then [.restrict user.id] else []) ++
    (if user.status.strictEqStr (js "restricted") then [.unrestrict user.id] else [])

/-! ## Header.jsx -/

/-- State of the `Header` component. -/
structure HeaderState where
  mobileMenuOpen : Bool := false
  isLoggedIn : Bool := false
  deriving DecidableEq, Repr

/-- The function `checkAuthStatus` of `Header`; `userToken` is the value of
`localStorage.getItem('userToken')` (`none` is `null`, no entry for the key),
and `setIsLoggedIn(!!token)` stores its truthiness. -/
def checkAuthStatus (userToken : Option JSString) (st : HeaderState) : HeaderState :=
  let token := userToken
  { st with isLoggedIn := !(!(match token with
      | none => false
      | some t => !t.isEmpty)) }

/-! ## A small instance of the built-ins -/

/-- ASCII lower-casing of one code unit. -/
def asciiLower (c : Nat) : Nat := if 0x41 ≤ c ∧ c ≤ 0x5A then c + 0x20 else c

/-- ASCII upper-casing of one code unit. -/
def asciiUpper (c : Nat) : Nat := if 0x61 ≤ c ∧ c ≤ 0x7A then c - 0x20 else c

/-- Comparison of strings by code units. -/
def compareUnits : JSString → JSString → Int
  | [], [] => 0
  | [], _ :: _ => -1
  | _ :: _, [] => 1
  | x :: xs, y :: ys => if x < y then -1 else if y < x then 1 else compareUnits xs ys

/-- An instance of the built-ins for ASCII text: ASCII case mapping,
comparison by code units, and dates given as numeric time values. -/
def asciiBuiltins : Builtins where
  toLowerCase := List.map asciiLower
  toUpperCase := List.map asciiUpper
  localeCompare := compareUnits
  dateValue v :=
    match v with
    | .num n => some n
    | _ => none

/-! ## A sample of the Unicode behaviour of the built-ins -/

/-- Cased letters of the sample alphabet: the ASCII letters and the Greek
letters Α, α, Σ, σ, ς. -/
def isCasedSample (c : Nat) : Bool :=
  (0x41 ≤ c && c ≤ 0x5A) || (0x61 ≤ c && c ≤ 0x7A) || c == 0x391 || c == 0x3B1 ||
    c == 0x3A3 || c == 0x3C3 || c == 0x3C2

/-- Unicode lower-casing on strings of letters of the sample alphabet.  The
capital sigma follows the Final_Sigma rule of SpecialCasing.txt: preceded by a
cased letter and not followed by one it becomes ς (U+03C2), otherwise σ
(U+03C3).  `afterCased` tells whether the preceding code unit is a cased
letter. -/
def lowerSample (afterCased : Bool) : JSString → JSString
  | [] => []
  | c :: cs =>
      (if c = 0x3A3 then
          (if afterCased &&
              !(match cs with
                | [] => false
                | d :: _ => isCasedSample d) then 0x3C2
            else 0x3C3)
        else if c = 0x391 then 0x3B1
        else asciiLower c) :: lowerSample (isCasedSample c) cs

/-- Unicode upper-casing on the sample alphabet and the sharp s, which
SpecialCasing.txt maps to the two letters SS. -/
def upperSample : JSString → JSString
  | [] => []
  | c :: cs =>
      (if c = 0xDF then [0x53, 0x53]
        else if c = 0x3B1 then [0x391]
        else if c = 0x3C3 ∨ c = 0x3C2 then [0x3A3]
        else [asciiUpper c]) ++ upperSample cs

/-- Canonical decomposition on the sample alphabet and é (U+00E9), which
decomposes into e followed by the combining acute accent (U+0301). -/
def decomposeSample : JSString → JSString
  | [] => []
  | c :: cs => (if c = 0xE9 then [0x65, 0x301] else [c]) ++ decomposeSample cs

/-- An instance of the built-ins that follows Unicode on the sample alphabet:
full case mapping, and a `localeCompare` that honours canonical equivalence
(as ECMAScript requires) by comparing decomposed strings. -/
def unicodeSampleBuiltins : Builtins where
  toLowerCase := lowerSample false
  toUpperCase := upperSample
  localeCompare a b := compareUnits (decomposeSample a) (decomposeSample b)
  dateValue v :=
    match v with
    | .num n => some n
    | _ => none

/-! ## Sample inputs -/

/-- A draft that passes `validateForm`, with role and department chosen. -/
def validDraft : FormData :=
  { username := js "bob", email := js "bob@x.co", password := js "12345678",
    confirmPassword := js "12345678", role := js "agent", department := js "IT" }

/-- A draft whose e-mail contains a space before a well-shaped tail. -/
def spacedEmailDraft : FormData := { validDraft with email := js "a b@c.d" }

/-- A draft with a department and no role selected. -/
def noRoleDraft : FormData := { validDraft with role := [] }

/-- An environment without a stored token. -/
def noTokenEnv : Env := { userToken := none, http := fun _ => .rejected none }

/-- An environment whose stored token is the empty string. -/
def emptyTokenEnv : Env := { userToken := some [], http := fun _ => .rejected none }

/-- An environment with a token in which every request succeeds with
`{ success: true }`. -/
def successEnv : Env :=
  { userToken := some (js "t0k3n"), http := fun _ => .resolved (some { success := .bool true }) }

/-- A ticket draft with all four fields filled in. -/
def filledTicket : TicketState :=
  { subject := js "Printer", issue := js "Paper jam", category := js "hardware",
    priority := js "low" }

/-- An environment with a token in which every request resolves with
`{ success: false, message: "Email already exists" }`. -/
def refusalEnv : Env :=
  { userToken := some (js "t0k3n"),
    http := fun _ =>
      .resolved (some { success := .bool false, message := .str (js "Email already exists") }) }

/-- An environment with a token in which every request is rejected with an
error response whose body is `{ message: "Quota exceeded" }`. -/
def rejectionEnv : Env :=
  { userToken := some (js "t0k3n"),
    http := fun _ => .rejected (some { message := .str (js "Quota exceeded") }) }

/-- An environment with a token in which every request fails without a
response (a network error). -/
def networkErrorEnv : Env := { userToken := some (js "t0k3n"), http := fun _ => .rejected none }

/-- A backend record whose e-mail is null. -/
def nullEmailRecord : BackendUser :=
  { user_id := .num 8, username := .str (js "erin"), email := .null,
    role := .str (js "user"), created_at := .num 80, status := .str (js "active"),
    isverified := .bool false }

/-- An environment with a token whose list endpoint returns `nullEmailRecord`
twice. -/
def nullEmailEnv : Env :=
  { userToken := some (js "t0k3n"),
    http := fun _ =>
      .resolved (some { success := .bool true, users := some [nullEmailRecord, nullEmailRecord] }) }

/-- A record whose status starts with a sharp s. -/
def sharpStatusRecord : BackendUser :=
  { user_id := .num 9, username := .str (js "fritz"), email := .str (js "fritz@x.co"),
    status := .str [0xDF, 0x65, 0x74, 0x61] }

/-- Two rows whose names are the two canonically equivalent spellings of é:
the single code unit U+00E9, and e followed by U+0301. -/
def accentRows : List UserRow :=
  [ { id := .num 1, name := .str [0xE9], email := .str (js "a@x.co"),
      status := .str (js "active") },
    { id := .num 2, name := .str [0x65, 0x301], email := .str (js "b@x.co"),
      status := .str (js "active") } ]

/-- A row whose name is the Greek word ΑΣ. -/
def sigmaRows : List UserRow :=
  [ { id := .num 1, name := .str [0x391, 0x3A3], email := .str (js "a@x.co"),
      status := .str (js "active") } ]

/-- A backend record whose status is the number 1. -/
def numericStatusRecord : BackendUser :=
  { user_id := .num 1, username := .str (js "a"), email := .str (js "a@x.co"),
    status := .num 1 }

/-- An environment with a token whose list endpoint returns
`numericStatusRecord` with `success: true`. -/
def numericStatusEnv : Env :=
  { userToken := some (js "t0k3n"),
    http := fun _ =>
      .resolved (some { success := .bool true, users := some [numericStatusRecord] }) }

/-- A row with the given id and `created_at`. -/
def datedRow (id : Int) (created_at : JSValue) : UserRow :=
  { id := .num id, name := .str (js "erin"), email := .str (js "erin@x.co"),
    role := .str (js "user"), created_at := created_at, status := .str (js "active"),
    displayStatus := js "Active" }

/-- Seven rows of which three have no `created_at`; the last two have the
same instant. -/
def undatedRows : List UserRow :=
  [datedRow 0 .undefined, datedRow 1 .undefined, datedRow 2 (.num 2), datedRow 3 (.num 1),
    datedRow 4 .undefined, datedRow 5 (.num 1), datedRow 6 (.num 1)]

/-! ## Specification-side predicates -/

/-- A string of the shape `<one or more non-whitespace> @ <one or more
non-whitespace> . <one or more non-whitespace>`. -/
def IsEmailShape (s : JSString) : Prop :=
  ∃ a b c : JSString, a ≠ [] ∧ b ≠ [] ∧ c ≠ [] ∧
    (∀ x ∈ a, isNonSpace x = true) ∧ (∀ x ∈ b, isNonSpace x = true) ∧
    (∀ x ∈ c, isNonSpace x = true) ∧
    s = a ++ 0x40 :: b ++ 0x2E :: c

/-- The string contains a substring of the e-mail shape. -/
def ContainsEmailShape (s : JSString) : Prop :=
  ∃ pre mid post : JSString, s = pre ++ mid ++ post ∧ IsEmailShape mid

/-- Whether a value is a string. -/
def JSValue.isStr : JSValue → Bool
  | .str _ => true
  | _ => false

/-- The field is a string whose lower-cased form contains the lower-cased
search term. -/
def ContainsTerm (B : Builtins) (searchTerm : JSString) (field : JSValue) : Prop :=
  ∃ s, field = .str s ∧ B.toLowerCase searchTerm <:+: B.toLowerCase s

/-- Search condition: the lower-cased name, the lower-cased e-mail, or the
lower-cased department when present contains the lower-cased search term. -/
def SearchCondition (B : Builtins) (searchTerm : JSString) (user : UserRow) : Prop :=
  ContainsTerm B searchTerm user.name ∨ ContainsTerm B searchTerm user.email ∨
    ContainsTerm B searchTerm user.department

/-- Role condition: the filter is "all" or the row's role equals it. -/
def RoleCondition (filterRole : JSString) (user : UserRow) : Prop :=
  filterRole = js "all" ∨ user.role = .str filterRole

/-- Status condition: the filter is "all", or it is "Active" and the status
is "active", or it is "Restricted" and the status is "restricted". -/
def StatusCondition (filterStatus : JSString) (user : UserRow) : Prop :=
  filterStatus = js "all" ∨
    (filterStatus = js "Active" ∧ user.status = .str (js "active")) ∨
    (filterStatus = js "Restricted" ∧ user.status = .str (js "restricted"))

instance (B : Builtins) (searchTerm : JSString) (field : JSValue) :
    Decidable (ContainsTerm B searchTerm field) :=
  match field with
  | .str s =>
      decidable_of_iff (B.toLowerCase searchTerm <:+: B.toLowerCase s)
        ⟨fun h => ⟨s, rfl, h⟩, fun ⟨_, hs, h⟩ => by cases hs; exact h⟩
  | .undefined => isFalse (fun ⟨_, hs, _⟩ => by cases hs)
  | .null => isFalse (fun ⟨_, hs, _⟩ => by cases hs)
  | .bool _ => isFalse (fun ⟨_, hs, _⟩ => by cases hs)
  | .num _ => isFalse (fun ⟨_, hs, _⟩ => by cases hs)

instance (B : Builtins) (searchTerm : JSString) (user : UserRow) :
    Decidable (SearchCondition B searchTerm user) := by
  unfold SearchCondition
  infer_instance

instance (filterRole : JSString) (user : UserRow) : Decidable (RoleCondition filterRole user) := by
  unfold RoleCondition
  infer_instance

instance (filterStatus : JSString) (user : UserRow) :
    Decidable (StatusCondition filterStatus user) := by
  unfold StatusCondition
  infer_instance

/-- A row whose name and e-mail are strings and whose department is absent
(any falsy value) or a string. -/
def UserRow.TextFields (user : UserRow) : Prop :=
  user.name.isStr = true ∧ user.email.isStr = true ∧
    (user.department.truthy = false ∨ user.department.isStr = true)

/-- Three sample rows; the second carries a department. -/
def sampleRows : List UserRow :=
  [ { id := .num 1, name := .str (js "Alice"), email := .str (js "alice@x.co"),
      role := .str (js "admin"), created_at := .num 300, status := .str (js "active"),
      displayStatus := js "Active", isVerified := true },
    { id := .num 2, name := .str (js "bob"), email := .str (js "bob@x.co"),
      role := .str (js "user"), created_at := .num 100, status := .str (js "restricted"),
      displayStatus := js "Restricted", isVerified := false,
      department := .str (js "Sales") },
    { id := .num 3, name := .str (js "carol"), email := .str (js "carol@y.org"),
      role := .str (js "user"), created_at := .num 200, status := .str (js "active"),
      displayStatus := js "Active", isVerified := true } ]

instance (user : UserRow) : Decidable user.TextFields := by
  unfold UserRow.TextFields
  infer_instance

/-- A backend record that carries a department. -/
def departmentRecord : BackendUser :=
  { user_id := .num 5, username := .str (js "dana"), email := .str (js "dana@x.co"),
    role := .str (js "agent"), created_at := .num 50, status := .str (js "active"),
    isverified := .bool true, department := .str (js "Finance") }

/-- An environment with a token whose list endpoint returns `departmentRecord`. -/
def listEnv : Env :=
  { userToken := some (js "t0k3n"),
    http := fun _ => .resolved (some { success := .bool true, users := some [departmentRecord] }) }

/-- A comparator consistent in the sense of ECMAScript: the signs of
`c a b` and `c b a` are opposite, and `c a b ≤ 0` is transitive. -/
structure ConsistentComparator {α : Type} (c : α → α → Int) : Prop where
  antisymm : ∀ a b, 0 < c a b ↔ c b a < 0
  trans : ∀ a b d, c a b ≤ 0 → c b d ≤ 0 → c a d ≤ 0

/-- The value of a row in a text column. -/
def columnText (sortBy : JSString) (user : UserRow) : JSValue :=
  if sortBy = js "name" then user.name
  else if sortBy = js "email" then user.email
  else user.status

/-- The row has a key in the column: a valid instant for `created_at`, a
string for a text column. -/
def ColumnDefined (B : Builtins) (sortBy : JSString) (user : UserRow) : Prop :=
  if sortBy = js "created_at" then (B.dateValue user.created_at).isSome = true
  else (columnText sortBy user).isStr = true

/-- The key of `a` is at most the key of `b` in the column: instants are
compared as points in time, texts as strings (by `localeCompare`). -/
def ColumnLE (B : Builtins) (sortBy : JSString) (a b : UserRow) : Prop :=
  if sortBy = js "created_at" then
    ∃ x y, B.dateValue a.created_at = some x ∧ B.dateValue b.created_at = some y ∧ x ≤ y
  else
    ∃ s t, columnText sortBy a = .str s ∧ columnText sortBy b = .str t ∧
      B.localeCompare s t ≤ 0

/-- No unverified row `a` stands before a verified row `b`. -/
def VerifiedFirst (a b : UserRow) : Prop := b.isVerified = true → a.isVerified = true

/-- The comparison of two rows in a text column, as an integer. -/
def textCompare (B : Builtins) (sortBy : JSString) (a b : UserRow) : Int :=
  B.localeCompare (columnText sortBy a).toJSString (columnText sortBy b).toJSString

/-- The difference of the instants of two rows (0 standing for an invalid date). -/
def dateCompare (B : Builtins) (a b : UserRow) : Int :=
  (B.dateValue a.created_at).getD 0 - (B.dateValue b.created_at).getD 0

/-- The result of the `isVerified` branch of the comparator for "asc". -/
def verifiedCompare (a b : UserRow) : Int :=
  if a.isVerified = b.isVerified then 0 else if a.isVerified then -1 else 1

instance (B : Builtins) (sortBy : JSString) (user : UserRow) :
    Decidable (ColumnDefined B sortBy user) := by
  unfold ColumnDefined
  infer_instance

/-- The POST issued by `handleCreateTicket` for a draft. -/
def ticketRequest (api : JSString) (env : Env) (st : TicketState) : HttpRequest :=
  { method := .post, url := api,
    body := .ticket st.subject st.issue st.category st.priority,
    bearer := tokenString env.userToken }

/-- The POST issued by `handleSubmit` for a draft. -/
def userRequest (api : JSString) (env : Env) (st : CreateUserState) : HttpRequest :=
  { method := .post, url := api,
    body := .user st.formData.username st.formData.email st.formData.password
      st.formData.department st.formData.role,
    bearer := tokenString env.userToken }

/-- The GET issued by `fetchUsers`. -/
def listRequest (api : JSString) (env : Env) : HttpRequest :=
  { method := .get, url := api, body := .absent, bearer := tokenString env.userToken }

/-- The POST issued by `handleRestrictUser` and `handleUnrestrictUser`. -/
def actionRequest (api : JSString) (env : Env) (userId : JSValue) : HttpRequest :=
  { method := .post, url := api, pathId := some userId, body := .emptyObject,
    bearer := tokenString env.userToken }

/-- The request resolved with a body whose `success` is truthy. -/
def HttpOutcome.succeeded : HttpOutcome → Bool
  | .resolved (some data) => data.success.truthy
  | _ => false

/-- The `message` of the body of an error response (`undefined` when there
is no response or no body). -/
def rejectionMessage (data : Option ResponseData) : JSValue :=
  match data with
  | some d => d.message
  | none => .undefined

/-- A restrict or unrestrict action is carried out: the confirmation is
accepted, a token is stored and the POST succeeds. -/
def ActionSucceeds (apiAction : JSString) (env : Env) (userId : JSValue) : Prop :=
  env.confirm = true ∧ tokenMissing env.userToken = false ∧
    (env.http (actionRequest apiAction env userId)).succeeded = true

/-- The requests of a confirmed action with a stored token: the POST,
followed by the list GET exactly when the POST succeeds. -/
def RefetchOnSuccess (apiGet apiAction : JSString) (env : Env) (userId : JSValue)
    (result : ViewUsersState × List Effect) : Prop :=
  requestsOf result.2 =
    if (env.http (actionRequest apiAction env userId)).succeeded then
      [actionRequest apiAction env userId, listRequest apiGet env]
    else [actionRequest apiAction env userId]

/-- No optimistic update by an action with the given result: a declined
confirmation leaves the whole state unchanged and issues nothing; unless the
action is carried out the users list is unchanged; and a users list that
differs from the old one is the transformed list of records of a successful
list response. -/
def NoOptimisticUpdate (B : Builtins) (apiGet apiAction : JSString) (env : Env)
    (userId : JSValue) (st : ViewUsersState) (result : ViewUsersState × List Effect) : Prop :=
  (env.confirm = false → result = (st, [])) ∧
    (¬ ActionSucceeds apiAction env userId → result.1.users = st.users) ∧
    (result.1.users ≠ st.users →
      ActionSucceeds apiAction env userId ∧
        listRequest apiGet env ∈ requestsOf result.2 ∧
        ∃ data records, env.http (listRequest apiGet env) = .resolved (some data) ∧
          data.success.truthy = true ∧ data.users = some records ∧
          mapThrowing (transformUser B) records = some result.1.users)

instance (apiAction : JSString) (env : Env) (userId : JSValue) :
    Decidable (ActionSucceeds apiAction env userId) := by
  unfold ActionSucceeds
  infer_instance

/-- The first and the third sample row (both verified). -/
def verifiedPair : List UserRow := sampleRows.take 1 ++ sampleRows.drop 2

/-- The rows `fetchUsers` stores from the response of `nullEmailEnv`. -/
def nullEmailRows : List UserRow :=
  (fetchUsers asciiBuiltins (js "/api/users") nullEmailEnv {}).1.users

/-- A backend record with all text fields present. -/
def zedRecord : BackendUser :=
  { user_id := .num 7, username := .str (js "zed"), email := .str (js "zed@x.co"),
    role := .str (js "user"), created_at := .num 70, status := .str (js "active"),
    isverified := .bool true }

/-- An environment with a token whose list endpoint returns `zedRecord`
followed by `nullEmailRecord`. -/
def mixedEmailEnv : Env :=
  { userToken := some (js "t0k3n"),
    http := fun _ =>
      .resolved (some { success := .bool true, users := some [zedRecord, nullEmailRecord] }) }

/-- The rows `fetchUsers` stores from the response of `mixedEmailEnv`. -/
def mixedEmailRows : List UserRow :=
  (fetchUsers asciiBuiltins (js "/api/users") mixedEmailEnv {}).1.users

/-- The rows of `undatedRows` that have a `created_at`. -/
def datedRows : List UserRow :=
  [datedRow 2 (.num 2), datedRow 3 (.num 1), datedRow 5 (.num 1), datedRow 6 (.num 1)]

/-! ## Lemmas on the regular-expression matcher -/

theorem matchPlus_iff (a : RegexAtom) (k : JSString → Bool) (s : JSString) :
    matchPlus a k s = true ↔
      ∃ p rest : JSString, p ≠ [] ∧ (∀ x ∈ p, a.accepts x = true) ∧ s = p ++ rest ∧
        k rest = true := by
  induction s with
  | nil =>
      simp only [matchPlus, Bool.false_eq_true, false_iff]
      rintro ⟨p, rest, hp, -, hs, -⟩
      cases p with
      | nil => exact hp rfl
      | cons x xs => simp at hs
  | cons c cs ih =>
      simp only [matchPlus, Bool.and_eq_true, Bool.or_eq_true]
      constructor
      · rintro ⟨hc, h | h⟩
        · obtain ⟨p, rest, -, hall, hs, hk⟩ := ih.mp h
          refine ⟨c :: p, rest, by simp, ?_, by simp [hs], hk⟩
          intro x hx
          rcases List.mem_cons.mp hx with rfl | hx
          · exact hc
          · exact hall x hx
        · exact ⟨[c], cs, by simp, by simpa using hc, by simp, h⟩
      · rintro ⟨p, rest, hp, hall, hs, hk⟩
        cases p with
        | nil => exact absurd rfl hp
        | cons x xs =>
            simp only [List.cons_append, List.cons.injEq] at hs
            obtain ⟨rfl, rfl⟩ := hs
            refine ⟨hall c (by simp), ?_⟩
            cases xs with
            | nil => right; simpa using hk
            | cons y ys =>
                left
                exact ih.mpr ⟨y :: ys, rest, by simp, fun x hx => hall x (by simp [hx]), rfl, hk⟩

theorem matchHere_one_iff (a : RegexAtom) (rest : Regex) (s : JSString) :
    matchHere (.one a :: rest) s = true ↔
      ∃ c cs, s = c :: cs ∧ a.accepts c = true ∧ matchHere rest cs = true := by
  cases s with
  | nil => simp [matchHere]
  | cons c cs =>
      simp only [matchHere, Bool.and_eq_true]
      constructor
      · rintro ⟨h1, h2⟩
        exact ⟨c, cs, rfl, h1, h2⟩
      · rintro ⟨c', cs', h, h1, h2⟩
        cases h
        exact ⟨h1, h2⟩

theorem regex_test_iff (re : Regex) (s : JSString) :
    re.test s = true ↔ ∃ pre post : JSString, s = pre ++ post ∧ matchHere re post = true := by
  induction s with
  | nil =>
      simp only [Regex.test]
      constructor
      · intro h
        exact ⟨[], [], rfl, h⟩
      · rintro ⟨pre, post, hs, h⟩
        have hpost : post = [] := (List.append_eq_nil.mp hs.symm).2
        simpa [hpost] using h
  | cons c cs ih =>
      simp only [Regex.test, Bool.or_eq_true]
      constructor
      · rintro (h | h)
        · exact ⟨[], c :: cs, rfl, h⟩
        · obtain ⟨pre, post, hs, hm⟩ := ih.mp h
          exact ⟨c :: pre, post, by simp [hs], hm⟩
      · rintro ⟨pre, post, hs, hm⟩
        cases pre with
        | nil =>
            left
            simp only [List.nil_append] at hs
            rw [hs]
            exact hm
        | cons x xs =>
            right
            simp only [List.cons_append, List.cons.injEq] at hs
            exact ih.mpr ⟨xs, post, hs.2, hm⟩

theorem matchHere_emailRegex_iff (s : JSString) :
    matchHere emailRegex s = true ↔ ∃ mid post : JSString, s = mid ++ post ∧ IsEmailShape mid := by
  unfold emailRegex
  constructor
  · intro h
    obtain ⟨a, r1, ha, hall_a, hs, h1⟩ := (matchPlus_iff _ _ _).mp h
    obtain ⟨c1, r2, hr1, hc1, h2⟩ := (matchHere_one_iff _ _ _).mp h1
    obtain ⟨b, r3, hb, hall_b, hr2, h3⟩ := (matchPlus_iff _ _ _).mp h2
    obtain ⟨c2, r4, hr3, hc2, h4⟩ := (matchHere_one_iff _ _ _).mp h3
    obtain ⟨c, post, hc, hall_c, hr4, -⟩ := (matchPlus_iff _ _ _).mp h4
    have e1 : c1 = 0x40 := by simpa [RegexAtom.accepts] using hc1
    have e2 : c2 = 0x2E := by simpa [RegexAtom.accepts] using hc2
    refine ⟨a ++ 0x40 :: b ++ 0x2E :: c, post, ?_, a, b, c, ha, hb, hc, ?_, ?_, ?_, rfl⟩
    · subst e1 e2
      simp [hs, hr1, hr2, hr3, hr4]
    · simpa [RegexAtom.accepts] using hall_a
    · simpa [RegexAtom.accepts] using hall_b
    · simpa [RegexAtom.accepts] using hall_c
  · rintro ⟨mid, post, hs, a, b, c, ha, hb, hc, hall_a, hall_b, hall_c, hmid⟩
    refine (matchPlus_iff _ _ _).mpr
      ⟨a, 0x40 :: (b ++ 0x2E :: (c ++ post)), ha, by simpa [RegexAtom.accepts] using hall_a, ?_, ?_⟩
    · simp [hs, hmid]
    · refine (matchHere_one_iff _ _ _).mpr ⟨0x40, b ++ 0x2E :: (c ++ post), rfl, by simp [RegexAtom.accepts], ?_⟩
      refine (matchPlus_iff _ _ _).mpr
        ⟨b, 0x2E :: (c ++ post), hb, by simpa [RegexAtom.accepts] using hall_b, rfl, ?_⟩
      refine (matchHere_one_iff _ _ _).mpr ⟨0x2E, c ++ post, rfl, by simp [RegexAtom.accepts], ?_⟩
      exact (matchPlus_iff _ _ _).mpr
        ⟨c, post, hc, by simpa [RegexAtom.accepts] using hall_c, rfl, rfl⟩

/-- The test of the e-mail pattern succeeds exactly on the strings that
contain a substring of the e-mail shape. -/
theorem emailRegex_test_iff (s : JSString) :
    emailRegex.test s = true ↔ ContainsEmailShape s := by
  rw [regex_test_iff]
  constructor
  · rintro ⟨pre, rest, hs, h⟩
    obtain ⟨mid, post, hrest, hmid⟩ := (matchHere_emailRegex_iff rest).mp h
    exact ⟨pre, mid, post, by simp [hs, hrest], hmid⟩
  · rintro ⟨pre, mid, post, hs, hmid⟩
    exact ⟨pre, mid ++ post, by simp [hs], (matchHere_emailRegex_iff _).mpr ⟨mid, post, rfl, hmid⟩⟩

theorem isNonSpace_of_isEmailShape {s : JSString} (h : IsEmailShape s) :
    ∀ x ∈ s, isNonSpace x = true := by
  obtain ⟨a, b, c, -, -, -, ha, hb, hc, rfl⟩ := h
  intro x hx
  simp only [List.mem_append, List.mem_cons] at hx
  rcases hx with (hx | rfl | hx) | rfl | hx
  · exact ha x hx
  · decide
  · exact hb x hx
  · decide
  · exact hc x hx

theorem at_mem_of_containsEmailShape {s : JSString} (h : ContainsEmailShape s) : 0x40 ∈ s := by
  obtain ⟨pre, mid, post, rfl, a, b, c, -, -, -, -, -, -, rfl⟩ := h
  simp

/-! ## validateForm -/

theorem validateForm_snd (formData : FormData) :
    (validateForm formData).2 =
      (!(trim formData.username).isEmpty && !(trim formData.email).isEmpty &&
        emailRegex.test formData.email && decide (8 ≤ formData.password.length) &&
        decide (formData.password = formData.confirmPassword)) := by
  obtain ⟨u, e, ph, pw, cpw, r, d⟩ := formData
  have e8 : decide (8 ≤ pw.length) = !decide (pw.length < 8) := by
    by_cases h : pw.length < 8
    · simp [h]
    · simp [h, Nat.le_of_not_lt h]
  have e4 : pw.isEmpty = true → pw.length < 8 := by
    intro h
    rw [List.isEmpty_iff.mp h]
    decide
  simp only [e8]
  unfold validateForm
  rcases eq_or_ne pw cpw with rfl | h6
  · by_cases h4 : pw.isEmpty = true
    · have h5 := e4 h4
      by_cases h1 : (trim u).isEmpty = true <;>
      by_cases h2 : (trim e).isEmpty = true <;>
      by_cases h3 : emailRegex.test e = true <;>
      simp [h1, h2, h3, h4, h5]
    · by_cases h1 : (trim u).isEmpty = true <;>
      by_cases h2 : (trim e).isEmpty = true <;>
      by_cases h3 : emailRegex.test e = true <;>
      by_cases h5 : pw.length < 8 <;>
      simp [h1, h2, h3, h4, h5]
  · by_cases h4 : pw.isEmpty = true
    · have h5 := e4 h4
      by_cases h1 : (trim u).isEmpty = true <;>
      by_cases h2 : (trim e).isEmpty = true <;>
      by_cases h3 : emailRegex.test e = true <;>
      simp [h1, h2, h3, h4, h5, h6]
    · by_cases h1 : (trim u).isEmpty = true <;>
      by_cases h2 : (trim e).isEmpty = true <;>
      by_cases h3 : emailRegex.test e = true <;>
      by_cases h5 : pw.length < 8 <;>
      simp [h1, h2, h3, h4, h5, h6]

theorem validateForm_email_error (formData : FormData) :
    (validateForm formData).1.email =
      if (trim formData.email).isEmpty then .str (js "Email is required")
      else if !emailRegex.test formData.email then .str (js "Email is invalid")
      else .undefined := by
  unfold validateForm
  split_ifs <;> rfl

theorem validateForm_password_error (formData : FormData) :
    (validateForm formData).1.password =
      if formData.password.isEmpty then .str (js "Password is required")
      else if formData.password.length < 8 then
        .str (js "Password must be at least 8 characters")
      else .undefined := by
  unfold validateForm
  split_ifs <;> rfl

theorem validateForm_confirm_error (formData : FormData) :
    (validateForm formData).1.confirmPassword =
      if formData.password ≠ formData.confirmPassword then .str (js "Passwords do not match")
      else .undefined := by
  unfold validateForm
  split_ifs <;> rfl

theorem validateForm_valid_iff (formData : FormData) :
    (validateForm formData).2 = true ↔
      trim formData.username ≠ [] ∧ trim formData.email ≠ [] ∧
        emailRegex.test formData.email = true ∧ 8 ≤ formData.password.length ∧
        formData.password = formData.confirmPassword := by
  rw [validateForm_snd]
  simp [List.isEmpty_iff, and_assoc]

/-- C1: `validateForm` returns true exactly when the trimmed username is
non-empty, the trimmed e-mail is non-empty, the e-mail contains a substring of
the shape non-whitespace+ `@` non-whitespace+ `.` non-whitespace+, the password
has at least 8 code units, and the password equals its confirmation. -/
theorem validateForm_true_iff (formData : FormData) :
    (validateForm formData).2 = true ↔
      trim formData.username ≠ [] ∧ trim formData.email ≠ [] ∧
        ContainsEmailShape formData.email ∧ 8 ≤ formData.password.length ∧
        formData.password = formData.confirmPassword := by
  rw [validateForm_valid_iff, emailRegex_test_iff]

/-- C5 (as stated, refuted): the e-mail `a b@c.d` is not blank, is not as a
whole of the e-mail shape and contains a white-space code unit, yet
`validateForm` returns true and sets no e-mail error. -/
theorem validateForm_accepts_spaced_email :
    trim spacedEmailDraft.email ≠ [] ∧ ¬ IsEmailShape spacedEmailDraft.email ∧
      (∃ x ∈ spacedEmailDraft.email, isWhiteSpace x = true) ∧
      (validateForm spacedEmailDraft).2 = true ∧
      (validateForm spacedEmailDraft).1.email = .undefined := by
  refine ⟨by decide, ?_, ⟨0x20, by decide, by decide⟩, by decide, by decide⟩
  intro h
  exact absurd (isNonSpace_of_isEmailShape h 0x20 (by decide)) (by decide)

/-- C5 (amended): for every draft whose e-mail is not blank and contains no
substring of the e-mail shape, or contains no `@` at all, `validateForm`
returns false and sets `errors.email` to "Email is invalid". -/
theorem validateForm_rejects_shapeless_email (formData : FormData)
    (hblank : trim formData.email ≠ [])
    (hshape : ¬ ContainsEmailShape formData.email ∨ 0x40 ∉ formData.email) :
    (validateForm formData).2 = false ∧
      (validateForm formData).1.email = .str (js "Email is invalid") := by
  have hno : ¬ ContainsEmailShape formData.email := by
    rcases hshape with h | h
    · exact h
    · exact fun hc => h (at_mem_of_containsEmailShape hc)
  have htest : emailRegex.test formData.email = false := by
    rw [← emailRegex_test_iff] at hno
    simpa using hno
  have hb : (trim formData.email).isEmpty = false := by
    simpa [List.isEmpty_iff] using hblank
  constructor
  · rw [validateForm_snd, htest]
    simp
  · rw [validateForm_email_error, hb, htest]
    simp

/-- Witness of C5 (amended) at the e-mail `a@b`, which has an `@` but no
substring of the e-mail shape. -/
theorem validateForm_rejects_shapeless_email_witness :
    trim (js "a@b") ≠ [] ∧ ¬ ContainsEmailShape (js "a@b") ∧
      (validateForm { validDraft with email := js "a@b" }).2 = false ∧
      (validateForm { validDraft with email := js "a@b" }).1.email =
        .str (js "Email is invalid") :=
  have hno : ¬ ContainsEmailShape (js "a@b") := by
    rw [← emailRegex_test_iff]
    decide
  ⟨by decide, hno,
    validateForm_rejects_shapeless_email { validDraft with email := js "a@b" } (by decide)
      (Or.inl hno)⟩

/-- C6: an empty password gives false and "Password is required"; a non-empty
password of fewer than 8 code units gives false and "Password must be at least
8 characters"; a password different from its confirmation gives false and
"Passwords do not match". -/
theorem validateForm_password_rules (formData : FormData) :
    (formData.password = [] →
      (validateForm formData).2 = false ∧
        (validateForm formData).1.password = .str (js "Password is required")) ∧
    (formData.password ≠ [] → formData.password.length < 8 →
      (validateForm formData).2 = false ∧
        (validateForm formData).1.password =
          .str (js "Password must be at least 8 characters")) ∧
    (formData.password ≠ formData.confirmPassword →
      (validateForm formData).2 = false ∧
        (validateForm formData).1.confirmPassword = .str (js "Passwords do not match")) := by
  refine ⟨?_, ?_, ?_⟩
  · intro h
    constructor
    · rw [validateForm_snd, h]
      simp
    · rw [validateForm_password_error, h]
      simp
  · intro hne hlen
    have hlen' : ¬ (8 ≤ formData.password.length) := by omega
    constructor
    · rw [validateForm_snd]
      simp [hlen']
    · rw [validateForm_password_error]
      simp [List.isEmpty_iff, hne, hlen]
  · intro hne
    constructor
    · rw [validateForm_snd]
      simp [hne]
    · rw [validateForm_confirm_error]
      simp [hne]

/-- Witness of C6: the three rules at the passwords "", "1234567" and
"12345678" against the confirmation "12345679". -/
theorem validateForm_password_rules_witness :
    ((validateForm { validDraft with password := [] }).2 = false ∧
      (validateForm { validDraft with password := [] }).1.password =
        .str (js "Password is required")) ∧
    ((validateForm { validDraft with password := js "1234567" }).2 = false ∧
      (validateForm { validDraft with password := js "1234567" }).1.password =
        .str (js "Password must be at least 8 characters")) ∧
    ((validateForm { validDraft with confirmPassword := js "12345679" }).2 = false ∧
      (validateForm { validDraft with confirmPassword := js "12345679" }).1.confirmPassword =
        .str (js "Passwords do not match")) :=
  ⟨(validateForm_password_rules { validDraft with password := [] }).1 rfl,
    (validateForm_password_rules { validDraft with password := js "1234567" }).2.1
      (by decide) (by decide),
    (validateForm_password_rules { validDraft with confirmPassword := js "12345679" }).2.2
      (by decide)⟩

/-! ## Submission handlers -/

theorem trim_nil : trim [] = [] := rfl

theorem ne_nil_of_trim_ne_nil {s : JSString} (h : trim s ≠ []) : s ≠ [] := by
  rintro rfl
  exact h trim_nil

theorem handleSubmit_invalid (api : JSString) (env : Env) (st : CreateUserState)
    (h : (validateForm st.formData).2 = false) :
    handleSubmit api env st = ({ st with errors := (validateForm st.formData).1 }, []) := by
  unfold handleSubmit
  rcases hv : validateForm st.formData with ⟨errs, ok⟩
  rw [hv] at h
  simp only at h
  subst h
  simp

theorem handleSubmit_no_token (api : JSString) (env : Env) (st : CreateUserState)
    (hv : (validateForm st.formData).2 = true) (ht : tokenMissing env.userToken = true) :
    handleSubmit api env st =
      ({ st with errors := submitCatch none, isSubmitting := false },
        [.setIsSubmitting true, .setIsSubmitting false]) := by
  unfold handleSubmit
  rcases hv' : validateForm st.formData with ⟨errs, ok⟩
  rw [hv'] at hv
  simp only at hv
  subst hv
  simp [ht]

theorem handleSubmit_requests (api : JSString) (env : Env) (st : CreateUserState) :
    requestsOf (handleSubmit api env st).2 = [] ∨
      ((validateForm st.formData).2 = true ∧ tokenMissing env.userToken = false ∧
        requestsOf (handleSubmit api env st).2 =
          [{ method := .post, url := api,
             body := .user st.formData.username st.formData.email st.formData.password
               st.formData.department st.formData.role,
             bearer := tokenString env.userToken }]) := by
  cases hv : (validateForm st.formData).2 with
  | false =>
      left
      rw [handleSubmit_invalid api env st hv]
      rfl
  | true =>
      cases ht : tokenMissing env.userToken with
      | true =>
          left
          rw [handleSubmit_no_token api env st hv ht]
          rfl
      | false =>
          right
          refine ⟨rfl, rfl, ?_⟩
          unfold handleSubmit
          rcases hv' : validateForm st.formData with ⟨errs, ok⟩
          rw [hv'] at hv
          simp only at hv
          subst hv
          simp only [ht, if_true, Bool.false_eq_true, if_false]
          split <;> try split
          all_goals simp [requestsOf]

theorem handleCreateTicket_no_token (api : JSString) (env : Env) (st : TicketState)
    (ht : tokenMissing env.userToken = true) :
    handleCreateTicket api env st =
      if st.subject.isEmpty || st.issue.isEmpty || st.category.isEmpty || st.priority.isEmpty then
        ({ st with error := .str (js "All fields are required."), success := [] }, [])
      else ({ st with error := .str (js "Unauthorized! Please log in."), success := [] }, []) := by
  unfold handleCreateTicket
  simp only [ht, if_true]

theorem fetchUsers_no_token (B : Builtins) (api : JSString) (env : Env) (st : ViewUsersState)
    (ht : tokenMissing env.userToken = true) :
    fetchUsers B api env st =
      ({ st with error := .str (js "Authentication token is missing. Please log in again."),
                 loading := false }, []) := by
  unfold fetchUsers
  simp only [ht, if_true]

theorem restrictionAction_no_token (B : Builtins) (apiGet apiAction : JSString)
    (doneText failedPrefix failedText : JSString) (env : Env) (userId : JSValue)
    (st : ViewUsersState) (ht : tokenMissing env.userToken = true) :
    restrictionAction B apiGet apiAction doneText failedPrefix failedText env userId st =
      if env.confirm then
        ({ st with actionInProgress := false },
          [.alert (.str (js "Authentication token is missing. Please log in again."))])
      else (st, []) := by
  unfold restrictionAction
  simp only [ht, if_true]

/-- C2: when one of subject, issue, category, priority is empty,
`handleCreateTicket` sets the error to "All fields are required.", issues no
HTTP request, leaves the success message empty and leaves the four fields
unchanged. -/
theorem handleCreateTicket_empty_field (api : JSString) (env : Env) (st : TicketState)
    (h : st.subject = [] ∨ st.issue = [] ∨ st.category = [] ∨ st.priority = []) :
    (handleCreateTicket api env st).1.error = .str (js "All fields are required.") ∧
      requestsOf (handleCreateTicket api env st).2 = [] ∧
      (handleCreateTicket api env st).1.success = [] ∧
      (handleCreateTicket api env st).1.subject = st.subject ∧
      (handleCreateTicket api env st).1.issue = st.issue ∧
      (handleCreateTicket api env st).1.category = st.category ∧
      (handleCreateTicket api env st).1.priority = st.priority := by
  have hc : (st.subject.isEmpty || st.issue.isEmpty || st.category.isEmpty ||
      st.priority.isEmpty) = true := by
    simp only [Bool.or_eq_true, List.isEmpty_iff]
    tauto
  have hr : handleCreateTicket api env st =
      ({ st with error := .str (js "All fields are required."), success := [] }, []) := by
    unfold handleCreateTicket
    simp only [hc, if_true]
  rw [hr]
  exact ⟨rfl, rfl, rfl, rfl, rfl, rfl, rfl⟩

/-- Witness of C2: a ticket draft with an empty priority, submitted with a
token in an environment where every request would succeed. -/
theorem handleCreateTicket_empty_field_witness :
    ({ filledTicket with priority := [] } : TicketState).priority = [] ∧
      (handleCreateTicket (js "/api/tickets") successEnv { filledTicket with priority := [] }).1
        = { filledTicket with priority := [], error := .str (js "All fields are required.") } ∧
      requestsOf
        (handleCreateTicket (js "/api/tickets") successEnv { filledTicket with priority := [] }).2
        = [] :=
  have h := handleCreateTicket_empty_field (js "/api/tickets") successEnv
    { filledTicket with priority := [] } (Or.inr (Or.inr (Or.inr rfl)))
  ⟨rfl, by decide, h.2.1⟩

/-- C3 (as stated, refuted): without a token, `handleSubmit` on an empty draft
ends with no `errors.submit`, a declined restrict action ends with no alert
and with the state unchanged, and the ticket form with an empty draft shows
"All fields are required." instead of "Unauthorized! Please log in.". -/
theorem missing_token_without_its_message :
    noTokenEnv.userToken = none ∧
      (handleSubmit (js "/api/users") noTokenEnv {}).1.errors.submit = .undefined ∧
      handleRestrictUser asciiBuiltins (js "/api/users") (js "/api/restrict")
        { noTokenEnv with confirm := false } (.num 7) {} = ({}, []) ∧
      (handleCreateTicket (js "/api/tickets") noTokenEnv {}).1.error =
        .str (js "All fields are required.") := by
  refine ⟨rfl, by decide, by decide, by decide⟩

/-- C3 (amended): when `userToken` is absent or empty, none of
`handleCreateTicket`, `handleSubmit`, `fetchUsers`, `handleRestrictUser`,
`handleUnrestrictUser` issues an HTTP request; the ticket form ends with
"Unauthorized! Please log in." when its four fields are non-empty (and with
"All fields are required." otherwise), the user form ends with `errors.submit`
"Failed to create user. Please try again." when the draft passes
`validateForm`, `fetchUsers` ends with the error "Authentication token is
missing. Please log in again.", and a confirmed restrict or unrestrict action
alerts that same text. -/
theorem missing_token_no_request (B : Builtins) (apiTicket apiUser apiGet apiAction : JSString)
    (env : Env) (ticket : TicketState) (user : CreateUserState) (view : ViewUsersState)
    (userId : JSValue) (habsent : env.userToken = none ∨ env.userToken = some []) :
    (requestsOf (handleCreateTicket apiTicket env ticket).2 = [] ∧
      requestsOf (handleSubmit apiUser env user).2 = [] ∧
      requestsOf (fetchUsers B apiGet env view).2 = [] ∧
      requestsOf (handleRestrictUser B apiGet apiAction env userId view).2 = [] ∧
      requestsOf (handleUnrestrictUser B apiGet apiAction env userId view).2 = []) ∧
    ((ticket.subject ≠ [] ∧ ticket.issue ≠ [] ∧ ticket.category ≠ [] ∧ ticket.priority ≠ [] →
        (handleCreateTicket apiTicket env ticket).1.error =
          .str (js "Unauthorized! Please log in.")) ∧
      (¬ (ticket.subject ≠ [] ∧ ticket.issue ≠ [] ∧ ticket.category ≠ [] ∧
            ticket.priority ≠ []) →
        (handleCreateTicket apiTicket env ticket).1.error =
          .str (js "All fields are required."))) ∧
    ((validateForm user.formData).2 = true →
      (handleSubmit apiUser env user).1.errors.submit =
        .str (js "Failed to create user. Please try again.")) ∧
    (fetchUsers B apiGet env view).1.error =
      .str (js "Authentication token is missing. Please log in again.") ∧
    (env.confirm = true →
      alertsOf (handleRestrictUser B apiGet apiAction env userId view).2 =
          [.str (js "Authentication token is missing. Please log in again.")] ∧
        alertsOf (handleUnrestrictUser B apiGet apiAction env userId view).2 =
          [.str (js "Authentication token is missing. Please log in again.")]) := by
  have htoken : tokenMissing env.userToken = true := by
    rcases habsent with h | h <;> rw [h] <;> rfl
  have hfields : (ticket.subject.isEmpty || ticket.issue.isEmpty || ticket.category.isEmpty ||
      ticket.priority.isEmpty) = false ↔
      (ticket.subject ≠ [] ∧ ticket.issue ≠ [] ∧ ticket.category ≠ [] ∧
        ticket.priority ≠ []) := by
    simp [List.isEmpty_iff, and_assoc]
  have hrestrict := restrictionAction_no_token B apiGet apiAction
    (js "User has been restricted successfully.") (js "Failed to restrict user: ")
    (js "Failed to restrict user") env userId view htoken
  have hunrestrict := restrictionAction_no_token B apiGet apiAction
    (js "User has been unrestricted successfully.") (js "Failed to unrestrict user: ")
    (js "Failed to unrestrict user") env userId view htoken
  refine ⟨⟨?_, ?_, ?_, ?_, ?_⟩, ⟨?_, ?_⟩, ?_, ?_, ?_⟩
  · rw [handleCreateTicket_no_token apiTicket env ticket htoken]
    split_ifs <;> rfl
  · rcases handleSubmit_requests apiUser env user with h | ⟨-, h, -⟩
    · exact h
    · rw [htoken] at h
      exact absurd h (by decide)
  · rw [fetchUsers_no_token B apiGet env view htoken]
    rfl
  · unfold handleRestrictUser
    rw [hrestrict]
    split_ifs <;> rfl
  · unfold handleUnrestrictUser
    rw [hunrestrict]
    split_ifs <;> rfl
  · intro h
    rw [handleCreateTicket_no_token apiTicket env ticket htoken, if_neg]
    rw [Bool.not_eq_true]
    exact hfields.mpr h
  · intro h
    rw [handleCreateTicket_no_token apiTicket env ticket htoken, if_pos]
    by_contra hc
    exact h (hfields.mp (by simpa using hc))
  · intro hv
    rw [handleSubmit_no_token apiUser env user hv htoken]
    rfl
  · rw [fetchUsers_no_token B apiGet env view htoken]
  · intro hconfirm
    unfold handleRestrictUser handleUnrestrictUser
    rw [hrestrict, hunrestrict, hconfirm]
    exact ⟨rfl, rfl⟩

/-- Witness of C3 (amended): a filled-in ticket, a valid user draft and a
confirmed action, with an empty token in local storage. -/
theorem missing_token_no_request_witness :
    emptyTokenEnv.userToken = some [] ∧
      (handleCreateTicket (js "/api/tickets") emptyTokenEnv filledTicket).1.error =
        .str (js "Unauthorized! Please log in.") ∧
      (handleSubmit (js "/api/users") emptyTokenEnv { formData := validDraft }).1.errors.submit =
        .str (js "Failed to create user. Please try again.") ∧
      alertsOf (handleRestrictUser asciiBuiltins (js "/api/users") (js "/api/restrict")
          emptyTokenEnv (.num 7) {}).2 =
        [.str (js "Authentication token is missing. Please log in again.")] ∧
      requestsOf (handleSubmit (js "/api/users") emptyTokenEnv { formData := validDraft }).2 = [] :=
  have h := missing_token_no_request asciiBuiltins (js "/api/tickets") (js "/api/users")
    (js "/api/users") (js "/api/restrict") emptyTokenEnv filledTicket { formData := validDraft }
    {} (.num 7) (Or.inr rfl)
  ⟨rfl, h.2.1.1 (by decide), h.2.2.1 (by decide), (h.2.2.2.2 rfl).1, h.1.2.1⟩

/-- C4 (as stated, refuted): a draft with no role selected passes
`validateForm`, and `handleSubmit` posts it with an empty `role`. -/
theorem handleSubmit_posts_empty_role :
    noRoleDraft.role = [] ∧ (validateForm noRoleDraft).2 = true ∧
      requestsOf (handleSubmit (js "/api/users") successEnv { formData := noRoleDraft }).2 =
        [{ method := .post, url := js "/api/users",
           body := .user (js "bob") (js "bob@x.co") (js "12345678") (js "IT") [],
           bearer := js "t0k3n" }] := by
  refine ⟨rfl, by decide, by decide⟩

/-- C4 (amended): on submit the fields username, e-mail and password are
verified non-empty: when the username or the e-mail is blank or the password
is empty, `validateForm` returns false and `handleSubmit` issues no request;
every request `handleSubmit` issues is a POST whose body carries the draft's
fields with non-empty username, e-mail and password. -/
theorem handleSubmit_required_fields (api : JSString) (env : Env) (st : CreateUserState) :
    ((trim st.formData.username = [] ∨ trim st.formData.email = [] ∨
        st.formData.password = []) →
      (validateForm st.formData).2 = false ∧ requestsOf (handleSubmit api env st).2 = []) ∧
    (∀ r ∈ requestsOf (handleSubmit api env st).2,
      r.method = .post ∧
        r.body = .user st.formData.username st.formData.email st.formData.password
          st.formData.department st.formData.role ∧
        st.formData.username ≠ [] ∧ st.formData.email ≠ [] ∧ st.formData.password ≠ []) := by
  constructor
  · intro h
    have hv : (validateForm st.formData).2 = false := by
      rw [← Bool.not_eq_true, validateForm_valid_iff]
      rintro ⟨h1, h2, -, h4, -⟩
      rcases h with h | h | h
      · exact h1 h
      · exact h2 h
      · rw [h] at h4
        simp at h4
    refine ⟨hv, ?_⟩
    rw [handleSubmit_invalid api env st hv]
    rfl
  · intro r hr
    rcases handleSubmit_requests api env st with h | ⟨hv, -, h⟩
    · rw [h] at hr
      simp at hr
    · rw [h] at hr
      obtain ⟨h1, h2, -, h4, -⟩ := (validateForm_valid_iff _).mp hv
      rw [List.mem_singleton] at hr
      subst hr
      refine ⟨rfl, rfl, ne_nil_of_trim_ne_nil h1, ne_nil_of_trim_ne_nil h2, ?_⟩
      rintro h
      rw [h] at h4
      simp at h4

/-- Witness of C4 (amended): a draft with an empty password is rejected
without a request; the valid draft is posted with its fields. -/
theorem handleSubmit_required_fields_witness :
    ((validateForm { validDraft with password := [], confirmPassword := [] }).2 = false ∧
      requestsOf (handleSubmit (js "/api/users") successEnv
        { formData := { validDraft with password := [], confirmPassword := [] } }).2 = []) ∧
    requestsOf (handleSubmit (js "/api/users") successEnv { formData := validDraft }).2 =
      [{ method := .post, url := js "/api/users",
         body := .user (js "bob") (js "bob@x.co") (js "12345678") (js "IT") (js "agent"),
         bearer := js "t0k3n" }] ∧
    validDraft.username ≠ [] :=
  have hpost : requestsOf
      (handleSubmit (js "/api/users") successEnv { formData := validDraft }).2 =
      [{ method := .post, url := js "/api/users",
         body := .user (js "bob") (js "bob@x.co") (js "12345678") (js "IT") (js "agent"),
         bearer := js "t0k3n" }] := by decide
  ⟨(handleSubmit_required_fields (js "/api/users") successEnv
      { formData := { validDraft with password := [], confirmPassword := [] } }).1
      (Or.inr (Or.inr rfl)),
    hpost,
    ((handleSubmit_required_fields (js "/api/users") successEnv { formData := validDraft }).2
      _ (by rw [hpost]; exact List.mem_singleton.mpr rfl)).2.2.1⟩

/-! ## The user list: filter -/

theorem includes_iff_contiguous (s t : JSString) : includes s t = true ↔ t <:+: s := by
  induction s with
  | nil => simp [includes, List.isEmpty_iff]
  | cons c cs ih =>
      rw [includes, Bool.or_eq_true, ih, List.infix_cons_iff, List.isPrefixOf_iff_prefix]

theorem containsTerm_str (B : Builtins) (searchTerm s : JSString) :
    ContainsTerm B searchTerm (.str s) ↔ B.toLowerCase searchTerm <:+: B.toLowerCase s :=
  ⟨fun ⟨_, hs, h⟩ => by cases hs; exact h, fun h => ⟨s, rfl, h⟩⟩

theorem not_containsTerm_of_not_str (B : Builtins) (searchTerm : JSString) (v : JSValue)
    (hv : v.isStr = false) : ¬ ContainsTerm B searchTerm v := by
  rintro ⟨s, rfl, -⟩
  cases hv

theorem matchesSearch_of_textFields (B : Builtins) (hnil : B.toLowerCase [] = [])
    (searchTerm : JSString) (user : UserRow) (h : user.TextFields) :
    matchesSearch B searchTerm user = some (decide (SearchCondition B searchTerm user)) := by
  obtain ⟨id, name, email, role, created, status, shown, verified, department⟩ := user
  obtain ⟨hn, he, hd⟩ := h
  simp only at hn he hd
  cases name with
  | str n =>
    cases email with
    | str e =>
      unfold matchesSearch SearchCondition
      simp only [JSValue.asString, containsTerm_str]
      by_cases h1 : B.toLowerCase searchTerm <:+: B.toLowerCase n
      · simp [h1, (includes_iff_contiguous _ _).mpr h1]
      · have i1 : includes (B.toLowerCase n) (B.toLowerCase searchTerm) = false := by
          rw [← Bool.not_eq_true, includes_iff_contiguous]
          exact h1
        by_cases h2 : B.toLowerCase searchTerm <:+: B.toLowerCase e
        · simp [h1, i1, h2, (includes_iff_contiguous _ _).mpr h2]
        · have i2 : includes (B.toLowerCase e) (B.toLowerCase searchTerm) = false := by
            rw [← Bool.not_eq_true, includes_iff_contiguous]
            exact h2
          simp only [i1, i2, h1, h2, Bool.false_eq_true, if_false, false_or]
          have hfalsy : ∀ v : JSValue, v.isStr = false → v.truthy = false →
              (if (!v.truthy) = true then some false
                else
                  match v.asString with
                  | none => none
                  | some d => some (includes (B.toLowerCase d) (B.toLowerCase searchTerm))) =
                some (decide (ContainsTerm B searchTerm v)) := by
            intro v hv ht
            simp [ht, not_containsTerm_of_not_str B searchTerm v hv]
          cases department with
          | str d =>
              cases d with
              | nil =>
                  have h3 : ¬ ContainsTerm B searchTerm (.str []) := by
                    rw [containsTerm_str, hnil, List.infix_nil]
                    intro h0
                    apply h1
                    rw [h0]
                    exact List.nil_infix
                  simp [JSValue.truthy, h3]
              | cons c cs =>
                  simp only [JSValue.truthy, List.isEmpty_cons, Bool.not_false, Bool.not_true,
                    Bool.false_eq_true, if_false, Option.some.injEq, containsTerm_str]
                  rw [Bool.eq_iff_iff, includes_iff_contiguous, decide_eq_true_eq]
          | undefined => exact hfalsy .undefined rfl rfl
          | null => exact hfalsy .null rfl rfl
          | bool b =>
              rcases hd with hd | hd
              · exact hfalsy (.bool b) rfl hd
              · cases hd
          | num k =>
              rcases hd with hd | hd
              · exact hfalsy (.num k) rfl hd
              · cases hd
    | undefined => cases he
    | null => cases he
    | bool b => cases he
    | num k => cases he
  | undefined => cases hn
  | null => cases hn
  | bool b => cases hn
  | num k => cases hn

theorem strictEqStr_iff (v : JSValue) (s : JSString) : v.strictEqStr s = true ↔ v = .str s := by
  unfold JSValue.strictEqStr
  cases v <;> simp

theorem matchesRole_iff (filterRole : JSString) (user : UserRow) :
    matchesRole filterRole user = true ↔ RoleCondition filterRole user := by
  unfold matchesRole RoleCondition
  simp only [Bool.or_eq_true, decide_eq_true_eq, strictEqStr_iff]

theorem matchesStatus_iff (filterStatus : JSString) (user : UserRow) :
    matchesStatus filterStatus user = true ↔ StatusCondition filterStatus user := by
  unfold matchesStatus StatusCondition
  simp only [Bool.or_eq_true, Bool.and_eq_true, decide_eq_true_eq, strictEqStr_iff, or_assoc]

theorem filterCallback_of_textFields (B : Builtins) (hnil : B.toLowerCase [] = [])
    (searchTerm filterRole filterStatus : JSString) (user : UserRow) (h : user.TextFields) :
    filterCallback B searchTerm filterRole filterStatus user =
      some (decide (SearchCondition B searchTerm user ∧ RoleCondition filterRole user ∧
        StatusCondition filterStatus user)) := by
  unfold filterCallback
  rw [matchesSearch_of_textFields B hnil searchTerm user h]
  simp only [Option.some.injEq]
  rw [Bool.eq_iff_iff]
  simp only [Bool.and_eq_true, decide_eq_true_eq, matchesRole_iff, matchesStatus_iff, and_assoc]

theorem filterThrowing_eq_filter {α : Type} (p : α → Option Bool) (q : α → Bool) (l : List α)
    (h : ∀ a ∈ l, p a = some (q a)) : filterThrowing p l = some (l.filter q) := by
  induction l with
  | nil => rfl
  | cons a as ih =>
      have ha := h a (List.mem_cons_self a as)
      have ih' := ih fun b hb => h b (List.mem_cons_of_mem a hb)
      simp only [filterThrowing, ha, ih', List.filter_cons]

/-- C7: for rows whose name and e-mail are strings (and whose department is
absent or a string), `filteredUsers` is the list of the rows of `users`, in
their original order, that satisfy all three of the search, role and status
conditions; `toLowerCase` maps the empty string to itself. -/
theorem filteredUsers_eq_filter (B : Builtins) (hnil : B.toLowerCase [] = [])
    (users : List UserRow) (searchTerm filterRole filterStatus : JSString)
    (h : ∀ u ∈ users, u.TextFields) :
    filteredUsers B users searchTerm filterRole filterStatus =
      some (users.filter fun u =>
        decide (SearchCondition B searchTerm u ∧ RoleCondition filterRole u ∧
          StatusCondition filterStatus u)) := by
  unfold filteredUsers
  exact filterThrowing_eq_filter _ _ users fun u hu =>
    filterCallback_of_textFields B hnil searchTerm filterRole filterStatus u (h u hu)

/-- Witness of C7: the sample rows searched for "SAL", which only the
department of the second row contains. -/
theorem filteredUsers_eq_filter_witness :
    (∀ u ∈ sampleRows, u.TextFields) ∧
      filteredUsers asciiBuiltins sampleRows (js "SAL") (js "all") (js "all") =
        some (sampleRows.filter fun u =>
          decide (SearchCondition asciiBuiltins (js "SAL") u ∧ RoleCondition (js "all") u ∧
            StatusCondition (js "all") u)) ∧
      filteredUsers asciiBuiltins sampleRows (js "SAL") (js "all") (js "all") =
        some (sampleRows.drop 1 |>.take 1) :=
  ⟨by decide,
    filteredUsers_eq_filter asciiBuiltins rfl sampleRows (js "SAL") (js "all") (js "all")
      (by decide),
    by decide⟩

theorem transformUser_department (B : Builtins) (user : BackendUser) (row : UserRow)
    (h : transformUser B user = some row) : row.department = .undefined := by
  unfold transformUser at h
  simp only at h
  cases hs : (user.status.or (.str (js "unknown"))).asString with
  | none =>
      rw [hs] at h
      cases h
  | some s =>
      rw [hs] at h
      cases h
      rfl

/-- C8 (code evaluated at the failing input): the list endpoint returns a
record whose department is "Finance"; the row `fetchUsers` stores has no
department, and the search for "finance" with both filters at "all" yields
the empty list. -/
theorem fetched_department_not_searchable :
    (fetchUsers asciiBuiltins (js "/api/users") listEnv {}).1.users =
        [{ id := .num 5, name := .str (js "dana"), email := .str (js "dana@x.co"),
           role := .str (js "agent"), created_at := .num 50, status := .str (js "active"),
           displayStatus := js "Active", isVerified := true, department := .undefined }] ∧
      filteredUsers asciiBuiltins (fetchUsers asciiBuiltins (js "/api/users") listEnv {}).1.users
        (js "finance") (js "all") (js "all") = some [] := by
  constructor <;> decide

/-! ## The user list: sort -/

theorem sortInsert_eq_orderedInsert {α : Type} (cmp : α → α → Option JSNum) (c : α → α → Int)
    (x : α) (ys : List α) (h : ∀ y ∈ ys, cmp x y = some (.int (c x y))) :
    sortInsert cmp x ys = some (ys.orderedInsert (fun a b => c a b ≤ 0) x) := by
  induction ys with
  | nil => rfl
  | cons y ys ih =>
      have hy := h y (List.mem_cons_self y ys)
      have ih' := ih fun z hz => h z (List.mem_cons_of_mem y hz)
      simp only [sortInsert, hy, ih', JSNum.sortValue, List.orderedInsert]
      split_ifs <;> rfl

theorem arraySort_eq_insertionSort {α : Type} (cmp : α → α → Option JSNum) (c : α → α → Int)
    (l : List α) (h : ∀ a ∈ l, ∀ b ∈ l, cmp a b = some (.int (c a b))) :
    arraySort cmp l = some (l.insertionSort (fun a b => c a b ≤ 0)) := by
  induction l with
  | nil => rfl
  | cons x xs ih =>
      have ih' := ih fun a ha b hb =>
        h a (List.mem_cons_of_mem x ha) b (List.mem_cons_of_mem x hb)
      simp only [arraySort, ih', List.insertionSort]
      apply sortInsert_eq_orderedInsert
      intro y hy
      have hy' : y ∈ xs := (List.perm_insertionSort _ xs).mem_iff.mp hy
      exact h x (List.mem_cons_self x xs) y (List.mem_cons_of_mem x hy')

theorem ConsistentComparator.total {α : Type} {c : α → α → Int} (hc : ConsistentComparator c)
    (a b : α) : c a b ≤ 0 ∨ c b a ≤ 0 := by
  by_cases h : c a b ≤ 0
  · exact Or.inl h
  · exact Or.inr (le_of_lt ((hc.antisymm a b).mp (not_le.mp h)))

theorem ConsistentComparator.neg {α : Type} {c : α → α → Int} (hc : ConsistentComparator c) :
    ConsistentComparator fun a b => -c a b := by
  constructor
  · intro a b
    have := hc.antisymm b a
    constructor <;> intro h <;> simp only [Left.neg_neg_iff, Left.neg_pos_iff] at * <;> tauto
  · intro a b d hab hbd
    simp only [Left.neg_nonpos_iff] at *
    have hba : c b a ≤ 0 := by
      by_contra hlt
      have := (hc.antisymm b a).mp (not_le.mp hlt)
      omega
    have hdb : c d b ≤ 0 := by
      by_contra hlt
      have := (hc.antisymm d b).mp (not_le.mp hlt)
      omega
    have hda := hc.trans d b a hdb hba
    by_contra hlt
    have := (hc.antisymm d a).mpr (not_le.mp hlt)
    omega

theorem ConsistentComparator.comap {α β : Type} {c : α → α → Int} (hc : ConsistentComparator c)
    (f : β → α) : ConsistentComparator fun a b => c (f a) (f b) :=
  ⟨fun a b => hc.antisymm (f a) (f b), fun a b d => hc.trans (f a) (f b) (f d)⟩

/-- With a comparator that never throws and agrees with a consistent integer
comparator on the rows of the list, the sort returns a permutation of the list
that is pairwise ordered. -/
theorem arraySort_sorted_perm {α : Type} (cmp : α → α → Option JSNum) (c : α → α → Int)
    (hc : ConsistentComparator c) (l : List α)
    (h : ∀ a ∈ l, ∀ b ∈ l, cmp a b = some (.int (c a b))) :
    ∃ sorted, arraySort cmp l = some sorted ∧ sorted.Perm l ∧
      sorted.Pairwise fun a b => c a b ≤ 0 := by
  refine ⟨l.insertionSort (fun a b => c a b ≤ 0), arraySort_eq_insertionSort cmp c l h,
    List.perm_insertionSort _ l, ?_⟩
  haveI : IsTotal α (fun a b => c a b ≤ 0) := ⟨hc.total⟩
  haveI : IsTrans α (fun a b => c a b ≤ 0) := ⟨hc.trans⟩
  exact List.sorted_insertionSort (fun a b => c a b ≤ 0) l

theorem asString_of_isStr {v : JSValue} (h : v.isStr = true) : v.asString = some v.toJSString := by
  cases v <;> first | rfl | cases h

theorem compareUsers_text (B : Builtins) (sortBy sortOrder : JSString) (a b : UserRow)
    (hcol : sortBy = js "name" ∨ sortBy = js "email" ∨ sortBy = js "status")
    (ha : (columnText sortBy a).isStr = true) :
    compareUsers B sortBy sortOrder a b =
      some (.int (if sortOrder = js "asc" then textCompare B sortBy a b
        else -textCompare B sortBy a b)) := by
  have e1 : js "email" ≠ js "name" := by decide
  have e2 : js "status" ≠ js "name" := by decide
  have e3 : js "status" ≠ js "email" := by decide
  have e4 : js "status" ≠ js "department" := by decide
  have e5 : js "status" ≠ js "created_at" := by decide
  have e6 : js "email" ≠ js "department" := by decide
  rcases hcol with rfl | rfl | rfl
  · simp only [columnText, if_true] at ha
    simp only [compareUsers, textCompare, columnText, if_true, asString_of_isStr ha]
    split_ifs <;> rfl
  · simp only [columnText, e1, if_true, if_false] at ha
    simp only [compareUsers, textCompare, columnText, e1, if_true, if_false,
      asString_of_isStr ha]
    split_ifs <;> rfl
  · simp only [columnText, e2, e3, if_false] at ha
    simp only [compareUsers, textCompare, columnText, e2, e3, e4, e5, if_true, if_false,
      asString_of_isStr ha]
    split_ifs <;> rfl

theorem compareUsers_date (B : Builtins) (sortOrder : JSString) (a b : UserRow)
    (ha : (B.dateValue a.created_at).isSome = true)
    (hb : (B.dateValue b.created_at).isSome = true) :
    compareUsers B (js "created_at") sortOrder a b =
      some (.int (if sortOrder = js "asc" then dateCompare B a b else -dateCompare B a b)) := by
  have e1 : js "created_at" ≠ js "name" := by decide
  have e2 : js "created_at" ≠ js "email" := by decide
  have e3 : js "created_at" ≠ js "department" := by decide
  obtain ⟨x, hx⟩ := Option.isSome_iff_exists.mp ha
  obtain ⟨y, hy⟩ := Option.isSome_iff_exists.mp hb
  simp only [compareUsers, dateCompare, e1, e2, e3, if_true, if_false, hx, hy, Option.getD_some]
  split_ifs <;> rfl

theorem compareUsers_verified (B : Builtins) (sortOrder : JSString) (a b : UserRow) :
    compareUsers B (js "isVerified") sortOrder a b =
      some (.int (if sortOrder = js "asc" then verifiedCompare a b
        else -verifiedCompare a b)) := by
  have e1 : js "isVerified" ≠ js "name" := by decide
  have e2 : js "isVerified" ≠ js "email" := by decide
  have e3 : js "isVerified" ≠ js "department" := by decide
  have e4 : js "isVerified" ≠ js "created_at" := by decide
  have e5 : js "isVerified" ≠ js "status" := by decide
  simp only [compareUsers, verifiedCompare, e1, e2, e3, e4, e5, if_true, if_false]
  split_ifs <;> rfl

theorem consistent_sub {α : Type} (f : α → Int) : ConsistentComparator fun a b => f a - f b :=
  ⟨fun a b => by constructor <;> intro h <;> omega, fun a b d h1 h2 => by omega⟩

theorem consistent_verifiedCompare : ConsistentComparator verifiedCompare := by
  constructor
  · intro a b
    unfold verifiedCompare
    cases a.isVerified <;> cases b.isVerified <;> decide
  · intro a b d
    unfold verifiedCompare
    cases a.isVerified <;> cases b.isVerified <;> cases d.isVerified <;> decide

theorem verifiedCompare_le_iff (a b : UserRow) : verifiedCompare a b ≤ 0 ↔ VerifiedFirst a b := by
  unfold verifiedCompare VerifiedFirst
  cases a.isVerified <;> cases b.isVerified <;> decide

theorem neg_verifiedCompare_le_iff (a b : UserRow) :
    -verifiedCompare a b ≤ 0 ↔ VerifiedFirst b a := by
  unfold verifiedCompare VerifiedFirst
  cases a.isVerified <;> cases b.isVerified <;> decide

theorem compareUnits_antisymm (a b : JSString) : 0 < compareUnits a b ↔ compareUnits b a < 0 := by
  induction a generalizing b with
  | nil => cases b <;> simp [compareUnits]
  | cons x xs ih =>
      cases b with
      | nil => simp [compareUnits]
      | cons y ys =>
          simp only [compareUnits]
          by_cases h1 : x < y
          · have h2 : ¬ y < x := by omega
            simp [h1, h2]
          · by_cases h2 : y < x
            · simp [h1, h2]
            · simp only [h1, h2, if_false]
              exact ih ys

theorem compareUnits_trans (a b d : JSString) :
    compareUnits a b ≤ 0 → compareUnits b d ≤ 0 → compareUnits a d ≤ 0 := by
  induction a generalizing b d with
  | nil => cases d <;> simp [compareUnits]
  | cons x xs ih =>
      cases b with
      | nil => simp [compareUnits]
      | cons y ys =>
          cases d with
          | nil =>
              intro _ h
              simp [compareUnits] at h
          | cons z zs =>
              simp only [compareUnits]
              by_cases h1 : x < y
              · by_cases h2 : y < z
                · have h3 : x < z := by omega
                  simp [h1, h2, h3]
                · by_cases h2' : z < y
                  · simp [h1, h2, h2']
                  · have h3 : x < z := by omega
                    simp [h1, h2, h2', h3]
              · by_cases h1' : y < x
                · simp [h1, h1']
                · have hxy : x = y := by omega
                  subst hxy
                  by_cases h2 : x < z
                  · simp [h2]
                  · by_cases h2' : z < x
                    · simp [h2, h2']
                    · simp only [h1, h2, h2', if_false]
                      exact ih ys zs

theorem consistent_compareUnits : ConsistentComparator compareUnits :=
  ⟨compareUnits_antisymm, compareUnits_trans⟩

theorem columnLE_of_textCompare (B : Builtins) (sortBy : JSString) (a b : UserRow)
    (hcol : sortBy ≠ js "created_at") (ha : ColumnDefined B sortBy a)
    (hb : ColumnDefined B sortBy b) (h : textCompare B sortBy a b ≤ 0) :
    ColumnLE B sortBy a b := by
  unfold ColumnDefined at ha hb
  unfold ColumnLE
  rw [if_neg hcol] at ha hb ⊢
  unfold textCompare at h
  cases hta : columnText sortBy a with
  | str s =>
      cases htb : columnText sortBy b with
      | str t =>
          rw [hta, htb] at h
          exact ⟨s, t, rfl, rfl, h⟩
      | undefined => rw [htb] at hb; cases hb
      | null => rw [htb] at hb; cases hb
      | bool v => rw [htb] at hb; cases hb
      | num v => rw [htb] at hb; cases hb
  | undefined => rw [hta] at ha; cases ha
  | null => rw [hta] at ha; cases ha
  | bool v => rw [hta] at ha; cases ha
  | num v => rw [hta] at ha; cases ha

theorem columnLE_of_dateCompare (B : Builtins) (a b : UserRow)
    (ha : ColumnDefined B (js "created_at") a) (hb : ColumnDefined B (js "created_at") b)
    (h : dateCompare B a b ≤ 0) : ColumnLE B (js "created_at") a b := by
  unfold ColumnDefined at ha hb
  unfold ColumnLE
  rw [if_pos rfl] at ha hb ⊢
  obtain ⟨x, hx⟩ := Option.isSome_iff_exists.mp ha
  obtain ⟨y, hy⟩ := Option.isSome_iff_exists.mp hb
  unfold dateCompare at h
  rw [hx, hy] at h
  simp only [Option.getD_some] at h
  exact ⟨x, y, hx, hy, by omega⟩

theorem sortedUsers_of_consistent (B : Builtins) (sortBy sortOrder : JSString)
    (filtered : List UserRow) (c : UserRow → UserRow → Int) (hc : ConsistentComparator c)
    (h : ∀ a ∈ filtered, ∀ b ∈ filtered,
      compareUsers B sortBy sortOrder a b =
        some (.int (if sortOrder = js "asc" then c a b else -c a b))) :
    ∃ sorted, sortedUsers B sortBy sortOrder filtered = some sorted ∧ sorted.Perm filtered ∧
      sorted.Pairwise fun a b => if sortOrder = js "asc" then c a b ≤ 0 else c b a ≤ 0 := by
  unfold sortedUsers
  by_cases ho : sortOrder = js "asc"
  · simp only [ho, if_true] at h ⊢
    exact arraySort_sorted_perm _ c hc filtered h
  · simp only [ho, if_false] at h ⊢
    obtain ⟨sorted, hs, hp, hpair⟩ := arraySort_sorted_perm _ (fun a b => -c a b) hc.neg filtered h
    refine ⟨sorted, hs, hp, hpair.imp ?_⟩
    intro a b hab
    by_contra hlt
    have := (hc.antisymm b a).mp (not_le.mp hlt)
    omega

/-- The sort on rows that have a key in the column.  For `sortBy` among name,
email, status and created_at, and rows whose value in that column is a string
(a valid instant for created_at), `sortedUsers` is a permutation of
`filteredUsers` whose rows are pairwise (so also consecutively) non-decreasing
in the column for "asc" and non-increasing for "desc"; texts are compared as
strings by a consistent `localeCompare`, instants as points in time. -/
theorem sortedUsers_sorted_perm (B : Builtins) (hB : ConsistentComparator B.localeCompare)
    (sortBy : JSString) (filtered : List UserRow)
    (hcol : sortBy = js "name" ∨ sortBy = js "email" ∨ sortBy = js "status" ∨
      sortBy = js "created_at")
    (hrows : ∀ u ∈ filtered, ColumnDefined B sortBy u) :
    (∃ sorted, sortedUsers B sortBy (js "asc") filtered = some sorted ∧
        sorted.Perm filtered ∧ sorted.Pairwise (ColumnLE B sortBy)) ∧
      (∃ sorted, sortedUsers B sortBy (js "desc") filtered = some sorted ∧
        sorted.Perm filtered ∧ sorted.Pairwise fun a b => ColumnLE B sortBy b a) := by
  have hdesc : js "desc" ≠ js "asc" := by decide
  by_cases hdate : sortBy = js "created_at"
  · subst hdate
    have hdef : ∀ u ∈ filtered, (B.dateValue u.created_at).isSome = true := by
      intro u hu
      have := hrows u hu
      unfold ColumnDefined at this
      rwa [if_pos rfl] at this
    have hcmp : ∀ order, ∀ a ∈ filtered, ∀ b ∈ filtered,
        compareUsers B (js "created_at") order a b =
          some (.int (if order = js "asc" then dateCompare B a b else -dateCompare B a b)) :=
      fun order a ha b hb => compareUsers_date B order a b (hdef a ha) (hdef b hb)
    have hc : ConsistentComparator (dateCompare B) :=
      consistent_sub fun u : UserRow => (B.dateValue u.created_at).getD 0
    constructor
    · obtain ⟨sorted, hs, hp, hpair⟩ :=
        sortedUsers_of_consistent B _ (js "asc") filtered _ hc (hcmp _)
      refine ⟨sorted, hs, hp, hpair.imp_of_mem ?_⟩
      intro a b ha hb hab
      rw [if_pos rfl] at hab
      exact columnLE_of_dateCompare B a b (hrows a (hp.mem_iff.mp ha)) (hrows b (hp.mem_iff.mp hb))
        hab
    · obtain ⟨sorted, hs, hp, hpair⟩ :=
        sortedUsers_of_consistent B _ (js "desc") filtered _ hc (hcmp _)
      refine ⟨sorted, hs, hp, hpair.imp_of_mem ?_⟩
      intro a b ha hb hab
      rw [if_neg hdesc] at hab
      exact columnLE_of_dateCompare B b a (hrows b (hp.mem_iff.mp hb)) (hrows a (hp.mem_iff.mp ha))
        hab
  · have htext : sortBy = js "name" ∨ sortBy = js "email" ∨ sortBy = js "status" := by tauto
    have hdef : ∀ u ∈ filtered, (columnText sortBy u).isStr = true := by
      intro u hu
      have := hrows u hu
      unfold ColumnDefined at this
      rwa [if_neg hdate] at this
    have hcmp : ∀ order, ∀ a ∈ filtered, ∀ b ∈ filtered,
        compareUsers B sortBy order a b =
          some (.int (if order = js "asc" then textCompare B sortBy a b
            else -textCompare B sortBy a b)) :=
      fun order a ha b _ => compareUsers_text B sortBy order a b htext (hdef a ha)
    have hc : ConsistentComparator (textCompare B sortBy) :=
      hB.comap fun u => (columnText sortBy u).toJSString
    constructor
    · obtain ⟨sorted, hs, hp, hpair⟩ :=
        sortedUsers_of_consistent B _ (js "asc") filtered _ hc (hcmp _)
      refine ⟨sorted, hs, hp, hpair.imp_of_mem ?_⟩
      intro a b ha hb hab
      rw [if_pos rfl] at hab
      exact columnLE_of_textCompare B sortBy a b hdate (hrows a (hp.mem_iff.mp ha))
        (hrows b (hp.mem_iff.mp hb)) hab
    · obtain ⟨sorted, hs, hp, hpair⟩ :=
        sortedUsers_of_consistent B _ (js "desc") filtered _ hc (hcmp _)
      refine ⟨sorted, hs, hp, hpair.imp_of_mem ?_⟩
      intro a b ha hb hab
      rw [if_neg hdesc] at hab
      exact columnLE_of_textCompare B sortBy b a hdate (hrows b (hp.mem_iff.mp hb))
        (hrows a (hp.mem_iff.mp ha)) hab

/-- The sample rows sorted by `created_at` (instants 300, 100, 200) with the
code-unit comparison of strings. -/
theorem sortedUsers_sorted_perm_witness :
    ConsistentComparator asciiBuiltins.localeCompare ∧
      (∀ u ∈ sampleRows, ColumnDefined asciiBuiltins (js "created_at") u) ∧
      ((∃ sorted, sortedUsers asciiBuiltins (js "created_at") (js "asc") sampleRows =
            some sorted ∧
          sorted.Perm sampleRows ∧ sorted.Pairwise (ColumnLE asciiBuiltins (js "created_at"))) ∧
        (∃ sorted, sortedUsers asciiBuiltins (js "created_at") (js "desc") sampleRows =
            some sorted ∧
          sorted.Perm sampleRows ∧
          sorted.Pairwise fun a b => ColumnLE asciiBuiltins (js "created_at") b a)) ∧
      (sortedUsers asciiBuiltins (js "created_at") (js "asc") sampleRows).map
        (List.map fun u => u.created_at) = some [.num 100, .num 200, .num 300] :=
  ⟨consistent_compareUnits, by decide,
    sortedUsers_sorted_perm asciiBuiltins consistent_compareUnits (js "created_at") sampleRows
      (Or.inr (Or.inr (Or.inr rfl))) (by decide),
    by decide⟩

/-- C9 (code evaluated at the failing input): the list endpoint returns, with
`success: true`, two records whose e-mail is null and whose `created_at` is a
valid instant.  Both rows are in `filteredUsers` under the default empty
search with both filters at "all"; sorting this list by e-mail raises a
`TypeError`, ascending and descending, in the insertion sort and in the sort
of V8, so that there is no `sortedUsers`. -/
theorem sort_by_email_throws_on_null :
    nullEmailRows.map (fun u => (u.id, u.email, u.created_at)) =
        [(.num 8, .null, .num 80), (.num 8, .null, .num 80)] ∧
      filteredUsers asciiBuiltins nullEmailRows [] (js "all") (js "all") = some nullEmailRows ∧
      sortedUsers asciiBuiltins (js "email") (js "asc") nullEmailRows = none ∧
      sortedUsers asciiBuiltins (js "email") (js "desc") nullEmailRows = none ∧
      sortedUsersV8 asciiBuiltins (js "email") (js "asc") nullEmailRows = none ∧
      sortedUsersV8 asciiBuiltins (js "email") (js "desc") nullEmailRows = none := by
  refine ⟨by decide, by decide, by decide, by decide, by decide, by decide⟩

/-- C10: with `sortBy = "isVerified"`, `sortedUsers` is a permutation of
`filteredUsers`; for "asc" no unverified row stands before a verified row, for
"desc" no verified row stands before an unverified row. -/
theorem sortedUsers_isVerified (B : Builtins) (filtered : List UserRow) :
    (∃ sorted, sortedUsers B (js "isVerified") (js "asc") filtered = some sorted ∧
        sorted.Perm filtered ∧ sorted.Pairwise VerifiedFirst) ∧
      (∃ sorted, sortedUsers B (js "isVerified") (js "desc") filtered = some sorted ∧
        sorted.Perm filtered ∧ sorted.Pairwise fun a b => VerifiedFirst b a) := by
  have hdesc : js "desc" ≠ js "asc" := by decide
  have hcmp : ∀ order, ∀ a ∈ filtered, ∀ b ∈ filtered,
      compareUsers B (js "isVerified") order a b =
        some (.int (if order = js "asc" then verifiedCompare a b else -verifiedCompare a b)) :=
    fun order a _ b _ => compareUsers_verified B order a b
  constructor
  · obtain ⟨sorted, hs, hp, hpair⟩ :=
      sortedUsers_of_consistent B _ (js "asc") filtered _ consistent_verifiedCompare (hcmp _)
    refine ⟨sorted, hs, hp, hpair.imp ?_⟩
    intro a b hab
    rw [if_pos rfl] at hab
    exact (verifiedCompare_le_iff a b).mp hab
  · obtain ⟨sorted, hs, hp, hpair⟩ :=
      sortedUsers_of_consistent B _ (js "desc") filtered _ consistent_verifiedCompare (hcmp _)
    refine ⟨sorted, hs, hp, hpair.imp ?_⟩
    intro a b hab
    rw [if_neg hdesc] at hab
    exact (verifiedCompare_le_iff b a).mp hab

/-- Witness of C10: the sample rows (verified, unverified, verified) sorted
by the verified flag in both orders. -/
theorem sortedUsers_isVerified_witness :
    (sortedUsers asciiBuiltins (js "isVerified") (js "asc") sampleRows).map
        (List.map fun u => (u.id, u.isVerified)) =
        some [(.num 1, true), (.num 3, true), (.num 2, false)] ∧
      (sortedUsers asciiBuiltins (js "isVerified") (js "desc") sampleRows).map
        (List.map fun u => (u.id, u.isVerified)) =
        some [(.num 2, false), (.num 1, true), (.num 3, true)] ∧
      ∃ sorted, sortedUsers asciiBuiltins (js "isVerified") (js "asc") sampleRows = some sorted ∧
        sorted.Perm sampleRows ∧ sorted.Pairwise VerifiedFirst :=
  ⟨by decide, by decide, (sortedUsers_isVerified asciiBuiltins sampleRows).1⟩

/-! ## The user list: sort toggle and row buttons -/

/-- C11: in a sort state (`sortOrder` is "asc" or "desc"), `handleSort c`
keeps `sortBy` and flips `sortOrder` when `sortBy = c`, so that applying it
twice restores the state; when `sortBy` differs from `c` it sets `sortBy` to
`c` and `sortOrder` to "asc"; the result is again a sort state. -/
theorem handleSort_toggle (column : JSString) (st : ViewUsersState)
    (horder : st.sortOrder = js "asc" ∨ st.sortOrder = js "desc") :
    (st.sortBy = column →
      (handleSort column st).sortBy = st.sortBy ∧
        (st.sortOrder = js "asc" → (handleSort column st).sortOrder = js "desc") ∧
        (st.sortOrder = js "desc" → (handleSort column st).sortOrder = js "asc") ∧
        handleSort column (handleSort column st) = st) ∧
    (st.sortBy ≠ column →
      (handleSort column st).sortBy = column ∧ (handleSort column st).sortOrder = js "asc") ∧
    ((handleSort column st).sortOrder = js "asc" ∨
      (handleSort column st).sortOrder = js "desc") := by
  have hne : js "desc" ≠ js "asc" := by decide
  obtain ⟨term, role, status, sortBy, sortOrder, users, loading, error, busy⟩ := st
  simp only at horder
  refine ⟨?_, ?_, ?_⟩
  · intro hcol
    simp only at hcol
    subst hcol
    rcases horder with rfl | rfl
    · simp [handleSort, hne, hne.symm]
    · simp [handleSort, hne, hne.symm]
  · intro hcol
    simp only [ne_eq] at hcol
    simp [handleSort, hcol]
  · by_cases hcol : sortBy = column
    · rcases horder with rfl | rfl <;> simp [handleSort, hcol, hne, hne.symm]
    · simp [handleSort, hcol]

/-- Witness of C11: from the initial state (name, "asc") a click on "name"
gives (name, "desc"), a second click restores the state, and a click on
"email" gives (email, "asc"). -/
theorem handleSort_toggle_witness :
    (handleSort (js "name") {}).sortOrder = js "desc" ∧
      handleSort (js "name") (handleSort (js "name") {}) = {} ∧
      (handleSort (js "email") (handleSort (js "name") {})).sortBy = js "email" ∧
      (handleSort (js "email") (handleSort (js "name") {})).sortOrder = js "asc" :=
  have h1 := handleSort_toggle (js "name") {} (Or.inl rfl)
  have h2 := handleSort_toggle (js "email") (handleSort (js "name") {}) (Or.inr (by decide))
  ⟨(h1.1 rfl).2.1 rfl, (h1.1 rfl).2.2.2, (h2.2.1 (by decide)).1, (h2.2.1 (by decide)).2⟩

theorem transformUser_status_default (B : Builtins) (user : BackendUser) (row : UserRow)
    (hstatus : user.status.truthy = false) (h : transformUser B user = some row) :
    row.status = .str (js "unknown") := by
  unfold transformUser at h
  simp only [JSValue.or, hstatus, Bool.false_eq_true, if_false, JSValue.asString] at h
  cases h
  rfl

/-- C12: the actions cell of a row holds the Restrict button exactly when the
status is "active" and the Unrestrict button exactly when it is "restricted";
it never holds both, holds none for any other status, and in particular none
for a row built from a record without status (status "unknown"). -/
theorem actionButtons_by_status (user : UserRow) :
    ((∃ i, ActionButton.restrict i ∈ actionButtons user) ↔ user.status = .str (js "active")) ∧
    ((∃ i, ActionButton.unrestrict i ∈ actionButtons user) ↔
      user.status = .str (js "restricted")) ∧
    ¬ ((∃ i, ActionButton.restrict i ∈ actionButtons user) ∧
      (∃ i, ActionButton.unrestrict i ∈ actionButtons user)) ∧
    (user.status ≠ .str (js "active") → user.status ≠ .str (js "restricted") →
      actionButtons user = []) ∧
    (∀ (B : Builtins) (record : BackendUser), record.status.truthy = false →
      transformUser B record = some user → actionButtons user = []) := by
  have hne : (JSValue.str (js "active")) ≠ .str (js "restricted") := by decide
  have hu1 : (JSValue.str (js "unknown")) ≠ .str (js "active") := by decide
  have hu2 : (JSValue.str (js "unknown")) ≠ .str (js "restricted") := by decide
  have hnone : user.status ≠ .str (js "active") → user.status ≠ .str (js "restricted") →
      actionButtons user = [] := by
    intro h1 h2
    have e1 : user.status.strictEqStr (js "active") = false := by
      rw [← Bool.not_eq_true, strictEqStr_iff]
      exact h1
    have e2 : user.status.strictEqStr (js "restricted") = false := by
      rw [← Bool.not_eq_true, strictEqStr_iff]
      exact h2
    simp [actionButtons, e1, e2]
  have hr : (∃ i, ActionButton.restrict i ∈ actionButtons user) ↔
      user.status = .str (js "active") := by
    unfold actionButtons
    by_cases h1 : user.status.strictEqStr (js "active") = true <;>
      by_cases h2 : user.status.strictEqStr (js "restricted") = true <;>
      simp [h1, h2, ← strictEqStr_iff]
  have hu : (∃ i, ActionButton.unrestrict i ∈ actionButtons user) ↔
      user.status = .str (js "restricted") := by
    unfold actionButtons
    by_cases h1 : user.status.strictEqStr (js "active") = true <;>
      by_cases h2 : user.status.strictEqStr (js "restricted") = true <;>
      simp [h1, h2, ← strictEqStr_iff]
  refine ⟨hr, hu, ?_, hnone, ?_⟩
  · rw [hr, hu]
    rintro ⟨h1, h2⟩
    rw [h1] at h2
    exact hne h2
  · intro B record hfalsy htransform
    have hs := transformUser_status_default B record user hfalsy htransform
    apply hnone <;> rw [hs]
    · exact hu1
    · exact hu2

/-- Witness of C12: the buttons of the three sample rows (active,
restricted, active) and of a row built from a record without status. -/
theorem actionButtons_by_status_witness :
    sampleRows.map actionButtons =
        [[.restrict (.num 1)], [.unrestrict (.num 2)], [.restrict (.num 3)]] ∧
      (transformUser asciiBuiltins {}).map actionButtons = some [] ∧
      ((∃ i, ActionButton.restrict i ∈ actionButtons { status := .str (js "active") }) ↔
        ({ status := .str (js "active") } : UserRow).status = .str (js "active")) :=
  ⟨by decide, by decide, (actionButtons_by_status { status := .str (js "active") }).1⟩

/-! ## The user list: fetch, restrict and unrestrict -/

theorem fetchUsers_requests (B : Builtins) (api : JSString) (env : Env) (st : ViewUsersState)
    (htoken : tokenMissing env.userToken = false) :
    requestsOf (fetchUsers B api env st).2 = [listRequest api env] := by
  unfold fetchUsers
  simp only [htoken, Bool.false_eq_true, if_false]
  generalize env.http _ = outcome
  cases outcome with
  | rejected data => rfl
  | resolved body =>
      cases body with
      | none => rfl
      | some data =>
          by_cases hsuccess : data.success.truthy = true
          · simp only [hsuccess, if_true]
            cases data.users with
            | none => rfl
            | some records =>
                dsimp only
                cases mapThrowing (transformUser B) records <;> rfl
          · simp only [hsuccess, if_false]
            rfl

/-- The users list after `fetchUsers` is the old one, or the transformed
records of a successful list response. -/
theorem fetchUsers_users (B : Builtins) (api : JSString) (env : Env) (st : ViewUsersState) :
    (fetchUsers B api env st).1.users = st.users ∨
      ∃ data records, env.http (listRequest api env) = .resolved (some data) ∧
        data.success.truthy = true ∧ data.users = some records ∧
        mapThrowing (transformUser B) records = some (fetchUsers B api env st).1.users := by
  unfold fetchUsers listRequest
  by_cases htoken : tokenMissing env.userToken = true
  · left
    simp only [htoken, if_true]
  · have ht : tokenMissing env.userToken = false := by simpa using htoken
    simp only [ht, Bool.false_eq_true, if_false]
    generalize env.http _ = outcome
    cases outcome with
    | rejected data => left; rfl
    | resolved body =>
        cases body with
        | none => left; rfl
        | some data =>
            by_cases hsuccess : data.success.truthy = true
            · simp only [hsuccess, if_true]
              cases husers : data.users with
              | none => left; rfl
              | some records =>
                  dsimp only
                  cases hrows : mapThrowing (transformUser B) records with
                  | none => left; rfl
                  | some rows => exact Or.inr ⟨data, records, rfl, hsuccess, husers, hrows⟩
            · left
              dsimp only
              rw [if_neg hsuccess]

theorem restrictionAction_declined (B : Builtins) (apiGet apiAction : JSString)
    (doneText failedPrefix failedText : JSString) (env : Env) (userId : JSValue)
    (st : ViewUsersState) (hconfirm : env.confirm = false) :
    restrictionAction B apiGet apiAction doneText failedPrefix failedText env userId st =
      (st, []) := by
  unfold restrictionAction
  simp only [hconfirm, Bool.false_eq_true, if_false]

theorem restrictionAction_carried (B : Builtins) (apiGet apiAction : JSString)
    (doneText failedPrefix failedText : JSString) (env : Env) (userId : JSValue)
    (st : ViewUsersState) (h : ActionSucceeds apiAction env userId) :
    restrictionAction B apiGet apiAction doneText failedPrefix failedText env userId st =
      ({ (fetchUsers B apiGet env { st with actionInProgress := true }).1 with
          actionInProgress := false },
        [.request (actionRequest apiAction env userId)] ++
          (fetchUsers B apiGet env { st with actionInProgress := true }).2 ++
          [.alert (.str doneText)]) := by
  obtain ⟨hconfirm, htoken, hsucc⟩ := h
  unfold restrictionAction
  unfold actionRequest at hsucc ⊢
  simp only [hconfirm, htoken, Bool.false_eq_true, if_true, if_false]
  generalize env.http _ = outcome at hsucc ⊢
  cases outcome with
  | rejected data => cases hsucc
  | resolved body =>
      cases body with
      | none => cases hsucc
      | some data =>
          simp only [HttpOutcome.succeeded] at hsucc
          simp only [hsucc, if_true]

theorem restrictionAction_failed (B : Builtins) (apiGet apiAction : JSString)
    (doneText failedPrefix failedText : JSString) (env : Env) (userId : JSValue)
    (st : ViewUsersState) (hconfirm : env.confirm = true)
    (htoken : tokenMissing env.userToken = false)
    (hfail : (env.http (actionRequest apiAction env userId)).succeeded = false) :
    (restrictionAction B apiGet apiAction doneText failedPrefix failedText env userId st).1 =
        { st with actionInProgress := false } ∧
      requestsOf
        (restrictionAction B apiGet apiAction doneText failedPrefix failedText env userId st).2 =
        [actionRequest apiAction env userId] := by
  unfold restrictionAction
  unfold actionRequest at hfail ⊢
  simp only [hconfirm, htoken, Bool.false_eq_true, if_true, if_false]
  generalize env.http _ = outcome at hfail ⊢
  cases outcome with
  | rejected data => exact ⟨rfl, rfl⟩
  | resolved body =>
      cases body with
      | none => exact ⟨rfl, rfl⟩
      | some data =>
          simp only [HttpOutcome.succeeded] at hfail
          dsimp only
          rw [if_neg (by rw [hfail]; decide)]
          exact ⟨rfl, rfl⟩

theorem restrictionAction_refetch (B : Builtins) (apiGet apiAction : JSString)
    (doneText failedPrefix failedText : JSString) (env : Env) (userId : JSValue)
    (st : ViewUsersState) (hconfirm : env.confirm = true)
    (htoken : tokenMissing env.userToken = false) :
    RefetchOnSuccess apiGet apiAction env userId
      (restrictionAction B apiGet apiAction doneText failedPrefix failedText env userId st) := by
  unfold RefetchOnSuccess
  cases hsucc : (env.http (actionRequest apiAction env userId)).succeeded with
  | true =>
      rw [restrictionAction_carried B apiGet apiAction doneText failedPrefix failedText env userId
        st ⟨hconfirm, htoken, hsucc⟩]
      simp only [requestsOf, List.filterMap_append, List.filterMap_cons, List.filterMap_nil,
        if_true]
      have := fetchUsers_requests B apiGet env { st with actionInProgress := true } htoken
      simp only [requestsOf] at this
      rw [this]
      rfl
  | false =>
      simp only [Bool.false_eq_true, if_false]
      exact (restrictionAction_failed B apiGet apiAction doneText failedPrefix failedText env
        userId st hconfirm htoken hsucc).2

theorem restrictionAction_no_optimistic (B : Builtins) (apiGet apiAction : JSString)
    (doneText failedPrefix failedText : JSString) (env : Env) (userId : JSValue)
    (st : ViewUsersState) :
    NoOptimisticUpdate B apiGet apiAction env userId st
      (restrictionAction B apiGet apiAction doneText failedPrefix failedText env userId st) := by
  have hkeep : ¬ ActionSucceeds apiAction env userId →
      (restrictionAction B apiGet apiAction doneText failedPrefix failedText env userId
        st).1.users = st.users := by
    intro hnot
    cases hconfirm : env.confirm with
    | false =>
        rw [restrictionAction_declined B apiGet apiAction doneText failedPrefix failedText env
          userId st hconfirm]
    | true =>
        cases htoken : tokenMissing env.userToken with
        | true =>
            rw [restrictionAction_no_token B apiGet apiAction doneText failedPrefix failedText env
              userId st htoken, hconfirm]
            rfl
        | false =>
            cases hsucc : (env.http (actionRequest apiAction env userId)).succeeded with
            | true => exact absurd ⟨hconfirm, htoken, hsucc⟩ hnot
            | false =>
                rw [(restrictionAction_failed B apiGet apiAction doneText failedPrefix failedText
                  env userId st hconfirm htoken hsucc).1]
  refine ⟨restrictionAction_declined B apiGet apiAction doneText failedPrefix failedText env
    userId st, hkeep, ?_⟩
  intro hchanged
  have hact : ActionSucceeds apiAction env userId := by
    by_contra hnot
    exact hchanged (hkeep hnot)
  refine ⟨hact, ?_⟩
  rw [restrictionAction_carried B apiGet apiAction doneText failedPrefix failedText env userId
    st hact] at hchanged ⊢
  constructor
  · have := fetchUsers_requests B apiGet env { st with actionInProgress := true } hact.2.1
    simp only [requestsOf, List.filterMap_append, List.mem_append] at this ⊢
    left; right
    rw [this]
    exact List.mem_singleton.mpr rfl
  · rcases fetchUsers_users B apiGet env { st with actionInProgress := true } with h | h
    · exact absurd h hchanged
    · exact h

/-- C13 (as stated, refuted): a confirmed restrict action whose POST resolves
with `success: false`, and a confirmed unrestrict action whose POST fails
without a response, issue the POST and no list request. -/
theorem restriction_failure_without_refetch :
    refusalEnv.confirm = true ∧ networkErrorEnv.confirm = true ∧
      requestsOf (handleRestrictUser asciiBuiltins (js "/api/users") (js "/api/restrict")
          refusalEnv (.num 7) {}).2 =
        [actionRequest (js "/api/restrict") refusalEnv (.num 7)] ∧
      requestsOf (handleUnrestrictUser asciiBuiltins (js "/api/users") (js "/api/unrestrict")
          networkErrorEnv (.num 7) {}).2 =
        [actionRequest (js "/api/unrestrict") networkErrorEnv (.num 7)] := by
  refine ⟨rfl, rfl, by decide, by decide⟩

/-- C13 (amended): a confirmed restrict or unrestrict action with a stored
token issues its POST; the full user list is fetched again (the list GET
follows the POST) exactly when the POST resolves with a truthy `success`;
after a response with `success = false` or a failed request only the POST is
issued. -/
theorem restriction_refetch_on_success (B : Builtins)
    (apiGet apiRestrict apiUnrestrict : JSString) (env : Env) (userId : JSValue)
    (st : ViewUsersState) (hconfirm : env.confirm = true)
    (htoken : tokenMissing env.userToken = false) :
    RefetchOnSuccess apiGet apiRestrict env userId
        (handleRestrictUser B apiGet apiRestrict env userId st) ∧
      RefetchOnSuccess apiGet apiUnrestrict env userId
        (handleUnrestrictUser B apiGet apiUnrestrict env userId st) :=
  ⟨restrictionAction_refetch B apiGet apiRestrict _ _ _ env userId st hconfirm htoken,
    restrictionAction_refetch B apiGet apiUnrestrict _ _ _ env userId st hconfirm htoken⟩

/-- Witness of C13 (amended): with every request succeeding, the restrict
action issues the POST and then the list GET. -/
theorem restriction_refetch_on_success_witness :
    successEnv.confirm = true ∧ tokenMissing successEnv.userToken = false ∧
      requestsOf (handleRestrictUser asciiBuiltins (js "/api/users") (js "/api/restrict")
          successEnv (.num 7) {}).2 =
        [actionRequest (js "/api/restrict") successEnv (.num 7),
          listRequest (js "/api/users") successEnv] :=
  ⟨rfl, rfl,
    (restriction_refetch_on_success asciiBuiltins (js "/api/users") (js "/api/restrict")
      (js "/api/unrestrict") successEnv (.num 7) {} rfl rfl).1⟩

/-- C14: `handleRestrictUser` and `handleUnrestrictUser` make no optimistic
update: a declined confirmation issues nothing and leaves every state field
unchanged; unless the POST succeeds the users list is unchanged; a users list
that changed is the transformed list of records of the list response fetched
after the POST. -/
theorem restriction_no_optimistic_update (B : Builtins)
    (apiGet apiRestrict apiUnrestrict : JSString) (env : Env) (userId : JSValue)
    (st : ViewUsersState) :
    NoOptimisticUpdate B apiGet apiRestrict env userId st
        (handleRestrictUser B apiGet apiRestrict env userId st) ∧
      NoOptimisticUpdate B apiGet apiUnrestrict env userId st
        (handleUnrestrictUser B apiGet apiUnrestrict env userId st) :=
  ⟨restrictionAction_no_optimistic B apiGet apiRestrict _ _ _ env userId st,
    restrictionAction_no_optimistic B apiGet apiUnrestrict _ _ _ env userId st⟩

/-- Witness of C14: a declined restrict action on the sample rows changes
nothing; a refused unrestrict action keeps the users list; a successful
restrict action replaces the list by the rows of the fetched record. -/
theorem restriction_no_optimistic_update_witness :
    handleRestrictUser asciiBuiltins (js "/api/users") (js "/api/restrict")
        { successEnv with confirm := false } (.num 2) { users := sampleRows } =
        ({ users := sampleRows }, []) ∧
      (handleUnrestrictUser asciiBuiltins (js "/api/users") (js "/api/unrestrict")
        refusalEnv (.num 2) { users := sampleRows }).1.users = sampleRows ∧
      ((handleRestrictUser asciiBuiltins (js "/api/users") (js "/api/restrict")
        listEnv (.num 2) { users := sampleRows }).1.users).map (fun u => u.id) = [.num 5] :=
  ⟨(restriction_no_optimistic_update asciiBuiltins (js "/api/users") (js "/api/restrict")
      (js "/api/unrestrict") { successEnv with confirm := false } (.num 2)
      { users := sampleRows }).1.1 rfl,
    (restriction_no_optimistic_update asciiBuiltins (js "/api/users") (js "/api/restrict")
      (js "/api/unrestrict") refusalEnv (.num 2) { users := sampleRows }).2.2.1 (by decide),
    by decide⟩

/-! ## Submission handlers: outcome of the POST -/

theorem ticket_fields_filled {st : TicketState}
    (h : st.subject ≠ [] ∧ st.issue ≠ [] ∧ st.category ≠ [] ∧ st.priority ≠ []) :
    (st.subject.isEmpty || st.issue.isEmpty || st.category.isEmpty || st.priority.isEmpty) =
      false := by
  obtain ⟨h1, h2, h3, h4⟩ := h
  simp [List.isEmpty_iff, h1, h2, h3, h4]

theorem handleCreateTicket_of_resolved (api : JSString) (env : Env) (st : TicketState)
    (data : Option ResponseData)
    (hfields : st.subject ≠ [] ∧ st.issue ≠ [] ∧ st.category ≠ [] ∧ st.priority ≠ [])
    (htoken : tokenMissing env.userToken = false)
    (hpost : env.http (ticketRequest api env st) = .resolved data) :
    handleCreateTicket api env st =
      ({ subject := [], issue := [], category := [], priority := [], error := .str [],
         success := js "Ticket created successfully!" },
        [.request (ticketRequest api env st), .timer 5000 .clearSuccess]) := by
  unfold handleCreateTicket
  unfold ticketRequest at hpost ⊢
  simp only [ticket_fields_filled hfields, htoken, Bool.false_eq_true, if_false, hpost]

theorem handleCreateTicket_of_rejected (api : JSString) (env : Env) (st : TicketState)
    (data : Option ResponseData)
    (hfields : st.subject ≠ [] ∧ st.issue ≠ [] ∧ st.category ≠ [] ∧ st.priority ≠ [])
    (htoken : tokenMissing env.userToken = false)
    (hpost : env.http (ticketRequest api env st) = .rejected data) :
    handleCreateTicket api env st =
      ({ st with error := (rejectionMessage data).or (.str (js "Error creating ticket.")),
                 success := [] },
        [.request (ticketRequest api env st)]) := by
  unfold handleCreateTicket
  unfold ticketRequest at hpost ⊢
  simp only [ticket_fields_filled hfields, htoken, Bool.false_eq_true, if_false, hpost]
  rfl

theorem handleSubmit_of_rejected (api : JSString) (env : Env) (st : CreateUserState)
    (data : Option ResponseData) (hvalid : (validateForm st.formData).2 = true)
    (htoken : tokenMissing env.userToken = false)
    (hpost : env.http (userRequest api env st) = .rejected data) :
    (handleSubmit api env st).1 =
      { st with errors := submitCatch data, isSubmitting := false } := by
  unfold handleSubmit
  unfold userRequest at hpost
  rcases hv : validateForm st.formData with ⟨errs, ok⟩
  rw [hv] at hvalid
  simp only at hvalid
  subst hvalid
  simp only [htoken, if_true, Bool.false_eq_true, if_false, hpost]

theorem submitCatch_submit (data : Option ResponseData) :
    (submitCatch data).submit =
      (rejectionMessage data).or (.str (js "Failed to create user. Please try again.")) := by
  cases data with
  | none => rfl
  | some d => rfl

theorem or_of_nonempty_str (m : JSString) (hm : m ≠ []) (fallback : JSValue) :
    (JSValue.str m).or fallback = .str m := by
  cases m with
  | nil => exact absurd rfl hm
  | cons c cs => rfl

theorem or_of_falsy (v fallback : JSValue) (hv : v.truthy = false) : v.or fallback = fallback := by
  unfold JSValue.or
  rw [hv]
  rfl

/-- C15 (code evaluated at the failing input): the ticket POST resolves with
`{ success: false, message: "Email already exists" }`; `handleCreateTicket`
ends with an empty error, the confirmation "Ticket created successfully!" and
all four fields cleared. -/
theorem handleCreateTicket_ignores_refusal :
    refusalEnv.http (ticketRequest (js "/api/tickets") refusalEnv filledTicket) =
        .resolved (some { success := .bool false, message := .str (js "Email already exists") }) ∧
      handleCreateTicket (js "/api/tickets") refusalEnv filledTicket =
        ({ subject := [], issue := [], category := [], priority := [], error := .str [],
           success := js "Ticket created successfully!" },
          [.request (ticketRequest (js "/api/tickets") refusalEnv filledTicket),
            .timer 5000 .clearSuccess]) := by
  constructor
  · rfl
  · decide

/-- C16 (code evaluated at the failing input): the user POST resolves with
`{ success: false, message: "Email already exists" }`; `handleSubmit` ends
with `errors.submit` equal to the generic text, not to the server's message. -/
theorem handleSubmit_drops_server_message :
    (validateForm validDraft).2 = true ∧
      refusalEnv.http (userRequest (js "/api/users") refusalEnv { formData := validDraft }) =
        .resolved (some { success := .bool false, message := .str (js "Email already exists") }) ∧
      (handleSubmit (js "/api/users") refusalEnv { formData := validDraft }).1.errors.submit =
        .str (js "Failed to create user. Please try again.") ∧
      (handleSubmit (js "/api/users") refusalEnv { formData := validDraft }).1.errors.submit ≠
        .str (js "Email already exists") := by
  refine ⟨by decide, rfl, by decide, by decide⟩

/-- C17: when the POST of a creation form is rejected, the error shown is the
non-empty message of the error response when it carries one, and the generic
fallback when it carries none.  The two forms are independent: the first part
speaks of any rejected ticket POST (`error`, fallback "Error creating
ticket."), the second of any rejected user POST (`errors.submit`, fallback
"Failed to create user. Please try again."). -/
theorem rejected_post_message :
    (∀ (api : JSString) (env : Env) (ticket : TicketState) (data : Option ResponseData),
      tokenMissing env.userToken = false →
      (ticket.subject ≠ [] ∧ ticket.issue ≠ [] ∧ ticket.category ≠ [] ∧
        ticket.priority ≠ []) →
      env.http (ticketRequest api env ticket) = .rejected data →
      (∀ m, m ≠ [] → rejectionMessage data = .str m →
        (handleCreateTicket api env ticket).1.error = .str m) ∧
      ((rejectionMessage data).truthy = false →
        (handleCreateTicket api env ticket).1.error = .str (js "Error creating ticket."))) ∧
    (∀ (api : JSString) (env : Env) (user : CreateUserState) (data : Option ResponseData),
      tokenMissing env.userToken = false →
      (validateForm user.formData).2 = true →
      env.http (userRequest api env user) = .rejected data →
      (∀ m, m ≠ [] → rejectionMessage data = .str m →
        (handleSubmit api env user).1.errors.submit = .str m) ∧
      ((rejectionMessage data).truthy = false →
        (handleSubmit api env user).1.errors.submit =
          .str (js "Failed to create user. Please try again."))) := by
  constructor
  · intro api env ticket data htoken hfields hticket
    rw [handleCreateTicket_of_rejected api env ticket data hfields htoken hticket]
    constructor
    · intro m hm hmsg
      rw [hmsg]
      exact or_of_nonempty_str m hm _
    · intro hnone
      exact or_of_falsy _ _ hnone
  · intro api env user data htoken hvalid huser
    rw [handleSubmit_of_rejected api env user data hvalid htoken huser]
    simp only [submitCatch_submit]
    constructor
    · intro m hm hmsg
      rw [hmsg]
      exact or_of_nonempty_str m hm _
    · intro hnone
      exact or_of_falsy _ _ hnone

/-- Witness of C17: each form on its own, with an error response carrying
"Quota exceeded" and with a network error carrying no response. -/
theorem rejected_post_message_witness :
    (handleCreateTicket (js "/api/tickets") rejectionEnv filledTicket).1.error =
        .str (js "Quota exceeded") ∧
      (handleSubmit (js "/api/users") rejectionEnv { formData := validDraft }).1.errors.submit =
        .str (js "Quota exceeded") ∧
      (handleCreateTicket (js "/api/tickets") networkErrorEnv filledTicket).1.error =
        .str (js "Error creating ticket.") ∧
      (handleSubmit (js "/api/users") networkErrorEnv
        { formData := validDraft }).1.errors.submit =
        .str (js "Failed to create user. Please try again.") :=
  ⟨(rejected_post_message.1 (js "/api/tickets") rejectionEnv filledTicket _ rfl (by decide)
      rfl).1 (js "Quota exceeded") (by decide) rfl,
    (rejected_post_message.2 (js "/api/users") rejectionEnv { formData := validDraft } _ rfl
      (by decide) rfl).1 (js "Quota exceeded") (by decide) rfl,
    (rejected_post_message.1 (js "/api/tickets") networkErrorEnv filledTicket _ rfl (by decide)
      rfl).2 rfl,
    (rejected_post_message.2 (js "/api/users") networkErrorEnv { formData := validDraft } _ rfl
      (by decide) rfl).2 rfl⟩

/-- C18: for a ticket draft with all four fields non-empty and a stored token,
when the POST resolves `handleCreateTicket` ends with `success` = "Ticket
created successfully!", `error` = "" and the four fields reset to "". -/
theorem handleCreateTicket_success (api : JSString) (env : Env) (st : TicketState)
    (data : Option ResponseData)
    (hfields : st.subject ≠ [] ∧ st.issue ≠ [] ∧ st.category ≠ [] ∧ st.priority ≠ [])
    (htoken : tokenMissing env.userToken = false)
    (hpost : env.http (ticketRequest api env st) = .resolved data) :
    (handleCreateTicket api env st).1.success = js "Ticket created successfully!" ∧
      (handleCreateTicket api env st).1.error = .str [] ∧
      (handleCreateTicket api env st).1.subject = [] ∧
      (handleCreateTicket api env st).1.issue = [] ∧
      (handleCreateTicket api env st).1.category = [] ∧
      (handleCreateTicket api env st).1.priority = [] := by
  rw [handleCreateTicket_of_resolved api env st data hfields htoken hpost]
  exact ⟨rfl, rfl, rfl, rfl, rfl, rfl⟩

/-- Witness of C18: the filled-in ticket submitted with a token to a server
that answers `{ success: true }`. -/
theorem handleCreateTicket_success_witness :
    tokenMissing successEnv.userToken = false ∧
      (handleCreateTicket (js "/api/tickets") successEnv filledTicket).1 =
        { success := js "Ticket created successfully!" } :=
  have h := handleCreateTicket_success (js "/api/tickets") successEnv filledTicket _
    (by decide) rfl rfl
  ⟨rfl, by
    rcases hr : (handleCreateTicket (js "/api/tickets") successEnv filledTicket).1 with
      ⟨a, b, c, d, e, f⟩
    rw [hr] at h
    obtain ⟨h1, h2, h3, h4, h5, h6⟩ := h
    simp only at h1 h2 h3 h4 h5 h6
    subst h1 h2 h3 h4 h5 h6
    rfl⟩

/-! ## Header: the logged-in flag -/

/-- C19 (as stated, refuted): with an entry for `userToken` whose value is the
empty string, `checkAuthStatus` sets `isLoggedIn` to false, also when the flag
was true before. -/
theorem checkAuthStatus_empty_token :
    (some [] : Option JSString).isSome = true ∧
      (checkAuthStatus (some []) {}).isLoggedIn = false ∧
      (checkAuthStatus (some []) { isLoggedIn := true }).isLoggedIn = false := by
  refine ⟨rfl, rfl, rfl⟩

/-- C19 (amended): after `checkAuthStatus`, `isLoggedIn` is true exactly when
local storage holds an entry for `userToken` with a non-empty value; the
value is not inspected beyond that (any two non-empty values give the same
state), and the rest of the header state is unchanged. -/
theorem checkAuthStatus_logged_in_iff (userToken : Option JSString) (st : HeaderState) :
    ((checkAuthStatus userToken st).isLoggedIn = true ↔
      ∃ t, userToken = some t ∧ t ≠ []) ∧
    (∀ t t' : JSString, t ≠ [] → t' ≠ [] →
      checkAuthStatus (some t) st = checkAuthStatus (some t') st) ∧
    (checkAuthStatus userToken st).mobileMenuOpen = st.mobileMenuOpen := by
  refine ⟨?_, ?_, rfl⟩
  · cases userToken with
    | none => simp [checkAuthStatus]
    | some t => simp [checkAuthStatus, List.isEmpty_iff]
  · intro t t' ht ht'
    cases t with
    | nil => exact absurd rfl ht
    | cons c cs =>
        cases t' with
        | nil => exact absurd rfl ht'
        | cons c' cs' => rfl

/-! ## The user list: records with missing fields -/

/-- C20 (code evaluated at the failing input): the list endpoint returns, with
`success: true`, two records whose e-mail is null; `fetchUsers` stores two
rows with a null e-mail and no error, and then the filter raises a `TypeError`
for the search term "z", as does the sort by e-mail of the two rows. -/
theorem null_email_breaks_filter_and_sort :
    (fetchUsers asciiBuiltins (js "/api/users") nullEmailEnv {}).1.error = .null ∧
      (fetchUsers asciiBuiltins (js "/api/users") nullEmailEnv {}).1.users.map
        (fun u => (u.name, u.email)) =
        [(.str (js "erin"), .null), (.str (js "erin"), .null)] ∧
      filteredUsers asciiBuiltins (fetchUsers asciiBuiltins (js "/api/users") nullEmailEnv {}).1.users
        (js "z") (js "all") (js "all") = none ∧
      sortedUsers asciiBuiltins (js "email") (js "asc")
        (fetchUsers asciiBuiltins (js "/api/users") nullEmailEnv {}).1.users = none := by
  refine ⟨by decide, by decide, by decide, by decide⟩

/-! ## CreateUser: the submitting flag, field edits and the error map -/

theorem handleSubmit_valid_trace (api : JSString) (env : Env) (st : CreateUserState)
    (hvalid : (validateForm st.formData).2 = true) :
    ∃ mid, (handleSubmit api env st).2 =
        .setIsSubmitting true :: mid ++ [.setIsSubmitting false] ∧
      (∀ b, Effect.setIsSubmitting b ∉ mid) ∧
      (handleSubmit api env st).1.isSubmitting = false := by
  unfold handleSubmit
  rcases hv : validateForm st.formData with ⟨errs, ok⟩
  rw [hv] at hvalid
  simp only at hvalid
  subst hvalid
  simp only [if_true]
  by_cases htoken : tokenMissing env.userToken = true
  · simp only [htoken, if_true]
    exact ⟨[], rfl, by simp, by first | rfl | trivial⟩
  · simp only [htoken, if_false]
    generalize env.http _ = outcome
    cases outcome with
    | rejected data => exact ⟨[_], rfl, by simp, by first | rfl | trivial⟩
    | resolved body =>
        cases body with
        | none => exact ⟨[_], rfl, by simp, by first | rfl | trivial⟩
        | some data =>
            by_cases hsuccess : data.success.truthy = true
            · simp only [hsuccess, if_true]
              exact ⟨[_, _], rfl, by simp, by first | rfl | trivial⟩
            · dsimp only
              rw [if_neg hsuccess]
              exact ⟨[_], rfl, by simp, by first | rfl | trivial⟩

/-- C21: when `validateForm` returns true, `handleSubmit` sets `isSubmitting`
to true first, issues its request (if any) after that, sets `isSubmitting` to
false last, and ends with `isSubmitting` false in every outcome; when
`validateForm` returns false it never sets `isSubmitting` and issues no
request. -/
theorem handleSubmit_submitting_flag (api : JSString) (env : Env) (st : CreateUserState) :
    ((validateForm st.formData).2 = true →
      ∃ mid, (handleSubmit api env st).2 =
          .setIsSubmitting true :: mid ++ [.setIsSubmitting false] ∧
        (∀ b, Effect.setIsSubmitting b ∉ mid) ∧
        requestsOf (handleSubmit api env st).2 = requestsOf mid ∧
        (handleSubmit api env st).1.isSubmitting = false) ∧
    ((validateForm st.formData).2 = false →
      (handleSubmit api env st).2 = [] ∧
        (handleSubmit api env st).1.isSubmitting = st.isSubmitting) := by
  constructor
  · intro hvalid
    obtain ⟨mid, htrace, hmid, hflag⟩ := handleSubmit_valid_trace api env st hvalid
    refine ⟨mid, htrace, hmid, ?_, hflag⟩
    rw [htrace]
    simp [requestsOf, List.filterMap_append]
  · intro hinvalid
    rw [handleSubmit_invalid api env st hinvalid]
    exact ⟨rfl, rfl⟩

/-- Witness of C21: the valid draft posted successfully, posted and refused,
and submitted without a token; and the empty draft. -/
theorem handleSubmit_submitting_flag_witness :
    (handleSubmit (js "/api/users") successEnv { formData := validDraft }).2 =
        [.setIsSubmitting true,
          .request (userRequest (js "/api/users") successEnv { formData := validDraft }),
          .timer 500 .announceUserCreated, .setIsSubmitting false] ∧
      (handleSubmit (js "/api/users") refusalEnv { formData := validDraft }).2 =
        [.setIsSubmitting true,
          .request (userRequest (js "/api/users") refusalEnv { formData := validDraft }),
          .setIsSubmitting false] ∧
      (handleSubmit (js "/api/users") noTokenEnv { formData := validDraft }).2 =
        [.setIsSubmitting true, .setIsSubmitting false] ∧
      (handleSubmit (js "/api/users") successEnv { formData := validDraft }).1.isSubmitting =
        false ∧
      (handleSubmit (js "/api/users") successEnv {}).2 = [] :=
  ⟨by decide, by decide, by decide,
    ((handleSubmit_submitting_flag (js "/api/users") successEnv { formData := validDraft }).1
      (by decide)).elim fun _ h => h.2.2.2,
    ((handleSubmit_submitting_flag (js "/api/users") successEnv {}).2 (by decide)).1⟩

/-- C24: `handleChange` sets `formData[name]` to the value and leaves every
other `formData` field unchanged; in the error map it clears the entry for
`name` when one is set (writing null), leaves it as it is otherwise, and
leaves the entries of all other fields, `errors.submit` and `isSubmitting`
unchanged. -/
theorem handleChange_frame (name : FieldName) (value : JSString) (st : CreateUserState) :
    (handleChange name value st).formData.get name = value ∧
    (∀ other, other ≠ name →
      (handleChange name value st).formData.get other = st.formData.get other) ∧
    (∀ other, other ≠ name →
      (handleChange name value st).errors.get other = st.errors.get other) ∧
    ((st.errors.get name).truthy = true →
      (handleChange name value st).errors.get name = .null) ∧
    ((st.errors.get name).truthy = false →
      (handleChange name value st).errors.get name = st.errors.get name) ∧
    (handleChange name value st).errors.submit = st.errors.submit ∧
    (handleChange name value st).isSubmitting = st.isSubmitting := by
  unfold handleChange
  refine ⟨?_, ?_, ?_, ?_, ?_, ?_, ?_⟩
  · split_ifs <;> cases name <;> rfl
  · intro other hne
    split_ifs <;> cases name <;> cases other <;> first | rfl | exact absurd rfl hne
  · intro other hne
    split_ifs <;> cases name <;> cases other <;> first | rfl | exact absurd rfl hne
  · intro h
    rw [if_pos h]
    cases name <;> rfl
  · intro h
    rw [if_neg (by rw [h]; decide)]
  · split_ifs <;> cases name <;> rfl
  · split_ifs <;> rfl

/-- Witness of C24: after a failed validation of the empty draft, typing a
username stores it and clears the username error only. -/
theorem handleChange_frame_witness :
    handleChange .username (js "bob") { errors := (validateForm {}).1 } =
      { formData := { username := js "bob" },
        errors := { username := .null, email := .str (js "Email is required"),
                    password := .str (js "Password is required") } } ∧
    (handleChange .username (js "bob") { errors := (validateForm {}).1 }).errors.get .username =
      .null :=
  ⟨by decide,
    (handleChange_frame .username (js "bob") { errors := (validateForm {}).1 }).2.2.2.1
      (by decide)⟩

theorem validateForm_username_error (formData : FormData) :
    (validateForm formData).1.username =
      if (trim formData.username).isEmpty then .str (js "Username is required")
      else .undefined := by
  unfold validateForm
  split_ifs <;> rfl

theorem validateForm_untouched (formData : FormData) :
    (validateForm formData).1.phone = .undefined ∧
      (validateForm formData).1.role = .undefined ∧
      (validateForm formData).1.department = .undefined ∧
      (validateForm formData).1.submit = .undefined := by
  unfold validateForm
  split_ifs <;> exact ⟨rfl, rfl, rfl, rfl⟩

theorem formErrors_ext (a b : FormErrors) (h1 : a.username = b.username)
    (h2 : a.email = b.email) (h3 : a.phone = b.phone) (h4 : a.password = b.password)
    (h5 : a.confirmPassword = b.confirmPassword) (h6 : a.role = b.role)
    (h7 : a.department = b.department) (h8 : a.submit = b.submit) : a = b := by
  cases a
  cases b
  simp only at h1 h2 h3 h4 h5 h6 h7 h8
  subst h1 h2 h3 h4 h5 h6 h7 h8
  rfl

/-- C28: the error map set by `validateForm` has an entry for username iff the
trimmed username is empty, for email iff the trimmed e-mail is empty or the
e-mail fails the shape check, for password iff the password has fewer than 8
code units, for confirmPassword iff the password differs from its
confirmation, and no other entry; `validateForm` returns true iff the map is
empty. -/
theorem validateForm_error_map (formData : FormData) :
    ((validateForm formData).1.username ≠ .undefined ↔ trim formData.username = []) ∧
    ((validateForm formData).1.email ≠ .undefined ↔
      trim formData.email = [] ∨ ¬ ContainsEmailShape formData.email) ∧
    ((validateForm formData).1.password ≠ .undefined ↔ formData.password.length < 8) ∧
    ((validateForm formData).1.confirmPassword ≠ .undefined ↔
      formData.password ≠ formData.confirmPassword) ∧
    ((validateForm formData).1.phone = .undefined ∧
      (validateForm formData).1.role = .undefined ∧
      (validateForm formData).1.department = .undefined ∧
      (validateForm formData).1.submit = .undefined) ∧
    ((validateForm formData).2 = true ↔ (validateForm formData).1 = {}) := by
  have hu : (validateForm formData).1.username ≠ .undefined ↔ trim formData.username = [] := by
    rw [validateForm_username_error]
    by_cases h : trim formData.username = []
    · simp [h]
    · simp [h, List.isEmpty_iff]
  have he : (validateForm formData).1.email ≠ .undefined ↔
      trim formData.email = [] ∨ ¬ ContainsEmailShape formData.email := by
    rw [validateForm_email_error, ← emailRegex_test_iff]
    by_cases h : trim formData.email = []
    · simp [h]
    · by_cases ht : emailRegex.test formData.email = true
      · simp [h, ht, List.isEmpty_iff]
      · simp [h, ht, List.isEmpty_iff]
  have hp : (validateForm formData).1.password ≠ .undefined ↔ formData.password.length < 8 := by
    rw [validateForm_password_error]
    by_cases hempty : formData.password.isEmpty = true
    · have hlen : formData.password.length < 8 := by
        rw [List.isEmpty_iff.mp hempty]
        decide
      simp [hempty, hlen]
    · by_cases hl : formData.password.length < 8
      · simp [hempty, hl]
      · simp [hempty, hl]
  have hc : (validateForm formData).1.confirmPassword ≠ .undefined ↔
      formData.password ≠ formData.confirmPassword := by
    rw [validateForm_confirm_error]
    by_cases h : formData.password = formData.confirmPassword
    · simp [h]
    · simp [h]
  have hrest := validateForm_untouched formData
  refine ⟨hu, he, hp, hc, hrest, ?_⟩
  rw [validateForm_valid_iff]
  constructor
  · rintro ⟨h1, h2, h3, h4, h5⟩
    apply formErrors_ext
    · exact not_not.mp fun h => h1 (hu.mp h)
    · refine not_not.mp fun h => ?_
      rcases he.mp h with h | h
      · exact h2 h
      · exact h ((emailRegex_test_iff _).mp h3)
    · exact hrest.1
    · exact not_not.mp fun h => absurd (hp.mp h) (by omega)
    · exact not_not.mp fun h => hc.mp h h5
    · exact hrest.2.1
    · exact hrest.2.2.1
    · exact hrest.2.2.2
  · intro hempty
    have e1 : (validateForm formData).1.username = .undefined := by rw [hempty]
    have e2 : (validateForm formData).1.email = .undefined := by rw [hempty]
    have e3 : (validateForm formData).1.password = .undefined := by rw [hempty]
    have e4 : (validateForm formData).1.confirmPassword = .undefined := by rw [hempty]
    have n1 : ¬ trim formData.username = [] := fun h => hu.mpr h e1
    have n2 : ¬ (trim formData.email = [] ∨ ¬ ContainsEmailShape formData.email) :=
      fun h => he.mpr h e2
    have n3 : ¬ formData.password.length < 8 := fun h => hp.mpr h e3
    have n4 : ¬ formData.password ≠ formData.confirmPassword := fun h => hc.mpr h e4
    refine ⟨n1, fun h => n2 (Or.inl h), ?_, by omega, not_not.mp n4⟩
    rw [emailRegex_test_iff]
    exact not_not.mp fun h => n2 (Or.inr h)

/-- C22: the row built from a record has `isVerified` true exactly when the
record's `isverified` is the boolean true or the string "true"; a record whose
status is missing or a string has a row. -/
theorem transformUser_isVerified (B : Builtins) (record : BackendUser) :
    (∀ row, transformUser B record = some row →
      (row.isVerified = true ↔
        record.isverified = .bool true ∨ record.isverified = .str (js "true"))) ∧
    ((record.status.truthy = false ∨ record.status.isStr = true) →
      (transformUser B record).isSome = true) := by
  constructor
  · intro row h
    unfold transformUser at h
    simp only at h
    cases hs : (record.status.or (.str (js "unknown"))).asString with
    | none =>
        rw [hs] at h
        cases h
    | some s =>
        rw [hs] at h
        cases h
        simp only [Bool.or_false, Bool.or_eq_true, decide_eq_true_eq]
        tauto
  · intro h
    unfold transformUser
    simp only
    rcases h with h | h
    · rw [or_of_falsy _ _ h]
      rfl
    · cases hst : record.status with
      | str s =>
          cases s with
          | nil => rfl
          | cons c cs => rfl
      | undefined => rw [hst] at h; cases h
      | null => rw [hst] at h; cases h
      | bool b => rw [hst] at h; cases h
      | num n => rw [hst] at h; cases h

/-- Witness of C22: the flag of the rows built from records whose
`isverified` is true, "true", "True", 1, false and missing. -/
theorem transformUser_isVerified_witness :
    ([JSValue.bool true, .str (js "true"), .str (js "True"), .num 1, .bool false, .undefined,
        .null, .str (js "false")].map fun v =>
      (transformUser asciiBuiltins { isverified := v }).map fun row => row.isVerified) =
      [some true, some true, some false, some false, some false, some false, some false,
        some false] ∧
    (transformUser asciiBuiltins { isverified := .str (js "true") }).isSome = true :=
  ⟨by decide, (transformUser_isVerified asciiBuiltins { isverified := .str (js "true") }).2
    (Or.inl rfl)⟩

/-! ## The user list: status filter and fetch outcomes -/

theorem filteredUsers_of_textFields (B : Builtins) (hnil : B.toLowerCase [] = [])
    (users : List UserRow) (searchTerm filterRole filterStatus : JSString)
    (h : ∀ u ∈ users, u.TextFields) :
    filteredUsers B users searchTerm filterRole filterStatus =
      some (users.filter fun u =>
        decide (SearchCondition B searchTerm u ∧ RoleCondition filterRole u ∧
          StatusCondition filterStatus u)) := by
  unfold filteredUsers
  exact filterThrowing_eq_filter _ _ users fun u hu =>
    filterCallback_of_textFields B hnil searchTerm filterRole filterStatus u (h u hu)

theorem statusCondition_active (user : UserRow) :
    StatusCondition (js "Active") user ↔ user.status = .str (js "active") := by
  have e1 : js "Active" ≠ js "all" := by decide
  have e2 : js "Active" ≠ js "Restricted" := by decide
  unfold StatusCondition
  constructor
  · rintro (h | ⟨-, h⟩ | ⟨h, -⟩)
    · exact absurd h e1
    · exact h
    · exact absurd h e2
  · intro h
    exact Or.inr (Or.inl ⟨rfl, h⟩)

theorem statusCondition_restricted (user : UserRow) :
    StatusCondition (js "Restricted") user ↔ user.status = .str (js "restricted") := by
  have e1 : js "Restricted" ≠ js "all" := by decide
  have e2 : js "Restricted" ≠ js "Active" := by decide
  unfold StatusCondition
  constructor
  · rintro (h | ⟨h, -⟩ | ⟨-, h⟩)
    · exact absurd h e1
    · exact absurd h e2
    · exact h
  · intro h
    exact Or.inr (Or.inr ⟨rfl, h⟩)

/-- The status filter on rows with text fields.  For rows whose name and
e-mail are strings, `filteredUsers` with `filterStatus` "Active" is the list of the search- and role-matching rows whose status is
"active", with "Restricted" the list of those whose status is "restricted";
no row is in both; and a row whose status is neither is in `filteredUsers`
only when `filterStatus` is "all". -/
theorem filteredUsers_status_partition (B : Builtins) (hnil : B.toLowerCase [] = [])
    (users : List UserRow) (searchTerm filterRole : JSString)
    (h : ∀ u ∈ users, u.TextFields) :
    filteredUsers B users searchTerm filterRole (js "Active") =
      some (users.filter fun u =>
        decide (SearchCondition B searchTerm u ∧ RoleCondition filterRole u ∧
          u.status = .str (js "active"))) ∧
    filteredUsers B users searchTerm filterRole (js "Restricted") =
      some (users.filter fun u =>
        decide (SearchCondition B searchTerm u ∧ RoleCondition filterRole u ∧
          u.status = .str (js "restricted"))) ∧
    (∀ u,
      u ∈ (users.filter fun u =>
        decide (SearchCondition B searchTerm u ∧ RoleCondition filterRole u ∧
          u.status = .str (js "active"))) →
      u ∉ (users.filter fun u =>
        decide (SearchCondition B searchTerm u ∧ RoleCondition filterRole u ∧
          u.status = .str (js "restricted")))) ∧
    (∀ filterStatus shown u,
      filteredUsers B users searchTerm filterRole filterStatus = some shown → u ∈ shown →
      u.status ≠ .str (js "active") → u.status ≠ .str (js "restricted") →
      filterStatus = js "all") := by
  have hne : (JSValue.str (js "active")) ≠ .str (js "restricted") := by decide
  refine ⟨?_, ?_, ?_, ?_⟩
  · rw [filteredUsers_of_textFields B hnil users searchTerm filterRole _ h]
    simp only [statusCondition_active]
  · rw [filteredUsers_of_textFields B hnil users searchTerm filterRole _ h]
    simp only [statusCondition_restricted]
  · intro u h1 h2
    simp only [List.mem_filter, decide_eq_true_eq] at h1 h2
    exact hne (h1.2.2.2.symm.trans h2.2.2.2)
  · intro filterStatus shown u hshown hu h1 h2
    rw [filteredUsers_of_textFields B hnil users searchTerm filterRole _ h] at hshown
    cases hshown
    simp only [List.mem_filter, decide_eq_true_eq] at hu
    rcases hu.2.2.2 with hall | ⟨-, hs⟩ | ⟨-, hs⟩
    · exact hall
    · exact absurd hs h1
    · exact absurd hs h2

/-- The sample rows (active, restricted, active) under the two status
filters. -/
theorem filteredUsers_status_partition_witness :
    (∀ u ∈ sampleRows, u.TextFields) ∧
      (filteredUsers asciiBuiltins sampleRows [] (js "all") (js "Active")).map
        (List.map fun u => u.id) = some [.num 1, .num 3] ∧
      (filteredUsers asciiBuiltins sampleRows [] (js "all") (js "Restricted")).map
        (List.map fun u => u.id) = some [.num 2] ∧
      filteredUsers asciiBuiltins sampleRows [] (js "all") (js "Active") =
        some (sampleRows.filter fun u =>
          decide (SearchCondition asciiBuiltins [] u ∧ RoleCondition (js "all") u ∧
            u.status = .str (js "active"))) :=
  ⟨by decide, by decide, by decide,
    (filteredUsers_status_partition asciiBuiltins rfl sampleRows [] (js "all")
      (by decide)).1⟩

/-- C25 (code evaluated at the failing input): the list endpoint returns, with
`success: true`, a record named "zed" and a record named "erin" whose e-mail
is null, both with status "active".  The first row matches the search term
"z" and every role; with `filterStatus` "Active" the filter raises a
`TypeError` on the second row, so that there is no `filteredUsers` in which
the first row is listed, and with "Restricted" it raises it too. -/
theorem status_filter_throws_on_null_email :
    mixedEmailRows.map (fun u => (u.name, u.email, u.status)) =
        [(.str (js "zed"), .str (js "zed@x.co"), .str (js "active")),
          (.str (js "erin"), .null, .str (js "active"))] ∧
      (mixedEmailRows.filter fun u =>
        decide (SearchCondition asciiBuiltins (js "z") u ∧ RoleCondition (js "all") u ∧
          u.status = .str (js "active"))).map (fun u => u.name) = [.str (js "zed")] ∧
      filteredUsers asciiBuiltins mixedEmailRows (js "z") (js "all") (js "Active") = none ∧
      filteredUsers asciiBuiltins mixedEmailRows (js "z") (js "all") (js "Restricted") =
        none := by
  refine ⟨by decide, by decide, by decide, by decide⟩

theorem mapThrowing_forall₂ {α β : Type} (f : α → Option β) (l : List α) (rs : List β)
    (h : mapThrowing f l = some rs) : List.Forall₂ (fun a b => f a = some b) l rs := by
  induction l generalizing rs with
  | nil =>
      cases h
      exact List.Forall₂.nil
  | cons a as ih =>
      unfold mapThrowing at h
      cases hf : f a with
      | none =>
          rw [hf] at h
          cases h
      | some b =>
          rw [hf] at h
          cases hrest : mapThrowing f as with
          | none =>
              rw [hrest] at h
              cases h
          | some bs =>
              rw [hrest] at h
              cases h
              exact List.Forall₂.cons hf (ih bs hrest)

theorem mapThrowing_isSome {α β : Type} (f : α → Option β) (l : List α)
    (h : ∀ a ∈ l, (f a).isSome = true) : ∃ rs, mapThrowing f l = some rs := by
  induction l with
  | nil => exact ⟨[], rfl⟩
  | cons a as ih =>
      obtain ⟨b, hb⟩ := Option.isSome_iff_exists.mp (h a (List.mem_cons_self a as))
      obtain ⟨bs, hbs⟩ := ih fun x hx => h x (List.mem_cons_of_mem a hx)
      exact ⟨b :: bs, by simp only [mapThrowing, hb, hbs]⟩

theorem transformUser_isSome (B : Builtins) (record : BackendUser)
    (h : record.status.truthy = false ∨ record.status.isStr = true) :
    (transformUser B record).isSome = true := by
  unfold transformUser
  simp only
  rcases h with h | h
  · rw [or_of_falsy _ _ h]
    rfl
  · cases hst : record.status with
    | str s =>
        cases s with
        | nil => rfl
        | cons c cs => rfl
    | undefined => rw [hst] at h; cases h
    | null => rw [hst] at h; cases h
    | bool b => rw [hst] at h; cases h
    | num n => rw [hst] at h; cases h

theorem transformUser_id (B : Builtins) (record : BackendUser) (row : UserRow)
    (h : transformUser B record = some row) : row.id = record.user_id := by
  unfold transformUser at h
  simp only at h
  cases hs : (record.status.or (.str (js "unknown"))).asString with
  | none =>
      rw [hs] at h
      cases h
  | some s =>
      rw [hs] at h
      cases h
      rfl

theorem map_id_of_forall₂ (B : Builtins) (records : List BackendUser) (rows : List UserRow)
    (h : List.Forall₂ (fun record row => transformUser B record = some row) records rows) :
    rows.map (fun row => row.id) = records.map fun record => record.user_id := by
  induction h with
  | nil => rfl
  | cons hrow _ ih =>
      simp only [List.map_cons, ih, transformUser_id B _ _ hrow]

theorem fetchUsers_loading (B : Builtins) (api : JSString) (env : Env) (st : ViewUsersState) :
    (fetchUsers B api env st).1.loading = false := by
  unfold fetchUsers
  by_cases htoken : tokenMissing env.userToken = true
  · simp only [htoken, if_true]
  · have ht : tokenMissing env.userToken = false := by simpa using htoken
    simp only [ht, Bool.false_eq_true, if_false]
    generalize env.http _ = outcome
    cases outcome with
    | rejected data => rfl
    | resolved body =>
        cases body with
        | none => rfl
        | some data =>
            dsimp only
            by_cases hsuccess : data.success.truthy = true
            · rw [if_pos hsuccess]
              cases data.users with
              | none => rfl
              | some records =>
                  dsimp only
                  cases mapThrowing (transformUser B) records <;> rfl
            · rw [if_neg hsuccess]

theorem fetchUsers_of_rejected (B : Builtins) (api : JSString) (env : Env)
    (st : ViewUsersState) (data : Option ResponseData)
    (htoken : tokenMissing env.userToken = false)
    (hget : env.http (listRequest api env) = .rejected data) :
    (fetchUsers B api env st).1 = { st with error := fetchCatch data, loading := false } := by
  unfold fetchUsers
  unfold listRequest at hget
  simp only [htoken, Bool.false_eq_true, if_false, hget]

theorem fetchUsers_of_refused (B : Builtins) (api : JSString) (env : Env)
    (st : ViewUsersState) (data : ResponseData)
    (htoken : tokenMissing env.userToken = false)
    (hget : env.http (listRequest api env) = .resolved (some data))
    (hsuccess : data.success.truthy = false) :
    (fetchUsers B api env st).1 =
      { st with
          error := .str (js "Failed to fetch users: " ++
            (data.message.or (.str (js "Unknown error"))).toJSString),
          loading := false } := by
  unfold fetchUsers
  unfold listRequest at hget
  simp only [htoken, Bool.false_eq_true, if_false, hget, hsuccess]

theorem fetchUsers_of_success (B : Builtins) (api : JSString) (env : Env)
    (st : ViewUsersState) (data : ResponseData) (records : List BackendUser)
    (rows : List UserRow) (htoken : tokenMissing env.userToken = false)
    (hget : env.http (listRequest api env) = .resolved (some data))
    (hsuccess : data.success.truthy = true) (husers : data.users = some records)
    (hrows : mapThrowing (transformUser B) records = some rows) :
    (fetchUsers B api env st).1 =
      { st with users := rows, error := .null, loading := false } := by
  unfold fetchUsers
  unfold listRequest at hget
  simp only [htoken, Bool.false_eq_true, if_false, hget, hsuccess, if_true, husers, hrows]

theorem fetchCatch_message (data : Option ResponseData)
    (h : (rejectionMessage data).truthy = false ∨ (rejectionMessage data).isStr = true) :
    ∃ m, m ≠ [] ∧ fetchCatch data = .str m := by
  have hm : fetchCatch data = (rejectionMessage data).or (.str (js "Failed to fetch users")) := by
    cases data <;> rfl
  rw [hm]
  rcases h with h | h
  · rw [or_of_falsy _ _ h]
    exact ⟨js "Failed to fetch users", by decide, rfl⟩
  · cases hv : rejectionMessage data with
    | str s =>
        cases s with
        | nil => exact ⟨js "Failed to fetch users", by decide, rfl⟩
        | cons c cs => exact ⟨c :: cs, by simp, rfl⟩
    | undefined => rw [hv] at h; cases h
    | null => rw [hv] at h; cases h
    | bool b => rw [hv] at h; cases h
    | num n => rw [hv] at h; cases h

/-- Outcomes of `fetchUsers` on well-typed responses.  It always ends with
`loading` false.  Without a token,
after a failed request (whose message, if any, is a string) and after a
response with a falsy `success`, the users list is unchanged and `error` is a
non-empty string.  After a response with a truthy `success` and a list of
records (whose statuses are missing or strings), the users list has one row
per record in the same order, each the transformation of its record (row id =
record `user_id`), and `error` is null. -/
theorem fetchUsers_outcomes (B : Builtins) (api : JSString) (env : Env) (st : ViewUsersState) :
    (fetchUsers B api env st).1.loading = false ∧
    (tokenMissing env.userToken = true →
      (fetchUsers B api env st).1.users = st.users ∧
        (fetchUsers B api env st).1.error =
          .str (js "Authentication token is missing. Please log in again.")) ∧
    (tokenMissing env.userToken = false → ∀ data,
      env.http (listRequest api env) = .rejected data →
      ((rejectionMessage data).truthy = false ∨ (rejectionMessage data).isStr = true) →
      (fetchUsers B api env st).1.users = st.users ∧
        ∃ m, m ≠ [] ∧ (fetchUsers B api env st).1.error = .str m) ∧
    (tokenMissing env.userToken = false → ∀ data,
      env.http (listRequest api env) = .resolved (some data) → data.success.truthy = false →
      (fetchUsers B api env st).1.users = st.users ∧
        ∃ m, m ≠ [] ∧ (fetchUsers B api env st).1.error = .str m) ∧
    (tokenMissing env.userToken = false → ∀ data records,
      env.http (listRequest api env) = .resolved (some data) → data.success.truthy = true →
      data.users = some records →
      (∀ r ∈ records, r.status.truthy = false ∨ r.status.isStr = true) →
      List.Forall₂ (fun record row => transformUser B record = some row) records
          (fetchUsers B api env st).1.users ∧
        (fetchUsers B api env st).1.users.map (fun row => row.id) =
          records.map (fun record => record.user_id) ∧
        (fetchUsers B api env st).1.error = .null) := by
  refine ⟨fetchUsers_loading B api env st, ?_, ?_, ?_, ?_⟩
  · intro htoken
    rw [fetchUsers_no_token B api env st htoken]
    exact ⟨rfl, rfl⟩
  · intro htoken data hget hmessage
    rw [fetchUsers_of_rejected B api env st data htoken hget]
    exact ⟨rfl, fetchCatch_message data hmessage⟩
  · intro htoken data hget hsuccess
    rw [fetchUsers_of_refused B api env st data htoken hget hsuccess]
    refine ⟨rfl, _, ?_, rfl⟩
    intro h
    have := congrArg List.length h
    simp [js] at this
  · intro htoken data records hget hsuccess husers hstatus
    obtain ⟨rows, hrows⟩ := mapThrowing_isSome (transformUser B) records
      fun r hr => transformUser_isSome B r (hstatus r hr)
    rw [fetchUsers_of_success B api env st data records rows htoken hget hsuccess husers hrows]
    have hall := mapThrowing_forall₂ _ _ _ hrows
    exact ⟨hall, map_id_of_forall₂ B records rows hall, rfl⟩

/-- The list fetch without a token, refused, failing without a response, and
succeeding with one record, from a state that holds the sample rows. -/
theorem fetchUsers_outcomes_witness :
    (fetchUsers asciiBuiltins (js "/api/users") noTokenEnv { users := sampleRows }).1 =
        { users := sampleRows, loading := false,
          error := .str (js "Authentication token is missing. Please log in again.") } ∧
      (fetchUsers asciiBuiltins (js "/api/users") refusalEnv { users := sampleRows }).1 =
        { users := sampleRows, loading := false,
          error := .str (js "Failed to fetch users: Email already exists") } ∧
      (fetchUsers asciiBuiltins (js "/api/users") networkErrorEnv { users := sampleRows }).1 =
        { users := sampleRows, loading := false, error := .str (js "Failed to fetch users") } ∧
      (fetchUsers asciiBuiltins (js "/api/users") listEnv { users := sampleRows }).1.users.map
        (fun row => row.id) = [.num 5] ∧
      (fetchUsers asciiBuiltins (js "/api/users") listEnv { users := sampleRows }).1.error =
        .null :=
  have h := fetchUsers_outcomes asciiBuiltins (js "/api/users") listEnv { users := sampleRows }
  ⟨by decide, by decide, by decide,
    (h.2.2.2.2 rfl _ [departmentRecord] rfl rfl rfl (by decide)).2.1,
    (h.2.2.2.2 rfl _ [departmentRecord] rfl rfl rfl (by decide)).2.2⟩

/-- C29 (code evaluated at the failing input): the list endpoint returns
`{ success: true, users: [{ user_id: 1, username: "a", email: "a@x.co",
status: 1 }] }`.  The transformation raises a `TypeError` on the status, which
is not a string; `fetchUsers` keeps the old users list and ends with the
error "Failed to fetch users", not with one row for the record and a null
error. -/
theorem fetchUsers_numeric_status :
    tokenMissing numericStatusEnv.userToken = false ∧
      numericStatusEnv.http (listRequest (js "/api/users") numericStatusEnv) =
        .resolved (some { success := .bool true, users := some [numericStatusRecord] }) ∧
      transformUser asciiBuiltins numericStatusRecord = none ∧
      (fetchUsers asciiBuiltins (js "/api/users") numericStatusEnv { users := sampleRows }).1 =
        { users := sampleRows, loading := false,
          error := .str (js "Failed to fetch users") } := by
  refine ⟨by decide, rfl, by decide, by decide⟩

/-! ## The user list: defaults of the transformation -/

theorem transformUser_eq (B : Builtins) (record : BackendUser) (row : UserRow)
    (h : transformUser B record = some row) :
    ∃ s, (record.status.or (.str (js "unknown"))) = .str s ∧
      row =
        { id := record.user_id
          name := record.username.or (.str (js "Unknown"))
          email := record.email
          role := record.role.or (.str (js "user"))
          created_at := record.created_at
          status := .str s
          displayStatus := B.toUpperCase (s.take 1) ++ s.drop 1
          isVerified :=
            decide (record.isverified = .str (js "true")) ||
              decide (record.isverified = .bool true) || false } := by
  unfold transformUser at h
  simp only at h
  cases hst : record.status.or (.str (js "unknown")) with
  | str s =>
      rw [hst] at h
      simp only [JSValue.asString] at h
      cases h
      exact ⟨s, rfl, rfl⟩
  | undefined => rw [hst] at h; cases h
  | null => rw [hst] at h; cases h
  | bool b => rw [hst] at h; cases h
  | num n => rw [hst] at h; cases h

/-- C23 (as stated, refuted): for the status "ßeta" the row keeps the status
and `displayStatus` is "SSeta": upper-casing the first character yields two
code units, so `displayStatus` is one longer than the status. -/
theorem displayStatus_longer_than_status :
    (transformUser unicodeSampleBuiltins sharpStatusRecord).map
        (fun row => (row.status, row.displayStatus)) =
        some (.str [0xDF, 0x65, 0x74, 0x61], [0x53, 0x53, 0x65, 0x74, 0x61]) ∧
      (transformUser unicodeSampleBuiltins sharpStatusRecord).map
        (fun row => row.displayStatus.length) = some 5 ∧
      ([0xDF, 0x65, 0x74, 0x61] : JSString).length = 4 := by
  refine ⟨by decide, by decide, rfl⟩

/-- C23 (amended): the row's status is the record's status when that is a
non-empty string and "unknown" when it is missing or empty; `displayStatus`
is the upper-cased first code unit of the status followed by the rest of the
status unchanged, and has the length of the status whenever that upper-casing
yields one code unit; the name defaults to "Unknown" and the role to "user"
when missing. -/
theorem transformUser_defaults (B : Builtins) (record : BackendUser) (row : UserRow)
    (h : transformUser B record = some row) :
    (∀ s, s ≠ [] → record.status = .str s → row.status = .str s) ∧
    (record.status.truthy = false → row.status = .str (js "unknown")) ∧
    (∀ s, row.status = .str s →
      s ≠ [] ∧ row.displayStatus = B.toUpperCase (s.take 1) ++ s.drop 1 ∧
        ((B.toUpperCase (s.take 1)).length = 1 → row.displayStatus.length = s.length)) ∧
    (record.username.truthy = false → row.name = .str (js "Unknown")) ∧
    (record.username.truthy = true → row.name = record.username) ∧
    (record.role.truthy = false → row.role = .str (js "user")) ∧
    (record.role.truthy = true → row.role = record.role) := by
  obtain ⟨s, hs, rfl⟩ := transformUser_eq B record row h
  have hne : s ≠ [] := by
    rintro rfl
    unfold JSValue.or at hs
    split_ifs at hs with ht
    · rw [hs] at ht
      cases ht
    · cases hs
  refine ⟨?_, ?_, ?_, ?_, ?_, ?_, ?_⟩
  · intro t ht hrec
    rw [hrec, or_of_nonempty_str t ht] at hs
    exact hs.symm
  · intro hfalsy
    rw [or_of_falsy _ _ hfalsy] at hs
    exact hs.symm
  · intro t ht
    simp only [JSValue.str.injEq] at ht
    subst ht
    refine ⟨hne, rfl, ?_⟩
    intro hone
    cases s with
    | nil => exact absurd rfl hne
    | cons c cs =>
        simp only [List.length_append, hone, List.drop_succ_cons, List.drop_zero,
          List.length_cons]
        omega
  · intro hfalsy
    exact or_of_falsy _ _ hfalsy
  · intro htruthy
    simp only [JSValue.or, htruthy, if_true]
  · intro hfalsy
    exact or_of_falsy _ _ hfalsy
  · intro htruthy
    simp only [JSValue.or, htruthy, if_true]

/-- Witness of C23 (amended): the row of the empty record, and of a record
with status "restricted". -/
theorem transformUser_defaults_witness :
    transformUser asciiBuiltins {} =
        some { name := .str (js "Unknown"), role := .str (js "user"),
               status := .str (js "unknown"), displayStatus := js "Unknown" } ∧
      (transformUser asciiBuiltins { status := .str (js "restricted") }).map
        (fun row => row.displayStatus) = some (js "Restricted") ∧
      ({ name := .str (js "Unknown"), role := .str (js "user"),
         status := .str (js "unknown"), displayStatus := js "Unknown" } : UserRow).role =
        .str (js "user") :=
  ⟨by decide, by decide,
    (transformUser_defaults asciiBuiltins {} _ (by decide)).2.2.2.2.2.1 rfl⟩

/-! ## The user list: stability of the sort -/

theorem sortInsert_sublist {α : Type} (cmp : α → α → Option JSNum) (x : α) (ys r : List α)
    (h : sortInsert cmp x ys = some r) : List.Sublist ys r := by
  induction ys generalizing r with
  | nil => exact List.nil_sublist r
  | cons y ys ih =>
      unfold sortInsert at h
      cases hc : cmp x y with
      | none =>
          rw [hc] at h
          cases h
      | some v =>
          rw [hc] at h
          dsimp only at h
          by_cases hv : v.sortValue ≤ 0
          · rw [if_pos hv] at h
            cases h
            exact List.sublist_cons_self x (y :: ys)
          · rw [if_neg hv] at h
            cases hrest : sortInsert cmp x ys with
            | none =>
                rw [hrest] at h
                cases h
            | some r' =>
                rw [hrest] at h
                cases h
                exact (ih r' hrest).cons₂ y

theorem sortInsert_mem_self {α : Type} (cmp : α → α → Option JSNum) (x : α) (ys r : List α)
    (h : sortInsert cmp x ys = some r) : x ∈ r := by
  induction ys generalizing r with
  | nil =>
      cases h
      exact List.mem_singleton.mpr rfl
  | cons y ys ih =>
      unfold sortInsert at h
      cases hc : cmp x y with
      | none =>
          rw [hc] at h
          cases h
      | some v =>
          rw [hc] at h
          dsimp only at h
          by_cases hv : v.sortValue ≤ 0
          · rw [if_pos hv] at h
            cases h
            exact List.mem_cons_self _ _
          · rw [if_neg hv] at h
            cases hrest : sortInsert cmp x ys with
            | none =>
                rw [hrest] at h
                cases h
            | some r' =>
                rw [hrest] at h
                cases h
                exact List.mem_cons_of_mem y (ih r' hrest)

theorem sortInsert_pair {α : Type} (cmp : α → α → Option JSNum) (x b : α) (ys r : List α)
    (v : JSNum) (h : sortInsert cmp x ys = some r) (hb : b ∈ ys) (hcmp : cmp x b = some v)
    (hv : v.sortValue ≤ 0) : List.Sublist [x, b] r := by
  induction ys generalizing r with
  | nil => cases hb
  | cons y ys ih =>
      unfold sortInsert at h
      cases hc : cmp x y with
      | none =>
          rw [hc] at h
          cases h
      | some w =>
          rw [hc] at h
          dsimp only at h
          by_cases hw : w.sortValue ≤ 0
          · rw [if_pos hw] at h
            cases h
            exact (List.singleton_sublist.mpr hb).cons₂ x
          · rw [if_neg hw] at h
            cases hrest : sortInsert cmp x ys with
            | none =>
                rw [hrest] at h
                cases h
            | some r' =>
                rw [hrest] at h
                cases h
                rcases List.mem_cons.mp hb with hby | hb'
                · subst hby
                  rw [hcmp] at hc
                  cases hc
                  exact absurd hv hw
                · exact (ih r' hrest hb').cons y

theorem arraySort_mem {α : Type} (cmp : α → α → Option JSNum) (l sorted : List α)
    (h : arraySort cmp l = some sorted) (b : α) (hb : b ∈ l) : b ∈ sorted := by
  induction l generalizing sorted with
  | nil => cases hb
  | cons x xs ih =>
      unfold arraySort at h
      cases hrest : arraySort cmp xs with
      | none =>
          rw [hrest] at h
          cases h
      | some s =>
          rw [hrest] at h
          dsimp only at h
          rcases List.mem_cons.mp hb with rfl | hb'
          · exact sortInsert_mem_self cmp b s sorted h
          · exact (sortInsert_sublist cmp x s sorted h).subset (ih s hrest hb')

/-- Stability of the insertion sort: two elements in this order in the input,
the first of which the comparator does not put after the second, keep their
order. -/
theorem arraySort_pair {α : Type} (cmp : α → α → Option JSNum) (l sorted : List α) (a b : α)
    (v : JSNum) (h : arraySort cmp l = some sorted) (hab : List.Sublist [a, b] l)
    (hcmp : cmp a b = some v) (hv : v.sortValue ≤ 0) : List.Sublist [a, b] sorted := by
  induction l generalizing sorted with
  | nil => cases hab
  | cons x xs ih =>
      unfold arraySort at h
      cases hrest : arraySort cmp xs with
      | none =>
          rw [hrest] at h
          cases h
      | some s =>
          rw [hrest] at h
          dsimp only at h
          cases hab with
          | cons _ hsub =>
              exact (ih s hrest hsub).trans (sortInsert_sublist cmp x s sorted h)
          | cons₂ _ hsub =>
              have hb : b ∈ s := arraySort_mem cmp xs s hrest b (List.singleton_sublist.mp hsub)
              exact sortInsert_pair cmp a b s sorted v h hb hcmp hv

theorem arraySort_of_zero {α : Type} (cmp : α → α → Option JSNum) (l : List α)
    (h : ∀ a b, cmp a b = some (.int 0)) : arraySort cmp l = some l := by
  induction l with
  | nil => rfl
  | cons x xs ih =>
      unfold arraySort
      rw [ih]
      dsimp only
      cases xs with
      | nil => rfl
      | cons y ys =>
          unfold sortInsert
          rw [h x y]
          rfl

theorem ConsistentComparator.le_of_not_lt {α : Type} {c : α → α → Int}
    (hc : ConsistentComparator c) {a b : α} (h : ¬ c a b < 0) : c b a ≤ 0 := by
  by_contra hlt
  exact h ((hc.antisymm b a).mp (not_le.mp hlt))

theorem ConsistentComparator.not_lt_of_le {α : Type} {c : α → α → Int}
    (hc : ConsistentComparator c) {a b : α} (h : c b a ≤ 0) : ¬ c a b < 0 := by
  intro hlt
  have := (hc.antisymm b a).mpr hlt
  omega

theorem ConsistentComparator.lt_of_lt_of_le {α : Type} {c : α → α → Int}
    (hc : ConsistentComparator c) {a b d : α} (hab : c a b < 0) (hbd : c b d ≤ 0) :
    c a d < 0 := by
  by_contra h
  have hda := hc.le_of_not_lt h
  have hba := hc.trans b d a hbd hda
  exact hc.not_lt_of_le hba hab

theorem ConsistentComparator.lt_of_le_of_lt {α : Type} {c : α → α → Int}
    (hc : ConsistentComparator c) {a b d : α} (hab : c a b ≤ 0) (hbd : c b d < 0) :
    c a d < 0 := by
  by_contra h
  have hda := hc.le_of_not_lt h
  have hdb := hc.trans d a b hda hab
  exact hc.not_lt_of_le hdb hbd

/-- Insertion of `x` before the first element it does not follow commutes with
insertion of `y` before the first element it precedes strictly. -/
theorem orderedInsert_comm {α : Type} (c : α → α → Int) (hc : ConsistentComparator c)
    (x y : α) (l : List α) :
    (l.orderedInsert (fun a b => c a b < 0) y).orderedInsert (fun a b => c a b ≤ 0) x =
      (l.orderedInsert (fun a b => c a b ≤ 0) x).orderedInsert (fun a b => c a b < 0) y := by
  induction l with
  | nil =>
      simp only [List.orderedInsert]
      by_cases h : c x y ≤ 0
      · rw [if_pos h, if_neg (hc.not_lt_of_le h)]
      · rw [if_neg h, if_pos ((hc.antisymm x y).mp (not_le.mp h))]
  | cons e es ih =>
      simp only [List.orderedInsert]
      by_cases hy : c y e < 0 <;> by_cases hx : c x e ≤ 0
      · rw [if_pos hy, if_pos hx]
        simp only [List.orderedInsert]
        rw [if_pos hx, if_pos hy]
        by_cases h : c x y ≤ 0
        · rw [if_pos h, if_neg (hc.not_lt_of_le h)]
        · rw [if_neg h, if_pos ((hc.antisymm x y).mp (not_le.mp h))]
      · rw [if_pos hy, if_neg hx]
        have hxy : ¬ c x y ≤ 0 := fun h => hx (le_of_lt (hc.lt_of_le_of_lt h hy))
        simp only [List.orderedInsert]
        rw [if_neg hxy, if_neg hx, if_pos hy]
      · rw [if_neg hy, if_pos hx]
        have hyx : ¬ c y x < 0 := fun h => hy (hc.lt_of_lt_of_le h hx)
        simp only [List.orderedInsert]
        rw [if_pos hx, if_neg hyx, if_neg hy]
      · rw [if_neg hy, if_neg hx]
        simp only [List.orderedInsert]
        rw [if_neg hx, if_neg hy, ih]

theorem foldl_orderedInsert_comm {α : Type} (c : α → α → Int) (hc : ConsistentComparator c)
    (x : α) (xs acc : List α) :
    xs.foldl (fun s y => s.orderedInsert (fun a b => c a b < 0) y)
        (acc.orderedInsert (fun a b => c a b ≤ 0) x) =
      (xs.foldl (fun s y => s.orderedInsert (fun a b => c a b < 0) y) acc).orderedInsert
        (fun a b => c a b ≤ 0) x := by
  induction xs generalizing acc with
  | nil => rfl
  | cons y ys ih =>
      simp only [List.foldl_cons]
      rw [← orderedInsert_comm c hc, ih]

theorem foldl_orderedInsert_eq_insertionSort {α : Type} (c : α → α → Int)
    (hc : ConsistentComparator c) (l : List α) :
    l.foldl (fun s y => s.orderedInsert (fun a b => c a b < 0) y) [] =
      l.insertionSort (fun a b => c a b ≤ 0) := by
  induction l with
  | nil => rfl
  | cons x xs ih =>
      rw [List.insertionSort, ← ih, ← foldl_orderedInsert_comm c hc]
      simp only [List.foldl_cons, List.orderedInsert]


theorem orderedInsert_eq_take_drop {α : Type} (c : α → α → Int) (x : α) (l : List α) (k : Nat)
    (hleft : ∀ e ∈ l.take k, ¬ c x e < 0) (hright : ∀ e ∈ l.drop k, c x e < 0) :
    l.orderedInsert (fun a b => c a b < 0) x = l.take k ++ x :: l.drop k := by
  induction l generalizing k with
  | nil => simp
  | cons e es ih =>
      cases k with
      | zero =>
          have he : c x e < 0 := hright e (by simp)
          simp only [List.orderedInsert, if_pos he, List.take_zero, List.drop_zero,
            List.nil_append]
      | succ k =>
          have he : ¬ c x e < 0 := hleft e (by simp)
          simp only [List.orderedInsert, if_neg he, List.take_succ_cons, List.drop_succ_cons,
            List.cons_append]
          rw [ih k (fun a ha => hleft a (by simp [ha])) (fun a ha => hright a (by simpa using ha))]

theorem pairwise_orderedInsert_lt {α : Type} (c : α → α → Int) (hc : ConsistentComparator c)
    (x : α) (l : List α) (h : l.Pairwise fun a b => c a b ≤ 0) :
    (l.orderedInsert (fun a b => c a b < 0) x).Pairwise fun a b => c a b ≤ 0 := by
  induction l with
  | nil => simp
  | cons e es ih =>
      obtain ⟨he, hes⟩ := List.pairwise_cons.mp h
      simp only [List.orderedInsert]
      by_cases hx : c x e < 0
      · rw [if_pos hx]
        refine List.pairwise_cons.mpr ⟨?_, h⟩
        intro a ha
        rcases List.mem_cons.mp ha with rfl | ha
        · exact le_of_lt hx
        · exact hc.trans x e a (le_of_lt hx) (he a ha)
      · rw [if_neg hx]
        refine List.pairwise_cons.mpr ⟨?_, ih hes⟩
        intro a ha
        rcases List.mem_cons.mp ((List.perm_orderedInsert _ x es).mem_iff.mp ha) with rfl | ha
        · exact hc.le_of_not_lt hx
        · exact he a ha

/-- The binary search needs at most `right - left` iterations: further steps
do not change its result, whatever the comparator. -/
theorem binarySearch_steps {α : Type} (cmp : α → α → Option JSNum) (pivot : α)
    (workArray : List α) (steps extra left right : Nat) (h : right - left ≤ steps) :
    binarySearch cmp pivot workArray (steps + extra) left right =
      binarySearch cmp pivot workArray steps left right := by
  induction steps generalizing left right with
  | zero =>
      cases extra with
      | zero => rfl
      | succ extra =>
          rw [Nat.zero_add]
          unfold binarySearch
          rw [if_neg (by omega)]
  | succ steps ih =>
      rw [Nat.add_right_comm]
      unfold binarySearch
      by_cases hlt : left < right
      · rw [if_pos hlt, if_pos hlt]
        dsimp only
        cases sortCompare cmp pivot (workArray.getD (left + (right - left) / 2) pivot) with
        | none => rfl
        | some order =>
            dsimp only
            by_cases hord : order < 0
            · rw [if_pos hord, if_pos hord]
              exact ih left _ (by omega)
            · rw [if_neg hord, if_neg hord]
              exact ih _ right (by omega)
      · rw [if_neg hlt, if_neg hlt]

theorem binarySearch_spec {α : Type} (cmp : α → α → Option JSNum) (c : α → α → Int)
    (hc : ConsistentComparator c) (pivot : α) (work : List α)
    (hcmp : ∀ e ∈ work, cmp pivot e = some (.int (c pivot e)))
    (hsorted : work.Pairwise fun a b => c a b ≤ 0) (steps left right : Nat)
    (hsteps : right - left ≤ steps) (hlr : left ≤ right) (hr : right ≤ work.length)
    (hleft : ∀ e ∈ work.take left, ¬ c pivot e < 0)
    (hright : ∀ e ∈ work.drop right, c pivot e < 0) :
    ∃ k, binarySearch cmp pivot work steps left right = some k ∧
      (∀ e ∈ work.take k, ¬ c pivot e < 0) ∧ (∀ e ∈ work.drop k, c pivot e < 0) := by
  induction steps generalizing left right with
  | zero =>
      have : right = left := by omega
      subst this
      exact ⟨right, rfl, hleft, hright⟩
  | succ steps ih =>
      unfold binarySearch
      by_cases hlt : left < right
      · rw [if_pos hlt]
        have hmid : left + (right - left) / 2 < work.length := by omega
        generalize hm : left + (right - left) / 2 = mid at hmid ⊢
        have hmid1 : left ≤ mid := by omega
        have hmid2 : mid < right := by omega
        have hget : work.getD mid pivot = work[mid] := by
          simp [List.getD_eq_getElem?_getD, List.getElem?_eq_getElem hmid]
        have hmem : work[mid] ∈ work := List.getElem_mem hmid
        have hdrop : work.drop mid = work[mid] :: work.drop (mid + 1) :=
          List.drop_eq_getElem_cons hmid
        have htake : work.take (mid + 1) = work.take mid ++ [work[mid]] := by
          rw [List.take_succ, List.getElem?_eq_getElem hmid]
          rfl
        dsimp only
        rw [hget]
        unfold sortCompare
        rw [hcmp _ hmem]
        dsimp only [JSNum.sortValue]
        by_cases hord : c pivot work[mid] < 0
        · rw [if_pos hord]
          apply ih left mid (by omega) hmid1 (le_of_lt hmid) hleft
          intro e he
          rw [hdrop] at he
          rcases List.mem_cons.mp he with rfl | he
          · exact hord
          · have hs : (work.drop mid).Pairwise fun a b => c a b ≤ 0 :=
              hsorted.sublist (List.drop_sublist _ _)
            rw [hdrop] at hs
            exact hc.lt_of_lt_of_le hord (List.rel_of_pairwise_cons hs he)
        · rw [if_neg hord]
          apply ih (mid + 1) right (by omega) (by omega) hr _ hright
          intro e he
          rw [htake] at he
          rcases List.mem_append.mp he with he | he
          · have hs : (work.take (mid + 1)).Pairwise fun a b => c a b ≤ 0 :=
              hsorted.sublist (List.take_sublist _ _)
            rw [htake] at hs
            have hem := (List.pairwise_append.mp hs).2.2 e he work[mid] (by simp)
            exact hc.not_lt_of_le (hc.trans e _ pivot hem (hc.le_of_not_lt hord))
          · rw [List.mem_singleton.mp he]
            exact hord
      · rw [if_neg hlt]
        have : right = left := by omega
        subst this
        exact ⟨right, rfl, hleft, hright⟩

theorem binaryInsertionSort_eq_foldl {α : Type} (cmp : α → α → Option JSNum) (c : α → α → Int)
    (hc : ConsistentComparator c) (sortedStart rest : List α)
    (hcmp : ∀ a ∈ rest, ∀ b ∈ sortedStart ++ rest, cmp a b = some (.int (c a b)))
    (hsorted : sortedStart.Pairwise fun a b => c a b ≤ 0) :
    binaryInsertionSort cmp sortedStart rest =
      some (rest.foldl (fun s y => s.orderedInsert (fun a b => c a b < 0) y) sortedStart) := by
  induction rest generalizing sortedStart with
  | nil => rfl
  | cons pivot rest ih =>
      unfold binaryInsertionSort
      obtain ⟨k, hk, hleft, hright⟩ := binarySearch_spec cmp c hc pivot sortedStart
        (fun e he => hcmp pivot (List.mem_cons_self _ _) e (List.mem_append_left _ he))
        hsorted sortedStart.length 0 sortedStart.length (by omega) (by omega) le_rfl
        (by simp) (by simp)
      rw [hk]
      dsimp only
      rw [← orderedInsert_eq_take_drop c pivot sortedStart k hleft hright, List.foldl_cons]
      apply ih
      · intro a ha b hb
        apply hcmp a (List.mem_cons_of_mem _ ha) b
        rcases List.mem_append.mp hb with hb | hb
        · rcases List.mem_cons.mp ((List.perm_orderedInsert _ pivot sortedStart).mem_iff.mp hb)
            with rfl | hb
          · exact List.mem_append_right _ (List.mem_cons_self _ _)
          · exact List.mem_append_left _ hb
        · exact List.mem_append_right _ (List.mem_cons_of_mem _ hb)
      · exact pairwise_orderedInsert_lt c hc pivot sortedStart hsorted


theorem countRun_spec {α : Type} (cmp : α → α → Option JSNum) (c : α → α → Int)
    (isDescending : Bool) (previousElement : α) (rest : List α)
    (hcmp : ∀ a ∈ previousElement :: rest, ∀ b ∈ previousElement :: rest,
      cmp a b = some (.int (c a b))) :
    ∃ k, countRun cmp isDescending previousElement rest = some k ∧
      List.Chain (fun a b => if isDescending = true then c b a < 0 else ¬ c b a < 0)
        previousElement (rest.take k) := by
  induction rest generalizing previousElement with
  | nil => exact ⟨0, rfl, List.Chain.nil⟩
  | cons cur rest ih =>
      unfold countRun sortCompare
      rw [hcmp cur (by simp) previousElement (by simp)]
      dsimp only [JSNum.sortValue]
      obtain ⟨k, hk, hchain⟩ := ih cur fun a ha b hb =>
        hcmp a (List.mem_cons_of_mem _ ha) b (List.mem_cons_of_mem _ hb)
      by_cases hstop :
          (if isDescending = true then decide (0 ≤ c cur previousElement)
            else decide (c cur previousElement < 0)) = true
      · rw [if_pos hstop]
        exact ⟨0, rfl, List.Chain.nil⟩
      · rw [if_neg hstop, hk]
        refine ⟨k + 1, rfl, ?_⟩
        rw [List.take_succ_cons]
        refine List.Chain.cons ?_ hchain
        cases isDescending with
        | true =>
            simp only [if_true, decide_eq_true_eq] at hstop ⊢
            omega
        | false =>
            simpa using hstop

theorem foldl_orderedInsert_ascending {α : Type} (c : α → α → Int) (hc : ConsistentComparator c)
    (acc run : List α) (h : (acc ++ run).Pairwise fun a b => c a b ≤ 0) :
    run.foldl (fun s y => s.orderedInsert (fun a b => c a b < 0) y) acc = acc ++ run := by
  induction run generalizing acc with
  | nil => simp
  | cons x xs ih =>
      have hx : ∀ e ∈ acc, ¬ c x e < 0 := fun e he =>
        hc.not_lt_of_le ((List.pairwise_append.mp h).2.2 e he x (List.mem_cons_self _ _))
      have hins : acc.orderedInsert (fun a b => c a b < 0) x = acc ++ [x] := by
        rw [orderedInsert_eq_take_drop c x acc acc.length (by simpa using hx) (by simp)]
        simp
      rw [List.foldl_cons, hins, ih (acc ++ [x]) (by simpa using h)]
      simp

theorem foldl_orderedInsert_descending {α : Type} (c : α → α → Int) (acc run : List α)
    (h : (acc.reverse ++ run).Pairwise fun a b => c b a < 0) :
    run.foldl (fun s y => s.orderedInsert (fun a b => c a b < 0) y) acc = run.reverse ++ acc := by
  induction run generalizing acc with
  | nil => simp
  | cons x xs ih =>
      have hx : ∀ e ∈ acc, c x e < 0 := fun e he =>
        (List.pairwise_append.mp h).2.2 e (List.mem_reverse.mpr he) x (List.mem_cons_self _ _)
      have hins : acc.orderedInsert (fun a b => c a b < 0) x = x :: acc := by
        rw [orderedInsert_eq_take_drop c x acc 0 (by simp) (by simpa using hx)]
        simp
      rw [List.foldl_cons, hins, ih (x :: acc) (by simpa using h)]
      simp

/-- With a comparator that never throws and agrees with a consistent integer
comparator on the elements of the list, the sort of V8 returns the stable
sort of the list. -/
theorem arrayTimSort_eq_insertionSort {α : Type} (cmp : α → α → Option JSNum) (c : α → α → Int)
    (hc : ConsistentComparator c) (l : List α)
    (h : ∀ a ∈ l, ∀ b ∈ l, cmp a b = some (.int (c a b))) :
    arrayTimSort cmp l = some (l.insertionSort (fun a b => c a b ≤ 0)) := by
  rw [← foldl_orderedInsert_eq_insertionSort c hc]
  match l, h with
  | [], _ => rfl
  | [a], _ => rfl
  | a0 :: a1 :: rest, h =>
      unfold arrayTimSort countAndMakeRun sortCompare
      dsimp only
      rw [h a1 (by simp) a0 (by simp)]
      dsimp only [JSNum.sortValue]
      obtain ⟨k, hk, hchain⟩ := countRun_spec cmp c (decide (c a1 a0 < 0)) a1 rest
        fun a ha b hb => h a (List.mem_cons_of_mem _ ha) b (List.mem_cons_of_mem _ hb)
      rw [hk]
      dsimp only
      have hsplit : a0 :: a1 :: rest = (a0 :: a1 :: rest.take k) ++ rest.drop k := by
        simp
      have hmem : ∀ a ∈ rest.drop k, ∀ b ∈ (a0 :: a1 :: rest.take k) ++ rest.drop k,
          cmp a b = some (.int (c a b)) := by
        intro a ha b hb
        rw [← hsplit] at hb
        exact h a (List.mem_cons_of_mem _ (List.mem_cons_of_mem _ (List.mem_of_mem_drop ha))) b hb
      rw [hsplit, List.foldl_append]
      by_cases hdesc : c a1 a0 < 0
      · simp only [hdesc, decide_True, if_true] at hchain ⊢
        haveI : IsTrans α (fun a b => c b a < 0) :=
          ⟨fun a b d hab hbd => hc.lt_of_lt_of_le hbd (le_of_lt hab)⟩
        have hpair : (a0 :: a1 :: rest.take k).Pairwise fun a b => c b a < 0 :=
          List.chain'_iff_pairwise.mp (List.Chain.cons hdesc hchain)
        rw [foldl_orderedInsert_descending c [] _ (by simpa using hpair), List.append_nil]
        apply binaryInsertionSort_eq_foldl cmp c hc
        · intro a ha b hb
          apply hmem a ha b
          rcases List.mem_append.mp hb with hb | hb
          · exact List.mem_append_left _ (List.mem_reverse.mp hb)
          · exact List.mem_append_right _ hb
        · exact List.pairwise_reverse.mpr (hpair.imp fun hlt => le_of_lt hlt)
      · simp only [hdesc, decide_False, if_false, Bool.false_eq_true] at hchain ⊢
        haveI : IsTrans α (fun a b => c a b ≤ 0) := ⟨hc.trans⟩
        have hchain2 : List.Chain (fun a b => c a b ≤ 0) a1 (rest.take k) :=
          hchain.imp fun _ _ hnot => hc.le_of_not_lt hnot
        have hpair : (a0 :: a1 :: rest.take k).Pairwise fun a b => c a b ≤ 0 :=
          List.chain'_iff_pairwise.mp (List.Chain.cons (hc.le_of_not_lt hdesc) hchain2)
        rw [foldl_orderedInsert_ascending c hc [] _ (by simpa using hpair), List.nil_append]
        exact binaryInsertionSort_eq_foldl cmp c hc _ _ hmem hpair

/-- With a comparator that never throws and agrees with a consistent integer
comparator on the elements of the list, the sort of V8 and the stable
insertion sort return the same list. -/
theorem arrayTimSort_eq_arraySort {α : Type} (cmp : α → α → Option JSNum) (c : α → α → Int)
    (hc : ConsistentComparator c) (l : List α)
    (h : ∀ a ∈ l, ∀ b ∈ l, cmp a b = some (.int (c a b))) :
    arrayTimSort cmp l = arraySort cmp l := by
  rw [arrayTimSort_eq_insertionSort cmp c hc l h, arraySort_eq_insertionSort cmp c l h]

theorem compareUsers_unrecognised (B : Builtins) (sortBy sortOrder : JSString)
    (h1 : sortBy ≠ js "name") (h2 : sortBy ≠ js "email") (h3 : sortBy ≠ js "department")
    (h4 : sortBy ≠ js "created_at") (h5 : sortBy ≠ js "status") (h6 : sortBy ≠ js "isVerified")
    (a b : UserRow) : compareUsers B sortBy sortOrder a b = some (.int 0) := by
  simp only [compareUsers, h1, h2, h3, h4, h5, h6, if_false]
  split_ifs <;> rfl

theorem consistent_zero {α : Type} : ConsistentComparator fun _ _ : α => (0 : Int) :=
  ⟨fun _ _ => Iff.rfl, fun _ _ _ _ _ => le_rfl⟩

/-- C26 (as stated, refuted): seven rows sorted by `created_at`, of which three
have no `created_at` and the last two have the same instant.  The comparator
returns NaN for a pair with a missing date and 0 for the last two rows, which
stand in this order in the list; the sort of V8 returns the rows in the order
0, 1, 3, 6, 2, 4, 5, the seventh row before the sixth. -/
theorem tied_rows_reordered :
    undatedRows.length < 64 ∧
      List.Sublist [datedRow 5 (.num 1), datedRow 6 (.num 1)] undatedRows ∧
      compareUsers asciiBuiltins (js "created_at") (js "asc") (datedRow 5 (.num 1))
        (datedRow 6 (.num 1)) = some (.int 0) ∧
      compareUsers asciiBuiltins (js "created_at") (js "asc") (datedRow 4 .undefined)
        (datedRow 5 (.num 1)) = some .nan ∧
      sortedUsersV8 asciiBuiltins (js "created_at") (js "asc") undatedRows =
        some [datedRow 0 .undefined, datedRow 1 .undefined, datedRow 3 (.num 1),
          datedRow 6 (.num 1), datedRow 2 (.num 2), datedRow 4 .undefined,
          datedRow 5 (.num 1)] ∧
      ∀ sorted, sortedUsersV8 asciiBuiltins (js "created_at") (js "asc") undatedRows =
          some sorted →
        ¬ List.Sublist [datedRow 5 (.num 1), datedRow 6 (.num 1)] sorted := by
  have hv8 : sortedUsersV8 asciiBuiltins (js "created_at") (js "asc") undatedRows =
      some [datedRow 0 .undefined, datedRow 1 .undefined, datedRow 3 (.num 1),
        datedRow 6 (.num 1), datedRow 2 (.num 2), datedRow 4 .undefined,
        datedRow 5 (.num 1)] := by decide
  refine ⟨by decide, by decide, by decide, by decide, hv8, ?_⟩
  intro sorted hsorted
  rw [hv8] at hsorted
  cases hsorted
  decide

/-- C26 (amended): the sort is stable wherever the comparator is consistent.
When the comparator of the chosen column and order returns, for every two rows
of `filteredUsers`, the number a consistent integer comparator `c` gives (no
NaN, no exception), `sortedUsers` is computed, V8 computes the same list
(for fewer than 64 rows, where `arrayTimSort` is its algorithm), and two rows
that stand in this order in `filteredUsers` and compare equal stand in the
same order in `sortedUsers`.  For a `sortBy` that the comparator does not
recognise `sortedUsers` equals `filteredUsers`, also as V8 computes it. -/
theorem sortedUsers_stable_of_consistent (B : Builtins) (sortBy sortOrder : JSString)
    (filtered : List UserRow) :
    (∀ c : UserRow → UserRow → Int, ConsistentComparator c →
      (∀ a ∈ filtered, ∀ b ∈ filtered,
        compareUsers B sortBy sortOrder a b = some (.int (c a b))) →
      ∃ sorted, sortedUsers B sortBy sortOrder filtered = some sorted ∧
        (filtered.length < 64 → sortedUsersV8 B sortBy sortOrder filtered = some sorted) ∧
        ∀ a b, List.Sublist [a, b] filtered → c a b = 0 → List.Sublist [a, b] sorted) ∧
    (sortBy ≠ js "name" → sortBy ≠ js "email" → sortBy ≠ js "department" →
      sortBy ≠ js "created_at" → sortBy ≠ js "status" → sortBy ≠ js "isVerified" →
      sortedUsers B sortBy sortOrder filtered = some filtered ∧
        (filtered.length < 64 → sortedUsersV8 B sortBy sortOrder filtered = some filtered)) := by
  constructor
  · intro c hc h
    have hsorted := arraySort_eq_insertionSort (compareUsers B sortBy sortOrder) c filtered h
    refine ⟨_, hsorted, ?_, ?_⟩
    · intro _
      exact arrayTimSort_eq_insertionSort (compareUsers B sortBy sortOrder) c hc filtered h
    · intro a b hab hzero
      have ha : a ∈ filtered := hab.subset (by simp)
      have hb : b ∈ filtered := hab.subset (by simp)
      exact arraySort_pair _ filtered _ a b (.int (c a b)) hsorted hab (h a ha b hb)
        (le_of_eq hzero)
  · intro h1 h2 h3 h4 h5 h6
    have hzero := compareUsers_unrecognised B sortBy sortOrder h1 h2 h3 h4 h5 h6
    have hsame : sortedUsers B sortBy sortOrder filtered = some filtered :=
      arraySort_of_zero _ filtered hzero
    refine ⟨hsame, ?_⟩
    intro _
    unfold sortedUsersV8
    rw [arrayTimSort_eq_arraySort _ (fun _ _ => 0) consistent_zero filtered
      fun a _ b _ => hzero a b]
    exact hsame

/-- Witness of C26 (amended): the rows with instants 2, 1, 1, 1 sorted by
`created_at`:
the three rows with instant 1 keep their order, in `sortedUsers` and as V8
computes it; sorted by the verified flag, the first and third sample rows
(both verified) keep their order; sorted by "role", which the comparator does
not recognise, the sample rows keep theirs. -/
theorem sortedUsers_stable_of_consistent_witness :
    ConsistentComparator (dateCompare asciiBuiltins) ∧
      (∀ a ∈ datedRows, ∀ b ∈ datedRows,
        compareUsers asciiBuiltins (js "created_at") (js "asc") a b =
          some (.int (dateCompare asciiBuiltins a b))) ∧
      (∃ sorted, sortedUsers asciiBuiltins (js "created_at") (js "asc") datedRows =
          some sorted ∧
        sortedUsersV8 asciiBuiltins (js "created_at") (js "asc") datedRows = some sorted ∧
        ∀ a b, List.Sublist [a, b] datedRows → dateCompare asciiBuiltins a b = 0 →
          List.Sublist [a, b] sorted) ∧
      (sortedUsersV8 asciiBuiltins (js "created_at") (js "asc") datedRows).map
        (List.map fun u => u.id) = some [.num 3, .num 5, .num 6, .num 2] ∧
      (∃ sorted, sortedUsers asciiBuiltins (js "isVerified") (js "asc") sampleRows =
          some sorted ∧
        sortedUsersV8 asciiBuiltins (js "isVerified") (js "asc") sampleRows = some sorted ∧
        List.Sublist verifiedPair sorted) ∧
      (sortedUsers asciiBuiltins (js "role") (js "desc") sampleRows = some sampleRows ∧
        sortedUsersV8 asciiBuiltins (js "role") (js "desc") sampleRows = some sampleRows) :=
  have hdate : ∀ a ∈ datedRows, ∀ b ∈ datedRows,
      compareUsers asciiBuiltins (js "created_at") (js "asc") a b =
        some (.int (dateCompare asciiBuiltins a b)) := by decide
  have hverified : ∀ a ∈ sampleRows, ∀ b ∈ sampleRows,
      compareUsers asciiBuiltins (js "isVerified") (js "asc") a b =
        some (.int (verifiedCompare a b)) := by decide
  have hrole := (sortedUsers_stable_of_consistent asciiBuiltins (js "role") (js "desc")
    sampleRows).2 (by decide) (by decide) (by decide) (by decide) (by decide) (by decide)
  ⟨consistent_sub _, hdate,
    ((sortedUsers_stable_of_consistent asciiBuiltins (js "created_at") (js "asc")
      datedRows).1 _ (consistent_sub _) hdate).imp fun _ h =>
        ⟨h.1, h.2.1 (by decide), h.2.2⟩,
    by decide,
    ((sortedUsers_stable_of_consistent asciiBuiltins (js "isVerified") (js "asc")
      sampleRows).1 _ consistent_verifiedCompare hverified).imp fun _ h =>
        ⟨h.1, h.2.1 (by decide), h.2.2 _ _
          (List.Sublist.cons₂ _ (List.Sublist.cons _ (List.Sublist.cons₂ _ List.Sublist.slnil)))
          (by decide)⟩,
    ⟨hrole.1, hrole.2 (by decide)⟩⟩

/-! ## The user list: descending order as the reverse of ascending order -/

theorem ConsistentComparator.eq_zero_symm {α : Type} {c : α → α → Int}
    (hc : ConsistentComparator c) {a b : α} (h : c a b = 0) : c b a = 0 := by
  have h1 := hc.antisymm a b
  have h2 := hc.antisymm b a
  by_contra hne
  rcases lt_or_gt_of_ne hne with hlt | hgt
  · have := h1.mpr hlt
    omega
  · have := h2.mp hgt
    omega

theorem insertionSort_neg_eq_reverse {α : Type} (c : α → α → Int)
    (hc : ConsistentComparator c) (l : List α) (hnz : l.Pairwise fun a b => c a b ≠ 0) :
    l.insertionSort (fun a b => -c a b ≤ 0) = (l.insertionSort fun a b => c a b ≤ 0).reverse := by
  have hsymm : ∀ {x y : α}, c x y ≠ 0 → c y x ≠ 0 := fun h h0 => h (hc.eq_zero_symm h0)
  haveI : IsTotal α (fun a b => c a b ≤ 0) := ⟨hc.total⟩
  haveI : IsTrans α (fun a b => c a b ≤ 0) := ⟨hc.trans⟩
  haveI : IsTotal α (fun a b => -c a b ≤ 0) := ⟨hc.neg.total⟩
  haveI : IsTrans α (fun a b => -c a b ≤ 0) := ⟨hc.neg.trans⟩
  haveI : IsAntisymm α (fun a b => c b a < 0) :=
    ⟨fun a b hab hba => by
      have := (hc.antisymm a b).mpr hab
      omega⟩
  have hup_perm := List.perm_insertionSort (fun a b => c a b ≤ 0) l
  have hdown_perm := List.perm_insertionSort (fun a b => -c a b ≤ 0) l
  have hup_sorted := List.sorted_insertionSort (fun a b => c a b ≤ 0) l
  have hdown_sorted := List.sorted_insertionSort (fun a b => -c a b ≤ 0) l
  have hup_nz : (l.insertionSort fun a b => c a b ≤ 0).Pairwise fun a b => c a b ≠ 0 :=
    (hup_perm.pairwise_iff hsymm).mpr hnz
  have hdown_nz : (l.insertionSort fun a b => -c a b ≤ 0).Pairwise fun a b => c a b ≠ 0 :=
    (hdown_perm.pairwise_iff hsymm).mpr hnz
  have hdown : (l.insertionSort fun a b => -c a b ≤ 0).Pairwise fun a b => c b a < 0 := by
    refine (List.Pairwise.and hdown_sorted hdown_nz).imp ?_
    rintro a b ⟨hle, hne⟩
    have hpos : 0 < c a b := by
      simp only [Left.neg_nonpos_iff] at hle
      omega
    exact (hc.antisymm a b).mp hpos
  have hup : (l.insertionSort fun a b => c a b ≤ 0).reverse.Pairwise fun a b => c b a < 0 := by
    rw [List.pairwise_reverse]
    refine (List.Pairwise.and hup_sorted hup_nz).imp ?_
    rintro a b ⟨hle, hne⟩
    omega
  refine List.eq_of_perm_of_sorted ?_ hdown hup
  exact hdown_perm.trans (hup_perm.symm.trans (List.reverse_perm _).symm)

theorem sortedUsers_reverse_of_consistent (B : Builtins) (sortBy : JSString)
    (filtered : List UserRow) (c : UserRow → UserRow → Int) (hc : ConsistentComparator c)
    (hcmp : ∀ order, ∀ a ∈ filtered, ∀ b ∈ filtered,
      compareUsers B sortBy order a b =
        some (.int (if order = js "asc" then c a b else -c a b)))
    (hnz : filtered.Pairwise fun a b => c a b ≠ 0) :
    ∃ ascending, sortedUsers B sortBy (js "asc") filtered = some ascending ∧
      sortedUsers B sortBy (js "desc") filtered = some ascending.reverse := by
  have hdesc : js "desc" ≠ js "asc" := by decide
  refine ⟨filtered.insertionSort fun a b => c a b ≤ 0, ?_, ?_⟩
  · unfold sortedUsers
    apply arraySort_eq_insertionSort
    intro a ha b hb
    rw [hcmp _ a ha b hb, if_pos rfl]
  · unfold sortedUsers
    rw [← insertionSort_neg_eq_reverse c hc filtered hnz]
    apply arraySort_eq_insertionSort _ (fun a b => -c a b)
    intro a ha b hb
    rw [hcmp _ a ha b hb, if_neg hdesc]

theorem dateValue_eq_of_columnLE (B : Builtins) (a b : UserRow)
    (hab : ColumnLE B (js "created_at") a b) (hba : ColumnLE B (js "created_at") b a) :
    B.dateValue a.created_at = B.dateValue b.created_at := by
  unfold ColumnLE at hab hba
  rw [if_pos rfl] at hab hba
  obtain ⟨x, y, hx, hy, hxy⟩ := hab
  obtain ⟨y', x', hy', hx', hyx⟩ := hba
  rw [hx] at hx'
  rw [hy] at hy'
  cases hx'
  cases hy'
  rw [hx, hy]
  congr 1
  omega

/-- C27 (as stated, refuted): two rows whose names are distinct strings, the
two canonically equivalent spellings of é, compare equal under
`localeCompare`; sorted by name, ascending and descending give the same list,
which is not its own reverse. -/
theorem equivalent_names_not_reversed :
    ConsistentComparator unicodeSampleBuiltins.localeCompare ∧
      accentRows.Pairwise (fun a b => a.name ≠ b.name) ∧
      (∀ u ∈ accentRows, ColumnDefined unicodeSampleBuiltins (js "name") u) ∧
      sortedUsers unicodeSampleBuiltins (js "name") (js "asc") accentRows = some accentRows ∧
      sortedUsers unicodeSampleBuiltins (js "name") (js "desc") accentRows = some accentRows ∧
      accentRows.reverse ≠ accentRows := by
  refine ⟨consistent_compareUnits.comap decomposeSample, by decide, by decide, by decide,
    by decide, by decide⟩

/-- C27 (amended): for `sortBy` among name, email, status and created_at, rows
that have a key in that column, and no two rows that compare equal in the
column (`localeCompare` is not 0 on their texts, their instants differ), the
`sortedUsers` computed with "desc" is the reverse of the one computed with
"asc". -/
theorem sortedUsers_desc_reverse (B : Builtins) (hB : ConsistentComparator B.localeCompare)
    (sortBy : JSString) (filtered : List UserRow)
    (hcol : sortBy = js "name" ∨ sortBy = js "email" ∨ sortBy = js "status" ∨
      sortBy = js "created_at")
    (hrows : ∀ u ∈ filtered, ColumnDefined B sortBy u)
    (hdistinct : filtered.Pairwise fun a b =>
      ¬ (ColumnLE B sortBy a b ∧ ColumnLE B sortBy b a)) :
    ∃ ascending, sortedUsers B sortBy (js "asc") filtered = some ascending ∧
      sortedUsers B sortBy (js "desc") filtered = some ascending.reverse := by
  by_cases hdate : sortBy = js "created_at"
  · subst hdate
    have hdef : ∀ u ∈ filtered, (B.dateValue u.created_at).isSome = true := by
      intro u hu
      have := hrows u hu
      unfold ColumnDefined at this
      rwa [if_pos rfl] at this
    have hc : ConsistentComparator (dateCompare B) :=
      consistent_sub fun u : UserRow => (B.dateValue u.created_at).getD 0
    refine sortedUsers_reverse_of_consistent B _ filtered (dateCompare B) hc
      (fun order a ha b hb => compareUsers_date B order a b (hdef a ha) (hdef b hb)) ?_
    refine hdistinct.imp_of_mem ?_
    intro a b ha hb hne hzero
    apply hne
    exact ⟨columnLE_of_dateCompare B a b (hrows a ha) (hrows b hb) (le_of_eq hzero),
      columnLE_of_dateCompare B b a (hrows b hb) (hrows a ha)
        (le_of_eq (hc.eq_zero_symm hzero))⟩
  · have htext : sortBy = js "name" ∨ sortBy = js "email" ∨ sortBy = js "status" := by tauto
    have hdef : ∀ u ∈ filtered, (columnText sortBy u).isStr = true := by
      intro u hu
      have := hrows u hu
      unfold ColumnDefined at this
      rwa [if_neg hdate] at this
    have hc : ConsistentComparator (textCompare B sortBy) :=
      hB.comap fun u => (columnText sortBy u).toJSString
    refine sortedUsers_reverse_of_consistent B _ filtered (textCompare B sortBy) hc
      (fun order a ha b _ => compareUsers_text B sortBy order a b htext (hdef a ha)) ?_
    refine hdistinct.imp_of_mem ?_
    intro a b ha hb hne hzero
    apply hne
    exact ⟨columnLE_of_textCompare B sortBy a b hdate (hrows a ha) (hrows b hb)
        (le_of_eq hzero),
      columnLE_of_textCompare B sortBy b a hdate (hrows b hb) (hrows a ha)
        (le_of_eq (hc.eq_zero_symm hzero))⟩

/-- Witness of C27 (amended): the sample rows, whose instants 300, 100, 200
differ, sorted by `created_at` in both orders. -/
theorem sortedUsers_desc_reverse_witness :
    (sortedUsers asciiBuiltins (js "created_at") (js "asc") sampleRows).map
        (List.map fun u => u.created_at) = some [.num 100, .num 200, .num 300] ∧
      (sortedUsers asciiBuiltins (js "created_at") (js "desc") sampleRows).map
        (List.map fun u => u.created_at) = some [.num 300, .num 200, .num 100] ∧
      ∃ ascending,
        sortedUsers asciiBuiltins (js "created_at") (js "asc") sampleRows = some ascending ∧
        sortedUsers asciiBuiltins (js "created_at") (js "desc") sampleRows =
          some ascending.reverse :=
  have hinstants : sampleRows.Pairwise fun a b =>
      asciiBuiltins.dateValue a.created_at ≠ asciiBuiltins.dateValue b.created_at := by decide
  ⟨by decide, by decide,
    sortedUsers_desc_reverse asciiBuiltins consistent_compareUnits (js "created_at") sampleRows
      (Or.inr (Or.inr (Or.inr rfl))) (by decide)
      (hinstants.imp fun hne hle => hne (dateValue_eq_of_columnLE _ _ _ hle.1 hle.2))⟩

/-! ## The user list: narrowing of the search -/

theorem includes_narrow (x lower₁ lower₂ : JSString) (h : lower₁ <:+: lower₂)
    (h2 : includes x lower₂ = true) : includes x lower₁ = true :=
  (includes_iff_contiguous x lower₁).mpr (h.trans ((includes_iff_contiguous x lower₂).mp h2))

theorem includes_narrow_false (x lower₁ lower₂ : JSString) (h : lower₁ <:+: lower₂)
    (h1 : includes x lower₁ = false) : includes x lower₂ = false := by
  rw [← Bool.not_eq_true] at h1 ⊢
  exact fun h2 => h1 (includes_narrow x lower₁ lower₂ h h2)

theorem matchesSearch_narrow (B : Builtins) (t₁ t₂ : JSString)
    (hlower : B.toLowerCase t₁ <:+: B.toLowerCase t₂) (user : UserRow) (b₂ : Bool)
    (h : matchesSearch B t₂ user = some b₂) :
    ∃ b₁, matchesSearch B t₁ user = some b₁ ∧ (b₂ = true → b₁ = true) := by
  obtain ⟨id, name, email, role, created, status, shown, verified, department⟩ := user
  unfold matchesSearch at h ⊢
  cases name with
  | str n =>
    simp only [JSValue.asString] at h ⊢
    cases hn1 : includes (B.toLowerCase n) (B.toLowerCase t₁) with
    | true => exact ⟨true, by simp, fun _ => rfl⟩
    | false =>
      have hn2 := includes_narrow_false _ _ _ hlower hn1
      simp only [hn2, Bool.false_eq_true, if_false] at h ⊢
      cases email with
      | str e =>
        simp only at h ⊢
        cases he1 : includes (B.toLowerCase e) (B.toLowerCase t₁) with
        | true => exact ⟨true, by simp, fun _ => rfl⟩
        | false =>
          have he2 := includes_narrow_false _ _ _ hlower he1
          simp only [he2, Bool.false_eq_true, if_false] at h ⊢
          by_cases hd : (!department.truthy) = true
          · simp only [hd, if_true] at h ⊢
            exact ⟨false, rfl, fun hb => by rw [← Option.some.inj h] at hb; exact hb⟩
          · simp only [hd, Bool.false_eq_true, if_false] at h ⊢
            cases department with
            | str d =>
                simp only [Option.some.injEq] at h ⊢
                refine ⟨_, rfl, fun hb => ?_⟩
                rw [← h] at hb
                exact includes_narrow _ _ _ hlower hb
            | undefined => simp at h
            | null => simp at h
            | bool v => simp at h
            | num k => simp at h
      | undefined => simp at h
      | null => simp at h
      | bool v => simp at h
      | num k => simp at h
  | undefined => simp [JSValue.asString] at h
  | null => simp [JSValue.asString] at h
  | bool v => simp [JSValue.asString] at h
  | num k => simp [JSValue.asString] at h

theorem filterCallback_narrow (B : Builtins) (t₁ t₂ filterRole filterStatus : JSString)
    (hlower : B.toLowerCase t₁ <:+: B.toLowerCase t₂) (user : UserRow) (b₂ : Bool)
    (h : filterCallback B t₂ filterRole filterStatus user = some b₂) :
    ∃ b₁, filterCallback B t₁ filterRole filterStatus user = some b₁ ∧
      (b₂ = true → b₁ = true) := by
  unfold filterCallback at h ⊢
  cases hm : matchesSearch B t₂ user with
  | none =>
      rw [hm] at h
      cases h
  | some found₂ =>
      obtain ⟨found₁, h1, himp⟩ := matchesSearch_narrow B t₁ t₂ hlower user found₂ hm
      rw [hm] at h
      rw [h1]
      simp only [Option.some.injEq] at h ⊢
      refine ⟨_, rfl, ?_⟩
      rw [← h]
      simp only [Bool.and_eq_true]
      rintro ⟨⟨hf, hr⟩, hs⟩
      exact ⟨⟨himp hf, hr⟩, hs⟩

theorem filterThrowing_narrow {α : Type} (p₁ p₂ : α → Option Bool) (l shown₂ : List α)
    (hp : ∀ a b₂, p₂ a = some b₂ → ∃ b₁, p₁ a = some b₁ ∧ (b₂ = true → b₁ = true))
    (h : filterThrowing p₂ l = some shown₂) :
    ∃ shown₁, filterThrowing p₁ l = some shown₁ ∧ List.Sublist shown₂ shown₁ := by
  induction l generalizing shown₂ with
  | nil =>
      cases h
      exact ⟨[], rfl, List.Sublist.slnil⟩
  | cons a as ih =>
      unfold filterThrowing at h ⊢
      cases h2 : p₂ a with
      | none =>
          rw [h2] at h
          cases h
      | some keep₂ =>
          rw [h2] at h
          cases hrest : filterThrowing p₂ as with
          | none =>
              rw [hrest] at h
              cases h
          | some rest₂ =>
              rw [hrest] at h
              cases h
              obtain ⟨keep₁, h1, himp⟩ := hp a keep₂ h2
              obtain ⟨rest₁, hr1, hsub⟩ := ih rest₂ hrest
              rw [h1, hr1]
              refine ⟨_, rfl, ?_⟩
              cases keep₂ with
              | true =>
                  rw [himp rfl]
                  exact hsub.cons₂ a
              | false =>
                  cases keep₁ with
                  | true => exact hsub.cons a
                  | false => exact hsub

theorem asciiLower_narrow (t₁ t₂ : JSString) (h : t₁ <:+: t₂) :
    asciiBuiltins.toLowerCase t₁ <:+: asciiBuiltins.toLowerCase t₂ := by
  obtain ⟨pre, post, rfl⟩ := h
  exact ⟨pre.map asciiLower, post.map asciiLower, by simp [asciiBuiltins]⟩

/-- C30 (as stated, refuted): "Σ" is a substring of "ΑΣ", and the row named
"ΑΣ" is in `filteredUsers` for the term "ΑΣ" but not for the term "Σ": the
final sigma of the name and of "ΑΣ" lower-cases to ς, the lone "Σ" to σ. -/
theorem sigma_search_not_monotone :
    ([0x3A3] : JSString) <:+: [0x391, 0x3A3] ∧
      filteredUsers unicodeSampleBuiltins sigmaRows [0x391, 0x3A3] (js "all") (js "all") =
        some sigmaRows ∧
      filteredUsers unicodeSampleBuiltins sigmaRows [0x3A3] (js "all") (js "all") = some [] ∧
      sigmaRows ≠ [] := by
  refine ⟨⟨[0x391], [], rfl⟩, by decide, by decide, by decide⟩

/-- C30 (amended): when the lower-cased term `t₁` is a substring of the
lower-cased term `t₂`, the rows of `filteredUsers` for `t₂` are, in the same
order, among the rows of `filteredUsers` for `t₁`; with the empty term and
both filters "all", `filteredUsers` is the full users list (names being
strings, and the empty string lower-casing to itself). -/
theorem filteredUsers_narrows (B : Builtins) (users : List UserRow)
    (filterRole filterStatus t₁ t₂ : JSString)
    (hlower : B.toLowerCase t₁ <:+: B.toLowerCase t₂) :
    (∀ shown₂, filteredUsers B users t₂ filterRole filterStatus = some shown₂ →
      ∃ shown₁, filteredUsers B users t₁ filterRole filterStatus = some shown₁ ∧
        List.Sublist shown₂ shown₁) ∧
    (B.toLowerCase [] = [] → (∀ u ∈ users, u.name.isStr = true) →
      filteredUsers B users [] (js "all") (js "all") = some users) := by
  constructor
  · intro shown₂ h
    unfold filteredUsers at h ⊢
    exact filterThrowing_narrow _ _ users shown₂
      (fun u b₂ => filterCallback_narrow B t₁ t₂ filterRole filterStatus hlower u b₂) h
  · intro hnil hnames
    unfold filteredUsers
    rw [filterThrowing_eq_filter _ (fun _ => true) users]
    · simp
    · intro u hu
      obtain ⟨n, hn⟩ : ∃ n, u.name = .str n := by
        have := hnames u hu
        cases hname : u.name with
        | str n => exact ⟨n, rfl⟩
        | undefined => rw [hname] at this; cases this
        | null => rw [hname] at this; cases this
        | bool v => rw [hname] at this; cases this
        | num k => rw [hname] at this; cases this
      have hinc : includes (B.toLowerCase n) (B.toLowerCase []) = true := by
        rw [includes_iff_contiguous, hnil]
        exact List.nil_infix
      have hall : decide (js "all" = js "all") = true := by decide
      simp only [filterCallback, matchesSearch, hn, JSValue.asString, hinc, if_true,
        matchesRole, matchesStatus, hall, Bool.true_or, Bool.and_self]
      simp

/-- Witness of C30 (amended): on the sample rows the term "car" shows the row
of carol, the term "c" shows all three rows (by name or e-mail), and the empty
term shows all rows. -/
theorem filteredUsers_narrows_witness :
    (filteredUsers asciiBuiltins sampleRows (js "car") (js "all") (js "all")).map
        (List.map fun u => u.id) = some [.num 3] ∧
      (filteredUsers asciiBuiltins sampleRows (js "c") (js "all") (js "all")).map
        (List.map fun u => u.id) = some [.num 1, .num 2, .num 3] ∧
      filteredUsers asciiBuiltins sampleRows [] (js "all") (js "all") = some sampleRows ∧
      ∀ shown₂, filteredUsers asciiBuiltins sampleRows (js "car") (js "all") (js "all") =
          some shown₂ →
        ∃ shown₁, filteredUsers asciiBuiltins sampleRows (js "c") (js "all") (js "all") =
            some shown₁ ∧
          List.Sublist shown₂ shown₁ :=
  have h := filteredUsers_narrows asciiBuiltins sampleRows (js "all") (js "all") (js "c")
    (js "car") (asciiLower_narrow _ _ ⟨[], js "ar", rfl⟩)
  ⟨by decide, by decide, h.2 rfl (by decide), h.1⟩

end StackIT
